import Mathlib

/-!
CVSS v3.1 scoring (`src/score/cvss.h`): embedding and properties.

The class `score::CVSS` is embedded function by function.

* `std::string` is `String`; where the source walks over characters the
  string is taken as its `List Char`.
* `double` is `ℚ` with exact arithmetic: every constant of the source is a
  finite decimal, and `pow` is only used with the exponents 15 and 13.
  `roundUp1Double` is `roundUp1` with the result of every operation rounded
  to a double by `binary64`, the rounding of IEEE 754.
* `std::map<std::string, T>` is an association list `StdMap T`. The source
  reads its maps with `operator[]`, which inserts a value-initialised entry
  when the key is absent; `StdMap.index` returns the value read together
  with the map after the read.
* `CVSS::Weight` is a mutable static member, so every function that reads it
  takes the current table and returns the table it leaves behind.
-/

namespace CVSS

/-! ## `std::map` -/

/-- A `std::map<std::string, α>` as an association list. -/
abbrev StdMap (α : Type) := List (String × α)

/-- The lookup `m.find(key)`: the value stored under `key`, if any. -/
def StdMap.find {α : Type} : StdMap α → String → Option α
  | [], _ => none
  | (k, a) :: rest, key => if key = k then some a else StdMap.find rest key

/-- The statement `m[key] = a`, an assignment: overwrite the entry of `key`, or add it. -/
def StdMap.assign {α : Type} : StdMap α → String → α → StdMap α
  | [], key, a => [(key, a)]
  | (k, b) :: rest, key, a =>
    if key = k then (k, a) :: rest else (k, b) :: StdMap.assign rest key a

/-- The expression `m[key]` as a read: the value under `key`; an absent key is first
inserted with the value-initialised `dflt`. -/
def StdMap.index {α : Type} (m : StdMap α) (key : String) (dflt : α) : α × StdMap α :=
  match m.find key with
  | some a => (a, m)
  | none => (dflt, m.assign key dflt)

/-! ## Static data -/

/-- The result record `CVSS::ResultT`. -/
structure ResultT where
  success : Bool
  errorType : String
  errorMessage : String
  baseMetricScore : ℚ
  baseSeverity : String
  baseISS : ℚ
  baseImpact : ℚ
  baseExploitability : ℚ
  temporalMetricScore : ℚ
  temporalSeverity : String
  environmentalMetricScore : ℚ
  environmentalSeverity : String
  environmentalMISS : ℚ
  environmentalModifiedImpact : ℚ
  environmentalModifiedExploitability : ℚ
  vectorString : String
  baseMetricsValues : StdMap String
  deriving DecidableEq

/-- The aggregate `ResultT{false, errorType, errorMessage}`: the members that
are not listed are value-initialised (0, empty string, empty map). -/
def ResultT.failure (errorType errorMessage : String) : ResultT :=
  ⟨false, errorType, errorMessage, 0, "", 0, 0, 0, 0, "", 0, "", 0, 0, 0, "", []⟩

/-- The type of `CVSS::Weight`. -/
abbrev WeightTable := StdMap (StdMap ℚ)

/-- The initial value of the static member `CVSS::Weight`. -/
def Weight : WeightTable := [
  ("AV",  [("N", 0.85), ("A", 0.62), ("L", 0.55), ("P", 0.20)]),
  ("AC",  [("H", 0.44), ("L", 0.77)]),
  ("PRU", [("N", 0.85), ("L", 0.62), ("H", 0.27)]),
  ("PRC", [("N", 0.85), ("L", 0.68), ("H", 0.50)]),
  ("UI",  [("N", 0.85), ("R", 0.62)]),
  ("S",   [("U", 6.42), ("C", 7.52)]),
  ("CIA", [("N", 0.00), ("L", 0.22), ("H", 0.56)]),
  ("E",   [("X", 1.00), ("U", 0.19), ("P", 0.94), ("F", 0.97), ("H", 1.00)]),
  ("RL",  [("X", 1.00), ("O", 0.95), ("T", 0.96), ("W", 0.97), ("U", 1.00)]),
  ("RC",  [("X", 1.00), ("U", 0.92), ("R", 0.96), ("C", 1.00)]),
  ("CIAR", [("X", 1.00), ("L", 0.50), ("M", 1.00), ("H", 1.50)])]

/-- The static member `CVSS::severityRatings`, name ↦ (bottom, top). The
entries are listed in key order, the order in which a range-for visits a
`std::map`. -/
def severityRatings : StdMap (ℚ × ℚ) := [
  ("Critical", (9.0, 10.0)),
  ("High",     (7.0, 8.9)),
  ("Low",      (0.1, 3.9)),
  ("Medium",   (4.0, 6.9)),
  ("None",     (0.0, 0.0))]

/-- The constant `CVSS::CVSSVersionIdentifier`. -/
def CVSSVersionIdentifier : String := "CVSS:3.1"

/-- The constant `CVSS::exploitabilityCoefficient`. -/
def exploitabilityCoefficient : ℚ := 8.22

/-- The constant `CVSS::scopeCoefficient`. -/
def scopeCoefficient : ℚ := 1.08

/-! ## Rounding and severity -/

/-- C `round`: the nearest integer, halfway cases away from zero. -/
def cround (x : ℚ) : ℤ := if 0 ≤ x then ⌊x + 1 / 2⌋ else ⌈x - 1 / 2⌉

/-- The function `CVSS::roundUp1`, with exact arithmetic.
`std::remainder(int_input, 10000) == 0` holds exactly when the integer
`int_input` is a multiple of 10000. -/
def roundUp1 (input : ℚ) : ℚ :=
  let int_input : ℤ := cround (input * 100000)
  if int_input % 10000 = 0 then
    (int_input : ℚ) / 100000
  else
    ((⌊(int_input : ℚ) / 10000⌋ : ℤ) + 1 : ℚ) / 10

/-- The range-for of `CVSS::severityRating` over a band table. -/
def severityScan (score : ℚ) : StdMap (ℚ × ℚ) → String
  | [] => "undefined"
  | (name, (bottom, top)) :: rest =>
    if score ≥ bottom ∧ score ≤ top then name else severityScan score rest

/-- The function `CVSS::severityRating`. `std::to_string` prints a double as `%f`, and the
pattern `^[0-9]+\.?[0-9]*$` rejects that text exactly when it starts with a
minus sign, so for a number the test is `score < 0`. -/
def severityRating (score : ℚ) : String :=
  if score < 0 then "NaN" else severityScan score severityRatings

/-! ## `calculateCVSSFromMetrics` -/

/-- The read `CVSS::Weight[k][v]`: the weight read and the table after the read. The
outer `operator[]` inserts an empty inner map under an absent `k`, the inner
one inserts `0.0` under an absent `v`. -/
def weightAt (W : WeightTable) (k v : String) : ℚ × WeightTable :=
  let outer := W.index k []
  let inner := outer.1.index v 0
  (inner.1, outer.2.assign k inner.2)

/-- The `std::copy` of `badMetrics` to an `ostream_iterator` with delimiter
`", "`: every element is followed by the delimiter. -/
def joinMetrics (badMetrics : List String) : String :=
  badMetrics.foldl (fun acc s => acc ++ s ++ ", ") ""

/-- One line of the block "ENSURE ALL BASE METRICS ARE DEFINED":
`if (v == "undefined" || v == "") { badMetrics.push_back(id); }`. -/
def checkDefined (id v : String) (badMetrics : List String) : List String :=
  if v = "undefined" ∨ v = "" then badMetrics ++ [id] else badMetrics

/-- One line of the block "CHECK VALIDITY OF METRIC VALUES" for a Base or
Temporal metric: `if (!CVSS::Weight[k][v]) {badMetrics.push_back(id);}`. -/
def checkWeight (id k v : String) (st : List String × WeightTable) :
    List String × WeightTable :=
  let r := weightAt st.2 k v
  (if r.1 = 0 then st.1 ++ [id] else st.1, r.2)

/-- One line of the same block for an Environmental metric:
`if (!(v == "X" || CVSS::Weight[k][v])) {badMetrics.push_back(id);}`. The
table is only read when `v` is not `"X"`. -/
def checkWeightOrX (id k v : String) (st : List String × WeightTable) :
    List String × WeightTable :=
  if v = "X" then st else checkWeight id k v st

/-- The block "ENSURE ALL BASE METRICS ARE DEFINED" (lines 185-192). -/
def missingBaseMetrics (AV AC PR UI S C I A : String) : List String :=
  [] |> checkDefined "AV" AV
     |> checkDefined "AC" AC
     |> checkDefined "PR" PR
     |> checkDefined "UI" UI
     |> checkDefined "S" S
     |> checkDefined "C" C
     |> checkDefined "I" I
     |> checkDefined "A" A

/-- The block "CHECK VALIDITY OF METRIC VALUES" (lines 249-272): the metrics
found bad, and the table after the reads. -/
def checkMetricValues (W : WeightTable)
    (AV AC PR UI S C I A E RL RC CR IR AR MAV MAC MPR MUI MS MC MI MA : String) :
    List String × WeightTable :=
  (([] : List String), W)
    |> checkWeight "AV" "AV" AV
    |> checkWeight "AC" "AC" AC
    |> checkWeight "PR" "PRU" PR
    |> checkWeight "UI" "UI" UI
    |> checkWeight "S" "S" S
    |> checkWeight "C" "CIA" C
    |> checkWeight "I" "CIA" I
    |> checkWeight "A" "CIA" A
    |> checkWeight "E" "E" E
    |> checkWeight "RL" "RL" RL
    |> checkWeight "RC" "RC" RC
    |> checkWeightOrX "CR" "CR" CR
    |> checkWeightOrX "IR" "IR" IR
    |> checkWeightOrX "AR" "AR" AR
    |> checkWeightOrX "MAV" "MAV" MAV
    |> checkWeightOrX "MAC" "MAC" MAC
    |> checkWeightOrX "MPR" "MPR" MPR
    |> checkWeightOrX "MUI" "MUI" MUI
    |> checkWeightOrX "MS" "MS" MS
    |> checkWeightOrX "MC" "MC" MC
    |> checkWeightOrX "MI" "MI" MI
    |> checkWeightOrX "MA" "MA" MA

/-- The local variables `metricWeightAV` ... `metricWeightMA`. -/
structure MetricWeights where
  AV : ℚ
  AC : ℚ
  PR : ℚ
  UI : ℚ
  S : ℚ
  C : ℚ
  I : ℚ
  A : ℚ
  E : ℚ
  RL : ℚ
  RC : ℚ
  CR : ℚ
  IR : ℚ
  AR : ℚ
  MAV : ℚ
  MAC : ℚ
  MPR : ℚ
  MUI : ℚ
  MS : ℚ
  MC : ℚ
  MI : ℚ
  MA : ℚ
  deriving DecidableEq

/-- The block "GATHER WEIGHTS FOR ALL METRICS" (lines 290-315): the 22
weights in the order in which they are read, and the table after the reads. -/
def gatherWeights (W : WeightTable)
    (AV AC PR UI S C I A E RL RC CR IR AR MAV MAC MPR MUI MS MC MI MA : String) :
    MetricWeights × WeightTable :=
  let rAV := weightAt W "AV" AV
  let rAC := weightAt rAV.2 "AC" AC
  let rPR := weightAt rAC.2 ("PR" ++ S) PR
  let rUI := weightAt rPR.2 "UI" UI
  let rS := weightAt rUI.2 "S" S
  let rC := weightAt rS.2 "CIA" C
  let rI := weightAt rC.2 "CIA" I
  let rA := weightAt rI.2 "CIA" A
  let rE := weightAt rA.2 "E" E
  let rRL := weightAt rE.2 "RL" RL
  let rRC := weightAt rRL.2 "RC" RC
  let rCR := weightAt rRC.2 "CIAR" CR
  let rIR := weightAt rCR.2 "CIAR" IR
  let rAR := weightAt rIR.2 "CIAR" AR
  let rMAV := weightAt rAR.2 "AV" (if MAV ≠ "X" then MAV else AV)
  let rMAC := weightAt rMAV.2 "AC" (if MAC ≠ "X" then MAC else AC)
  let rMPR := weightAt rMAC.2 ("PR" ++ (if MS ≠ "X" then MS else S))
    (if MPR ≠ "X" then MPR else PR)
  let rMUI := weightAt rMPR.2 "UI" (if MUI ≠ "X" then MUI else UI)
  let rMS := weightAt rMUI.2 "S" (if MS ≠ "X" then MS else S)
  let rMC := weightAt rMS.2 "CIA" (if MC ≠ "X" then MC else C)
  let rMI := weightAt rMC.2 "CIA" (if MI ≠ "X" then MI else I)
  let rMA := weightAt rMI.2 "CIA" (if MA ≠ "X" then MA else A)
  (⟨rAV.1, rAC.1, rPR.1, rUI.1, rS.1, rC.1, rI.1, rA.1, rE.1, rRL.1, rRC.1,
    rCR.1, rIR.1, rAR.1, rMAV.1, rMAC.1, rMPR.1, rMUI.1, rMS.1, rMC.1, rMI.1, rMA.1⟩,
   rMA.2)

/-- The local `iss` (line 326). -/
def baseISS (w : MetricWeights) : ℚ :=
  1 - ((1 - w.C) * (1 - w.I) * (1 - w.A))

/-- The local `impact` (lines 328-335). -/
def baseImpact (w : MetricWeights) (S : String) : ℚ :=
  if S = "U" then
    w.S * baseISS w
  else
    w.S * (baseISS w - 0.029) - 3.25 * (baseISS w - 0.02) ^ 15

/-- The local `exploitability` (line 337). -/
def baseExploitability (w : MetricWeights) : ℚ :=
  exploitabilityCoefficient * w.AV * w.AC * w.PR * w.UI

/-- The local `baseScore` (lines 339-353). -/
def baseScore (w : MetricWeights) (S : String) : ℚ :=
  if baseImpact w S ≤ 0 then
    0
  else if S = "U" then
    roundUp1 (min (baseExploitability w + baseImpact w S) 10.0)
  else
    roundUp1 (min (scopeCoefficient * (baseExploitability w + baseImpact w S)) 10.0)

/-- The local `temporalScore` (line 357). -/
def temporalScore (w : MetricWeights) (S : String) : ℚ :=
  roundUp1 (baseScore w S * w.E * w.RL * w.RC)

/-- The local `miss` (lines 373-376). -/
def envMISS (w : MetricWeights) : ℚ :=
  min (1 - ((1 - w.MC * w.CR) * (1 - w.MI * w.IR) * (1 - w.MA * w.AR))) 0.915

/-- The local `modifiedImpact` (lines 378-386). -/
def modifiedImpact (w : MetricWeights) (S MS : String) : ℚ :=
  if MS = "U" ∨ (MS = "X" ∧ S = "U") then
    w.MS * envMISS w
  else
    w.MS * (envMISS w - 0.029) - 3.25 * (envMISS w * 0.9731 - 0.02) ^ 13

/-- The local `modifiedExploitability` (line 388). -/
def modifiedExploitability (w : MetricWeights) : ℚ :=
  exploitabilityCoefficient * w.MAV * w.MAC * w.MPR * w.MUI

/-- The local `envScore` (lines 390-403). -/
def envScore (w : MetricWeights) (S MS : String) : ℚ :=
  if modifiedImpact w S MS ≤ 0 then
    0
  else if MS = "U" ∨ (MS = "X" ∧ S = "U") then
    roundUp1 (roundUp1 (min (modifiedImpact w S MS + modifiedExploitability w) 10.0) *
      w.E * w.RL * w.RC)
  else
    roundUp1 (roundUp1 (min (scopeCoefficient *
      (modifiedImpact w S MS + modifiedExploitability w)) 10.0) * w.E * w.RL * w.RC)

/-- One line of the block "CONSTRUCT THE VECTOR STRING" for an optional
metric: `if (v != "X") {vectorString = vectorString + tag + v;}`. -/
def appendUnlessX (tag v : String) (vectorString : String) : String :=
  if v ≠ "X" then vectorString ++ tag ++ v else vectorString

/-- The block "CONSTRUCT THE VECTOR STRING" (lines 408-433). -/
def constructVectorString
    (AV AC PR UI S C I A E RL RC CR IR AR MAV MAC MPR MUI MS MC MI MA : String) : String :=
  (CVSSVersionIdentifier ++ "/AV:" ++ AV ++ "/AC:" ++ AC ++ "/PR:" ++ PR ++ "/UI:" ++ UI ++
    "/S:" ++ S ++ "/C:" ++ C ++ "/I:" ++ I ++ "/A:" ++ A)
    |> appendUnlessX "/E:" E
    |> appendUnlessX "/RL:" RL
    |> appendUnlessX "/RC:" RC
    |> appendUnlessX "/CR:" CR
    |> appendUnlessX "/IR:" IR
    |> appendUnlessX "/AR:" AR
    |> appendUnlessX "/MAV:" MAV
    |> appendUnlessX "/MAC:" MAC
    |> appendUnlessX "/MPR:" MPR
    |> appendUnlessX "/MUI:" MUI
    |> appendUnlessX "/MS:" MS
    |> appendUnlessX "/MC:" MC
    |> appendUnlessX "/MI:" MI
    |> appendUnlessX "/MA:" MA

/-- The successful `return ResultT{...}` (lines 435-461). -/
def successResult (w : MetricWeights)
    (AV AC PR UI S C I A E RL RC CR IR AR MAV MAC MPR MUI MS MC MI MA : String) : ResultT :=
  ⟨true, "", "",
   baseScore w S, severityRating (baseScore w S), baseISS w, baseImpact w S,
   baseExploitability w,
   temporalScore w S, severityRating (temporalScore w S),
   envScore w S MS, severityRating (envScore w S MS), envMISS w, modifiedImpact w S MS,
   modifiedExploitability w,
   constructVectorString AV AC PR UI S C I A E RL RC CR IR AR MAV MAC MPR MUI MS MC MI MA,
   [("AV", AV), ("AC", AC), ("PR", PR), ("UI", UI), ("S", S), ("C", C), ("I", I), ("A", A)]⟩

/-- The function `CVSS::calculateCVSSFromMetrics`, called in the table state `W`: the
result and the table the call leaves behind. -/
def calculateCVSSFromMetrics (W : WeightTable)
    (AV AC PR UI S C I A E RL RC CR IR AR MAV MAC MPR MUI MS MC MI MA : String) :
    ResultT × WeightTable :=
  let badMetrics := missingBaseMetrics AV AC PR UI S C I A
  if badMetrics.length > 0 then
    (ResultT.failure "MissingBaseMetric" (joinMetrics badMetrics), W)
  else
    let checked := checkMetricValues W
      AV AC PR UI S C I A E RL RC CR IR AR MAV MAC MPR MUI MS MC MI MA
    if checked.1.length > 0 then
      (ResultT.failure "UnknownMetricValue" (joinMetrics checked.1), checked.2)
    else
      let gathered := gatherWeights checked.2
        AV AC PR UI S C I A E RL RC CR IR AR MAV MAC MPR MUI MS MC MI MA
      (successResult gathered.1
        AV AC PR UI S C I A E RL RC CR IR AR MAV MAC MPR MUI MS MC MI MA, gathered.2)

/-! ## `calculateCVSSFromVector` -/

/-- A run of literal characters in a pattern. -/
def lit : List Char → RegularExpression Char
  | [] => 1
  | c :: cs => RegularExpression.char c * lit cs

/-- A bracket expression `[...]` in a pattern. -/
def cls : List Char → RegularExpression Char
  | [] => 0
  | c :: cs => RegularExpression.char c + cls cs

/-- The alternation of the 16 token patterns, which `CVSS::vectorStringRegex`
repeats twice, in the order in which the source writes them. -/
def metricToken : RegularExpression Char :=
  lit "AV:".toList * cls "NALP".toList +
  lit "AC:".toList * cls "LH".toList +
  lit "PR:".toList * cls "UNLH".toList +
  lit "UI:".toList * cls "NR".toList +
  lit "S:".toList * cls "UC".toList +
  cls "CIA".toList * lit ":".toList * cls "NLH".toList +
  lit "E:".toList * cls "XUPFH".toList +
  lit "RL:".toList * cls "XOTWU".toList +
  lit "RC:".toList * cls "XURC".toList +
  cls "CIA".toList * lit "R:".toList * cls "XLMH".toList +
  lit "MAV:".toList * cls "XNALP".toList +
  lit "MAC:".toList * cls "XLH".toList +
  lit "MPR:".toList * cls "XUNLH".toList +
  lit "MUI:".toList * cls "XNR".toList +
  lit "MS:".toList * cls "XUC".toList +
  lit "M".toList * cls "CIA".toList * lit ":".toList * cls "XNLH".toList

/-- The pattern `CVSS::vectorStringRegex`: `^CVSS:3\.1/((token)\/)*(token)$`. The anchors
are implied by `std::regex_match`, which matches the whole string. -/
def vectorStringRegex : RegularExpression Char :=
  lit "CVSS:3.1/".toList * (RegularExpression.star (metricToken * lit "/".toList) * metricToken)

/-- The call `std::regex_match(s, std::regex(r))`: the whole of `s` matches `r`. -/
def regex_match (s : String) (r : RegularExpression Char) : Bool :=
  r.rmatch s.toList

/-- The loop `while (std::getline(ss, token, '/'))`: the fields between the
slashes; a final field is only produced when characters follow the last
slash. -/
def getlines : List Char → List (List Char)
  | [] => []
  | c :: cs =>
    if c = '/' then [] :: getlines cs
    else
      match getlines cs with
      | [] => [[c]]
      | t :: ts => (c :: t) :: ts

/-- The name `p.substr(0, p.find(':'))`; without a colon `find` is `npos` and the
whole of `p` is taken. -/
def singleMetricName (p : List Char) : String :=
  String.mk (p.takeWhile (fun c => c ≠ ':'))

/-- The value `p.substr(p.find(':') + 1)`; without a colon `npos + 1` wraps to 0 and
the whole of `p` is taken. -/
def singleMetricValue (p : List Char) : String :=
  if ':' ∈ p then String.mk ((p.dropWhile (fun c => c ≠ ':')).drop 1) else String.mk p

/-- The initial value of the local `metricValues`. -/
def initialMetricValues : StdMap String := [
  ("AV", "undefined"), ("AC", "undefined"), ("PR", "undefined"), ("UI", "undefined"),
  ("S", "undefined"), ("C", "undefined"), ("I", "undefined"), ("A", "undefined"),
  ("E", "X"), ("RL", "X"), ("RC", "X"),
  ("CR", "X"), ("IR", "X"), ("AR", "X"),
  ("MAV", "X"), ("MAC", "X"), ("MPR", "X"), ("MUI", "X"), ("MS", "X"),
  ("MC", "X"), ("MI", "X"), ("MA", "X")]

/-- The body of the loop over `metricNameValues` (lines 515-528), on the pair
of `metricValues` and `badMetrics`. -/
def recordMetric (st : StdMap String × List String) (p : List Char) :
    StdMap String × List String :=
  let r := st.1.index (singleMetricName p) ""
  if r.1 = "undefined" then
    (r.2.assign (singleMetricName p) (singleMetricValue p), st.2)
  else
    (r.2, st.2 ++ [singleMetricName p])

/-- The read `metricValues[key]` in the final call (lines 542-548). -/
def metricValue (metricValues : StdMap String) (key : String) : String :=
  (metricValues.index key "").1

/-- The function `CVSS::calculateCVSSFromVector`, called in the table state `W`. -/
def calculateCVSSFromVector (W : WeightTable) (vectorString : String) :
    ResultT × WeightTable :=
  if ¬ regex_match vectorString vectorStringRegex then
    (ResultT.failure "MalformedVectorString" "", W)
  else
    let metricNameValues :=
      getlines (vectorString.toList.drop (CVSSVersionIdentifier.length + 1))
    let st := metricNameValues.foldl recordMetric (initialMetricValues, [])
    if st.2.length > 0 then
      (ResultT.failure "MultipleDefinitionsOfMetric" (joinMetrics st.2), W)
    else
      calculateCVSSFromMetrics W
        (metricValue st.1 "AV") (metricValue st.1 "AC") (metricValue st.1 "PR")
        (metricValue st.1 "UI") (metricValue st.1 "S")
        (metricValue st.1 "C") (metricValue st.1 "I") (metricValue st.1 "A")
        (metricValue st.1 "E") (metricValue st.1 "RL") (metricValue st.1 "RC")
        (metricValue st.1 "CR") (metricValue st.1 "IR") (metricValue st.1 "AR")
        (metricValue st.1 "MAV") (metricValue st.1 "MAC") (metricValue st.1 "MPR")
        (metricValue st.1 "MUI") (metricValue st.1 "MS")
        (metricValue st.1 "MC") (metricValue st.1 "MI") (metricValue st.1 "MA")

/-! ## Auxiliary definitions -/

/-- The number `CVSS::Weight[k][v]` evaluates to in the table state `W`: the
stored weight, and `0.0` when `k` or `v` is absent. -/
def weightOf (W : WeightTable) (k v : String) : ℚ :=
  match W.find k with
  | none => 0
  | some inner => (inner.find v).getD 0

/-- A table state that reads like the initial table at every pair of keys. -/
def WeightOK (W : WeightTable) : Prop :=
  ∀ k v, weightOf W k v = weightOf Weight k v

/-- The list `[id]` when `c` holds, the empty list otherwise. -/
def flag (c : Prop) [Decidable c] (id : String) : List String :=
  if c then [id] else []

/-- The metrics that the validity block finds bad, written with the numbers
`w k v` that the reads of `CVSS::Weight[k][v]` evaluate to. -/
def unknownMetrics (w : String → String → ℚ)
    (AV AC PR UI S C I A E RL RC CR IR AR MAV MAC MPR MUI MS MC MI MA : String) :
    List String :=
  flag (w "AV" AV = 0) "AV" ++ (flag (w "AC" AC = 0) "AC" ++ (flag (w "PRU" PR = 0) "PR" ++
  (flag (w "UI" UI = 0) "UI" ++ (flag (w "S" S = 0) "S" ++ (flag (w "CIA" C = 0) "C" ++
  (flag (w "CIA" I = 0) "I" ++ (flag (w "CIA" A = 0) "A" ++ (flag (w "E" E = 0) "E" ++
  (flag (w "RL" RL = 0) "RL" ++ (flag (w "RC" RC = 0) "RC" ++
  (flag (CR ≠ "X" ∧ w "CR" CR = 0) "CR" ++ (flag (IR ≠ "X" ∧ w "IR" IR = 0) "IR" ++
  (flag (AR ≠ "X" ∧ w "AR" AR = 0) "AR" ++ (flag (MAV ≠ "X" ∧ w "MAV" MAV = 0) "MAV" ++
  (flag (MAC ≠ "X" ∧ w "MAC" MAC = 0) "MAC" ++ (flag (MPR ≠ "X" ∧ w "MPR" MPR = 0) "MPR" ++
  (flag (MUI ≠ "X" ∧ w "MUI" MUI = 0) "MUI" ++ (flag (MS ≠ "X" ∧ w "MS" MS = 0) "MS" ++
  (flag (MC ≠ "X" ∧ w "MC" MC = 0) "MC" ++ (flag (MI ≠ "X" ∧ w "MI" MI = 0) "MI" ++
  flag (MA ≠ "X" ∧ w "MA" MA = 0) "MA"))))))))))))))))))))

/-- The 22 weights of the gathering block, written with the numbers `w k v`
that the reads of `CVSS::Weight[k][v]` evaluate to. -/
def gatheredWeights (w : String → String → ℚ)
    (AV AC PR UI S C I A E RL RC CR IR AR MAV MAC MPR MUI MS MC MI MA : String) :
    MetricWeights :=
  ⟨w "AV" AV, w "AC" AC, w ("PR" ++ S) PR, w "UI" UI, w "S" S, w "CIA" C, w "CIA" I,
   w "CIA" A, w "E" E, w "RL" RL, w "RC" RC, w "CIAR" CR, w "CIAR" IR, w "CIAR" AR,
   w "AV" (if MAV ≠ "X" then MAV else AV), w "AC" (if MAC ≠ "X" then MAC else AC),
   w ("PR" ++ (if MS ≠ "X" then MS else S)) (if MPR ≠ "X" then MPR else PR),
   w "UI" (if MUI ≠ "X" then MUI else UI), w "S" (if MS ≠ "X" then MS else S),
   w "CIA" (if MC ≠ "X" then MC else C), w "CIA" (if MI ≠ "X" then MI else I),
   w "CIA" (if MA ≠ "X" then MA else A)⟩

/-- The states of `CVSS::Weight` that calls of the two entry points produce,
starting from the initial table. (`generateJSONFromVector` reads the table
only through its call of `calculateCVSSFromVector`.) -/
inductive Reachable : WeightTable → Prop
  | init : Reachable Weight
  | fromMetrics {W : WeightTable} (h : Reachable W)
      (AV AC PR UI S C I A E RL RC CR IR AR MAV MAC MPR MUI MS MC MI MA : String) :
      Reachable (calculateCVSSFromMetrics W
        AV AC PR UI S C I A E RL RC CR IR AR MAV MAC MPR MUI MS MC MI MA).2
  | fromVector {W : WeightTable} (h : Reachable W) (vectorString : String) :
      Reachable (calculateCVSSFromVector W vectorString).2

/-- The weight that the initial table `Weight` lists for the code `v` in the
family `k` (0 when it lists none). -/
def schemaWeight (k v : String) : ℚ := weightOf Weight k v

/-- The CVSS v3.1 Base formula over the schema weights, as the specification
words it. -/
def specBaseScore (AV AC PR UI S C I A : String) : ℚ :=
  let Wav := schemaWeight "AV" AV
  let Wac := schemaWeight "AC" AC
  let Wpr := if S = "U" then schemaWeight "PRU" PR else schemaWeight "PRC" PR
  let Wui := schemaWeight "UI" UI
  let Ws := schemaWeight "S" S
  let Wc := schemaWeight "CIA" C
  let Wi := schemaWeight "CIA" I
  let Wa := schemaWeight "CIA" A
  let ISS := 1 - (1 - Wc) * (1 - Wi) * (1 - Wa)
  let Impact := if S = "U" then Ws * ISS else Ws * (ISS - 0.029) - 3.25 * (ISS - 0.02) ^ 15
  let Exploitability := 8.22 * Wav * Wac * Wpr * Wui
  if Impact ≤ 0 then 0
  else if S = "U" then roundUp1 (min 10 (Exploitability + Impact))
  else roundUp1 (min 10 (1.08 * (Exploitability + Impact)))

/-- The text that names the metrics `ids`, in the words of the specification:
each id followed by `", "`. -/
def namesOf : List String → String
  | [] => ""
  | id :: rest => id ++ ", " ++ namesOf rest

/-- The Base metrics whose argument is `"undefined"` or empty, in the order
AV, AC, PR, UI, S, C, I, A. -/
def missingIds (AV AC PR UI S C I A : String) : List String :=
  ([("AV", AV), ("AC", AC), ("PR", PR), ("UI", UI), ("S", S), ("C", C), ("I", I),
    ("A", A)].filter (fun p => p.2 = "undefined" ∨ p.2 = "")).map (fun p => p.1)

/-- The 22 metrics, each with the value domain that the specification lists
for it and the value supplied for it. -/
def metricAssignment
    (AV AC PR UI S C I A E RL RC CR IR AR MAV MAC MPR MUI MS MC MI MA : String) :
    List (String × List String × String) := [
  ("AV", ["N", "A", "L", "P"], AV), ("AC", ["L", "H"], AC), ("PR", ["N", "L", "H"], PR),
  ("UI", ["N", "R"], UI), ("S", ["U", "C"], S), ("C", ["N", "L", "H"], C),
  ("I", ["N", "L", "H"], I), ("A", ["N", "L", "H"], A),
  ("E", ["X", "U", "P", "F", "H"], E), ("RL", ["X", "O", "T", "W", "U"], RL),
  ("RC", ["X", "U", "R", "C"], RC),
  ("CR", ["X", "L", "M", "H"], CR), ("IR", ["X", "L", "M", "H"], IR),
  ("AR", ["X", "L", "M", "H"], AR), ("MAV", ["X", "N", "A", "L", "P"], MAV),
  ("MAC", ["X", "L", "H"], MAC), ("MPR", ["X", "N", "L", "H"], MPR),
  ("MUI", ["X", "N", "R"], MUI), ("MS", ["X", "U", "C"], MS),
  ("MC", ["X", "N", "L", "H"], MC), ("MI", ["X", "N", "L", "H"], MI),
  ("MA", ["X", "N", "L", "H"], MA)]

/-- The metrics whose supplied value lies outside the domain of the metric. -/
def outsideDomain
    (AV AC PR UI S C I A E RL RC CR IR AR MAV MAC MPR MUI MS MC MI MA : String) :
    List String :=
  ((metricAssignment AV AC PR UI S C I A E RL RC CR IR AR MAV MAC MPR MUI MS MC MI MA).filter
    (fun t => t.2.2 ∉ t.2.1)).map (fun t => t.1)

/-- The value codes that the specification of the vector grammar lists for
each metric id (PR and MPR with the code U). -/
def grammarCodes : List (String × List Char) := [
  ("AV", ['N', 'A', 'L', 'P']), ("AC", ['L', 'H']), ("PR", ['U', 'N', 'L', 'H']),
  ("UI", ['N', 'R']), ("S", ['U', 'C']),
  ("C", ['N', 'L', 'H']), ("I", ['N', 'L', 'H']), ("A", ['N', 'L', 'H']),
  ("E", ['X', 'U', 'P', 'F', 'H']), ("RL", ['X', 'O', 'T', 'W', 'U']),
  ("RC", ['X', 'U', 'R', 'C']),
  ("CR", ['X', 'L', 'M', 'H']), ("IR", ['X', 'L', 'M', 'H']), ("AR", ['X', 'L', 'M', 'H']),
  ("MAV", ['X', 'N', 'A', 'L', 'P']), ("MAC", ['X', 'L', 'H']),
  ("MPR", ['X', 'U', 'N', 'L', 'H']), ("MUI", ['X', 'N', 'R']), ("MS", ['X', 'U', 'C']),
  ("MC", ['X', 'N', 'L', 'H']), ("MI", ['X', 'N', 'L', 'H']), ("MA", ['X', 'N', 'L', 'H'])]

/-- The tokens of the vector grammar: a metric id with one of the codes the
grammar lists for it. -/
def grammarTokens : List (String × Char) :=
  grammarCodes.flatMap (fun p => p.2.map (fun c => (p.1, c)))

/-- The text `id:code` of a token. -/
def tokenText (t : String × Char) : List Char :=
  t.1.toList ++ [':', t.2]

/-- The texts `ts` written one after the other with a slash between any two
neighbours. -/
def slashJoin : List (List Char) → List Char
  | [] => []
  | [t] => t
  | t :: rest => t ++ '/' :: slashJoin rest

/-- The vector string made of `CVSS:3.1/` and the texts of the tokens `toks`,
separated by slashes. -/
def vectorText (toks : List (String × Char)) : String :=
  String.mk ("CVSS:3.1/".toList ++ slashJoin (toks.map tokenText))

/-- The vector grammar in the words of the specification: `s` is `CVSS:3.1/`
followed by one or more grammar tokens that are separated by slashes, with no
slash after the last one. -/
def MatchesGrammar (s : String) : Prop :=
  ∃ toks : List (String × Char),
    toks ≠ [] ∧ (∀ t ∈ toks, t ∈ grammarTokens) ∧ s = vectorText toks

/-- The integer nearest to `y`, in the words of the specification; of the two
integers nearest to a `y` halfway between them it is the larger one. -/
def nearestInt (y : ℚ) : ℤ := ⌊y + 1 / 2⌋

/-- The inclusive range of the band `e` contains the score `s`. -/
def inBand (s : ℚ) (e : String × ℚ × ℚ) : Prop :=
  e.2.1 ≤ s ∧ s ≤ e.2.2

/-- A multiple of 0.1 that lies in the closed range from 0.0 to 10.0. -/
def IsScore (s : ℚ) : Prop :=
  (∃ k : ℤ, s = (k : ℚ) / 10) ∧ 0 ≤ s ∧ s ≤ 10

/-- The texts `parts` written one after the other. -/
def concatAll : List String → String
  | [] => ""
  | p :: rest => p ++ concatAll rest

/-- The token `/id:code` of a metric in a vector string. -/
def slashToken (p : String × String) : String :=
  "/" ++ p.1 ++ ":" ++ p.2

/-- The vector string of a result in the words of the specification:
`CVSS:3.1`, then the tokens of the 8 Base metrics in the order AV, AC, PR,
UI, S, C, I, A, then the tokens of E, RL, RC, CR, IR, AR, MAV, MAC, MPR, MUI,
MS, MC, MI, MA in that order, each present exactly when the value supplied
for it is not `"X"`. -/
def specVectorString
    (AV AC PR UI S C I A E RL RC CR IR AR MAV MAC MPR MUI MS MC MI MA : String) : String :=
  "CVSS:3.1" ++
  concatAll ([("AV", AV), ("AC", AC), ("PR", PR), ("UI", UI), ("S", S), ("C", C), ("I", I),
    ("A", A)].map slashToken) ++
  concatAll (([("E", E), ("RL", RL), ("RC", RC), ("CR", CR), ("IR", IR), ("AR", AR),
    ("MAV", MAV), ("MAC", MAC), ("MPR", MPR), ("MUI", MUI), ("MS", MS), ("MC", MC),
    ("MI", MI), ("MA", MA)].filter (fun p => p.2 ≠ "X")).map slashToken)

/-- The error kinds of a result. -/
def errorKinds : List String :=
  ["MalformedVectorString", "MultipleDefinitionsOfMetric", "MissingBaseMetric",
   "UnknownMetricValue"]

/-- A result reports no score: it is a failure all of whose numeric fields
are 0 and all of whose severities, vector string and Base values are empty. -/
def ReportsNoScore (r : ResultT) : Prop :=
  r = ⟨false, r.errorType, r.errorMessage, 0, "", 0, 0, 0, 0, "", 0, "", 0, 0, 0, "", []⟩

/-- The ids of the 8 Base metrics. -/
def baseIds : List String := ["AV", "AC", "PR", "UI", "S", "C", "I", "A"]

/-- The value that the tokens `toks` give to the metric `id`: the code of the
first token of `id`, and `dflt` when no token is of `id`. -/
def tokenValue (toks : List (String × Char)) (id dflt : String) : String :=
  match toks.find? (fun t => t.1 = id) with
  | some t => String.mk [t.2]
  | none => dflt

/-! ## `generateJSONFromVector` -/

/-- The type of `CVSS::baseMetricsValueNames`. -/
abbrev NamesTable := StdMap (StdMap String)

/-- The initial value of the static member `CVSS::baseMetricsValueNames`. -/
def baseMetricsValueNames : NamesTable := [
  ("AV", [("N", "NETWORK"), ("A", "ADJACENT"), ("L", "LOCAL"), ("P", "PHYSICAL")]),
  ("AC", [("L", "LOW"), ("H", "HIGH")]),
  ("PR", [("N", "NONE"), ("L", "LOW"), ("H", "HIGH")]),
  ("UI", [("N", "NONE"), ("R", "REQUIRED")]),
  ("S",  [("U", "UNCHANGED"), ("C", "CHANGED")]),
  ("C",  [("N", "NONE"), ("L", "LOW"), ("H", "HIGH")]),
  ("I",  [("N", "NONE"), ("L", "LOW"), ("H", "HIGH")]),
  ("A",  [("N", "NONE"), ("L", "LOW"), ("H", "HIGH")])]

/-- The read `baseMetricsValueNames[k][v]`: the name read and the table after
the read; an absent `k` is inserted with an empty inner map and an absent `v`
with the empty string. -/
def nameAt (N : NamesTable) (k v : String) : String × NamesTable :=
  let outer := N.index k []
  let inner := outer.1.index v ""
  (inner.1, outer.2.assign k inner.2)

/-- The test whether the text starts with the characters of `pat`. -/
def startsWith : List Char → List Char → Bool
  | [], _ => true
  | _ :: _, [] => false
  | p :: ps, c :: cs => decide (p = c) && startsWith ps cs

/-- The sub-match `$n` of a match of a pattern without groups: the whole match
for `n = 0`, nothing for any other `n`. -/
def subMatch (matched : List Char) (n : Nat) : List Char :=
  if n = 0 then matched else []

/-- The states of the scan of a format string: plain text, after a `$`, and
after a `$` and one digit. -/
inductive FormatState where
  | plain : FormatState
  | dollar : FormatState
  | digit (n : Nat) : FormatState

/-- The expansion `match_results::format` of a format string with the
ECMAScript rules, for a match `matched` with the text `before` between the
previous match and it and the text `after` behind it: `$$` is a dollar sign,
`$&` the match, a dollar sign with a grave accent the text before, with an
apostrophe the text after, `$n` and `$nn` a sub-match, and any other dollar
sign stands for itself. -/
def formatMatch (matched before after : List Char) : FormatState → List Char → List Char
  | FormatState.plain, [] => []
  | FormatState.dollar, [] => ['$']
  | FormatState.digit n, [] => subMatch matched n
  | FormatState.plain, c :: rest =>
    if c = '$' then formatMatch matched before after FormatState.dollar rest
    else c :: formatMatch matched before after FormatState.plain rest
  | FormatState.dollar, c :: rest =>
    if c = '$' then '$' :: formatMatch matched before after FormatState.plain rest
    else if c = '&' then matched ++ formatMatch matched before after FormatState.plain rest
    else if c = Char.ofNat 96 then before ++ formatMatch matched before after FormatState.plain rest
    else if c = Char.ofNat 39 then after ++ formatMatch matched before after FormatState.plain rest
    else if c.isDigit then
      formatMatch matched before after (FormatState.digit (c.toNat - 48)) rest
    else '$' :: c :: formatMatch matched before after FormatState.plain rest
  | FormatState.digit n, c :: rest =>
    if c.isDigit then
      subMatch matched (10 * n + (c.toNat - 48)) ++
        formatMatch matched before after FormatState.plain rest
    else if c = '$' then
      subMatch matched n ++ formatMatch matched before after FormatState.dollar rest
    else subMatch matched n ++ c :: formatMatch matched before after FormatState.plain rest

/-- The scan of `std::regex_replace` over the text for a pattern that is the
literal text `pat` (not empty): `skip` counts the characters of a match that
are still to be passed over, `before` is the text since the previous match.
Text outside the matches is copied, every match is replaced by the expansion
of the format string `fmt`. -/
def replaceAux (pat fmt : List Char) : Nat → List Char → List Char → List Char
  | _, _, [] => []
  | skip + 1, before, _ :: rest => replaceAux pat fmt skip before rest
  | 0, before, c :: rest =>
    if startsWith pat (c :: rest) then
      formatMatch pat before ((c :: rest).drop pat.length) FormatState.plain fmt ++
        replaceAux pat fmt (pat.length - 1) [] rest
    else c :: replaceAux pat fmt 0 (before ++ [c]) rest

/-- The call `std::regex_replace(text, std::regex(pat), fmt)` for a pattern
`pat` without special characters. -/
def regex_replace (text pat fmt : String) : String :=
  String.mk (replaceAux pat.toList fmt.toList 0 [] text.toList)

/-- The nearest integer, a number halfway between two integers going to the
even one. -/
def roundHalfEven (y : ℚ) : ℤ :=
  if y - ⌊y⌋ < 1 / 2 then ⌊y⌋
  else if 1 / 2 < y - ⌊y⌋ then ⌊y⌋ + 1
  else if ⌊y⌋ % 2 = 0 then ⌊y⌋ else ⌊y⌋ + 1

/-- The text that `std::fixed` with `precision(1)` writes for a number: the
number rounded to one decimal place, with a minus sign when it is negative. -/
def fixed1 (x : ℚ) : String :=
  (if x < 0 then "-" else "") ++
    toString ((roundHalfEven (|x| * 10)).toNat / 10) ++ "." ++
    toString ((roundHalfEven (|x| * 10)).toNat % 10)

/-- The `std::transform` of a string with `std::toupper`. -/
def toupper (s : String) : String :=
  String.mk (s.toList.map Char.toUpper)

/-- The local `json` before the replacements (lines 623-629). -/
def jsonTemplate : String :=
  "\x7b\n" ++
  "    \"version\": \"__version__\",\n" ++
  "    \"vectorString\": \"__vectorString__\",\n" ++
  "    \"baseScore\": __baseMetricScore__,\n" ++
  "    \"baseSeverity\": \"__baseSeverity__\"\n" ++
  "\x7d\n\n"

/-- The local `json_ext` before the replacements (lines 631-645). -/
def jsonExtTemplate : String :=
  "\x7b\n" ++
  "   \"version\": \"__version__\",\n" ++
  "   \"vectorString\": \"__vectorString__\",\n" ++
  "   \"attackVector\": \"__AV__\",\n" ++
  "   \"attackComplexity\": \"__AC__\",\n" ++
  "   \"privilegesRequired\": \"__PR__\",\n" ++
  "   \"userInteraction\": \"__UI__\",\n" ++
  "   \"scope\": \"__S__\",\n" ++
  "   \"confidentialityImpact\": \"__C__\",\n" ++
  "   \"integrityImpact\": \"__I__\",\n" ++
  "   \"availabilityImpact\": \"__A__\",\n" ++
  "   \"baseScore\": __baseMetricScore__,\n" ++
  "   \"baseSeverity\": \"__baseSeverity__\",\n" ++
  "\x7d\n\n"

/-- The four replacements in `json` (lines 656-659). -/
def fillJson (vectorString baseMetricScore baseSeverity : String) : String :=
  regex_replace
    (regex_replace
      (regex_replace
        (regex_replace jsonTemplate "__version__" CVSSVersionIdentifier)
        "__vectorString__" vectorString)
      "__baseMetricScore__" baseMetricScore)
    "__baseSeverity__" baseSeverity

/-- The twelve replacements in `json_ext` (lines 662-673), with the eight
reads of `baseMetricsValueNames` in their order: the text and the table after
the reads. The names for I and A are read under the key `"C"`, as in the
source. -/
def fillJsonExt (N : NamesTable) (values : StdMap String)
    (vectorString baseMetricScore baseSeverity : String) : String × NamesTable :=
  let j := regex_replace jsonExtTemplate "__version__" CVSSVersionIdentifier
  let j := regex_replace j "__vectorString__" vectorString
  let nAV := nameAt N "AV" (metricValue values "AV")
  let j := regex_replace j "__AV__" nAV.1
  let nAC := nameAt nAV.2 "AC" (metricValue values "AC")
  let j := regex_replace j "__AC__" nAC.1
  let nPR := nameAt nAC.2 "PR" (metricValue values "PR")
  let j := regex_replace j "__PR__" nPR.1
  let nUI := nameAt nPR.2 "UI" (metricValue values "UI")
  let j := regex_replace j "__UI__" nUI.1
  let nS := nameAt nUI.2 "S" (metricValue values "S")
  let j := regex_replace j "__S__" nS.1
  let nC := nameAt nS.2 "C" (metricValue values "C")
  let j := regex_replace j "__C__" nC.1
  let nI := nameAt nC.2 "C" (metricValue values "I")
  let j := regex_replace j "__I__" nI.1
  let nA := nameAt nI.2 "C" (metricValue values "A")
  let j := regex_replace j "__A__" nA.1
  let j := regex_replace j "__baseMetricScore__" baseMetricScore
  let j := regex_replace j "__baseSeverity__" baseSeverity
  (j, nA.2)

/-- The part of `CVSS::generateJSONFromVector` after the call of
`calculateCVSSFromVector` (lines 623-675): the text returned for the result
`res`, and the names table after the reads. Both texts are built whatever
`optionals` is. -/
def renderJSON (N : NamesTable) (res : ResultT) (vectorString : String)
    (optionals : Bool) : String × NamesTable :=
  let baseMetricScore := fixed1 res.baseMetricScore
  let baseSeverity := toupper res.baseSeverity
  let json := fillJson vectorString baseMetricScore baseSeverity
  let json_ext := fillJsonExt N res.baseMetricsValues vectorString baseMetricScore baseSeverity
  (if optionals then json_ext.1 else json, json_ext.2)

/-- The function `CVSS::generateJSONFromVector`, called in the states `W` of
`CVSS::Weight` and `N` of `CVSS::baseMetricsValueNames`: the text returned
and the two tables the call leaves behind. -/
def generateJSONFromVector (W : WeightTable) (N : NamesTable) (vectorString : String)
    (optionals : Bool) : String × WeightTable × NamesTable :=
  let res := calculateCVSSFromVector W vectorString
  let text := renderJSON N res.1 vectorString optionals
  (text.1, res.2, text.2)

/-! ## Auxiliary definitions for the table state -/

/-- The entry of the weight table `W` under the keys `k` and `v`, if the
table has one. -/
def findWeight (W : WeightTable) (k v : String) : Option ℚ :=
  match W.find k with
  | none => none
  | some inner => inner.find v

/-- The table `W'` has every entry of `W`, with the same weight, and every
other entry of `W'` has the weight 0. -/
def AddsOnlyZeros (W W' : WeightTable) : Prop :=
  ∀ k v, (∀ w, findWeight W k v = some w → findWeight W' k v = some w) ∧
    (∀ w, findWeight W' k v = some w → findWeight W k v = some w ∨ w = 0)

/-! ## Auxiliary definitions for the JSON text -/

/-- The test whether `pat` occurs somewhere in the text. -/
def occursIn (pat : List Char) : List Char → Bool
  | [] => startsWith pat []
  | c :: cs => startsWith pat (c :: cs) || occursIn pat cs

/-- The text of the object with the four fields `version`, `vectorString`,
`baseScore` and `baseSeverity`, in the words of the specification: the
score is written as a number, the other three as strings. -/
def minimalJson (version vectorString baseScore baseSeverity : String) : String :=
  "\x7b\n" ++
  "    \"version\": \"" ++ version ++ "\",\n" ++
  "    \"vectorString\": \"" ++ vectorString ++ "\",\n" ++
  "    \"baseScore\": " ++ baseScore ++ ",\n" ++
  "    \"baseSeverity\": \"" ++ baseSeverity ++ "\"\n" ++
  "\x7d\n\n"

/-- The number `k / 10` written with exactly one decimal place. -/
def oneDecimal (k : ℕ) : String :=
  toString (k / 10) ++ "." ++ toString (k % 10)

/-- The name that `baseMetricsValueNames[k][v]` evaluates to in the table
state `N`: the stored name, and the empty string when `k` or `v` is absent. -/
def nameOf (N : NamesTable) (k v : String) : String :=
  match N.find k with
  | none => ""
  | some inner => (inner.find v).getD ""

/-- The text of the object with the twelve fields of the extended output,
in their order; the score is written as a number, the others as strings. -/
def extendedJson (version vectorString attackVector attackComplexity privilegesRequired
    userInteraction scope confidentialityImpact integrityImpact availabilityImpact
    baseScore baseSeverity : String) : String :=
  "\x7b\n" ++
  "   \"version\": \"" ++ version ++ "\",\n" ++
  "   \"vectorString\": \"" ++ vectorString ++ "\",\n" ++
  "   \"attackVector\": \"" ++ attackVector ++ "\",\n" ++
  "   \"attackComplexity\": \"" ++ attackComplexity ++ "\",\n" ++
  "   \"privilegesRequired\": \"" ++ privilegesRequired ++ "\",\n" ++
  "   \"userInteraction\": \"" ++ userInteraction ++ "\",\n" ++
  "   \"scope\": \"" ++ scope ++ "\",\n" ++
  "   \"confidentialityImpact\": \"" ++ confidentialityImpact ++ "\",\n" ++
  "   \"integrityImpact\": \"" ++ integrityImpact ++ "\",\n" ++
  "   \"availabilityImpact\": \"" ++ availabilityImpact ++ "\",\n" ++
  "   \"baseScore\": " ++ baseScore ++ ",\n" ++
  "   \"baseSeverity\": \"" ++ baseSeverity ++ "\",\n" ++
  "\x7d\n\n"

/-- The text of the specification for a rejected vector string: the object
with the score `0.0` and an empty severity, and with empty names in the
extended output. -/
def failureJson (vectorString : String) (optionals : Bool) : String :=
  if optionals then
    extendedJson "CVSS:3.1" vectorString "" "" "" "" "" "" "" "" "0.0" ""
  else minimalJson "CVSS:3.1" vectorString "0.0" ""

/-- The parts of `failureJson` before the opening quote of the vector string
and after its closing quote, for the minimal and the extended output. -/
def failureJsonParts : List String := [
  "\x7b\n    \"version\": \"CVSS:3.1\",\n    \"vectorString\": ",
  ",\n    \"baseScore\": 0.0,\n    \"baseSeverity\": \"\"\n\x7d\n\n",
  "\x7b\n   \"version\": \"CVSS:3.1\",\n   \"vectorString\": ",
  ",\n   \"attackVector\": \"\",\n   \"attackComplexity\": \"\",\n" ++
    "   \"privilegesRequired\": \"\",\n   \"userInteraction\": \"\",\n" ++
    "   \"scope\": \"\",\n   \"confidentialityImpact\": \"\",\n" ++
    "   \"integrityImpact\": \"\",\n   \"availabilityImpact\": \"\",\n" ++
    "   \"baseScore\": 0.0,\n   \"baseSeverity\": \"\",\n\x7d\n\n"]

/-! ## Double arithmetic -/

/-- The finite double nearest to the number `x`, a number halfway between two
doubles going to the one with the even significand (the IEEE 754 rounding of
the result of an operation); `none` when that rounding overflows to an
infinity. A double has a significand of 53 bits and an exponent of at least
`-1022`. -/
def binary64 (x : ℚ) : Option ℚ :=
  let e : ℤ := max (Int.log 2 |x|) (-1022)
  let ulp : ℚ := 2 ^ (e - 52)
  let r : ℚ := (roundHalfEven (|x| / ulp) : ℚ) * ulp
  if r < 2 ^ (1024 : ℤ) then some (if x < 0 then -r else r) else none

/-- The function `CVSS::roundUp1` on a finite double `input`, with the result
of every operation rounded to a double as the machine does: the product
`input * 100000`, the quotients and the sum. `round`, `floor` and
`std::remainder` are exact on doubles. `none` stands for an infinity. -/
def roundUp1Double (input : ℚ) : Option ℚ :=
  (binary64 (input * 100000)).bind fun product =>
    let int_input : ℤ := cround product
    if int_input % 10000 = 0 then
      binary64 ((int_input : ℚ) / 100000)
    else
      (binary64 ((int_input : ℚ) / 10000)).bind fun quotient =>
        (binary64 ((⌊quotient⌋ : ℤ) + 1)).bind fun sum => binary64 (sum / 10)

/-! ## Reading the weight table -/

theorem StdMap.find_assign {α : Type} (m : StdMap α) (k k' : String) (a : α) :
    (m.assign k a).find k' = if k' = k then some a else m.find k' := by
  induction m with
  | nil => simp [StdMap.assign, StdMap.find]
  | cons hd tl ih =>
    obtain ⟨k0, b⟩ := hd
    by_cases h : k = k0
    · subst h
      by_cases h' : k' = k <;> simp [StdMap.assign, StdMap.find, h']
    · by_cases h' : k' = k0
      · subst h'
        have : ¬ k' = k := fun e => h e.symm
        simp [StdMap.assign, StdMap.find, h, this]
      · simp [StdMap.assign, StdMap.find, h, h', ih]

theorem weightAt_fst (W : WeightTable) (k v : String) :
    (weightAt W k v).1 = weightOf W k v := by
  unfold weightAt weightOf StdMap.index
  cases hk : W.find k with
  | none => simp [StdMap.find]
  | some inner =>
    cases hv : inner.find v <;> simp [hv]

theorem weightOf_weightAt (W : WeightTable) (k v k' v' : String) :
    weightOf (weightAt W k v).2 k' v' = weightOf W k' v' := by
  unfold weightAt weightOf StdMap.index
  cases hk : W.find k with
  | none =>
    by_cases e : k' = k
    · subst e
      by_cases e' : v' = v <;> simp [StdMap.find_assign, StdMap.find, StdMap.assign, hk, e']
    · simp [StdMap.find_assign, e]
  | some inner =>
    by_cases e : k' = k
    · subst e
      cases hv : inner.find v with
      | none =>
        by_cases e' : v' = v
        · subst e'
          simp [StdMap.find_assign, hk, hv]
        · simp [StdMap.find_assign, hk, hv, e']
      | some w => simp [StdMap.find_assign, hk, hv]
    · cases hv : inner.find v <;> simp [StdMap.find_assign, hk, hv, e]

theorem mem_flag (c : Prop) [Decidable c] (id x : String) :
    x ∈ flag c id ↔ c ∧ x = id := by
  unfold flag
  split <;> simp [*]

theorem checkWeight_fst (id k v : String) (st : List String × WeightTable) :
    (checkWeight id k v st).1 = st.1 ++ flag (weightOf st.2 k v = 0) id := by
  unfold checkWeight flag
  simp only [weightAt_fst]
  split <;> simp

theorem weightOf_checkWeight (id k v : String) (st : List String × WeightTable)
    (k' v' : String) :
    weightOf (checkWeight id k v st).2 k' v' = weightOf st.2 k' v' := by
  unfold checkWeight
  simp only [weightOf_weightAt]

theorem checkWeightOrX_fst (id k v : String) (st : List String × WeightTable) :
    (checkWeightOrX id k v st).1 = st.1 ++ flag (v ≠ "X" ∧ weightOf st.2 k v = 0) id := by
  unfold checkWeightOrX
  by_cases h : v = "X"
  · simp [h, flag]
  · simp [h, checkWeight_fst]

theorem weightOf_checkWeightOrX (id k v : String) (st : List String × WeightTable)
    (k' v' : String) :
    weightOf (checkWeightOrX id k v st).2 k' v' = weightOf st.2 k' v' := by
  unfold checkWeightOrX
  split
  · rfl
  · exact weightOf_checkWeight id k v st k' v'

theorem checkMetricValues_fst (W : WeightTable)
    (AV AC PR UI S C I A E RL RC CR IR AR MAV MAC MPR MUI MS MC MI MA : String) :
    (checkMetricValues W AV AC PR UI S C I A E RL RC CR IR AR MAV MAC MPR MUI MS MC MI MA).1 =
      unknownMetrics (weightOf W)
        AV AC PR UI S C I A E RL RC CR IR AR MAV MAC MPR MUI MS MC MI MA := by
  simp only [checkMetricValues, unknownMetrics, checkWeight_fst, checkWeightOrX_fst,
    weightOf_checkWeight, weightOf_checkWeightOrX, List.nil_append, List.append_assoc]

theorem weightOf_checkMetricValues (W : WeightTable)
    (AV AC PR UI S C I A E RL RC CR IR AR MAV MAC MPR MUI MS MC MI MA : String)
    (k v : String) :
    weightOf (checkMetricValues W
      AV AC PR UI S C I A E RL RC CR IR AR MAV MAC MPR MUI MS MC MI MA).2 k v =
      weightOf W k v := by
  simp only [checkMetricValues, weightOf_checkWeight, weightOf_checkWeightOrX]

theorem gatherWeights_fst (W : WeightTable)
    (AV AC PR UI S C I A E RL RC CR IR AR MAV MAC MPR MUI MS MC MI MA : String) :
    (gatherWeights W AV AC PR UI S C I A E RL RC CR IR AR MAV MAC MPR MUI MS MC MI MA).1 =
      gatheredWeights (weightOf W)
        AV AC PR UI S C I A E RL RC CR IR AR MAV MAC MPR MUI MS MC MI MA := by
  simp only [gatherWeights, gatheredWeights, weightAt_fst, weightOf_weightAt]

theorem weightOf_gatherWeights (W : WeightTable)
    (AV AC PR UI S C I A E RL RC CR IR AR MAV MAC MPR MUI MS MC MI MA : String)
    (k v : String) :
    weightOf (gatherWeights W
      AV AC PR UI S C I A E RL RC CR IR AR MAV MAC MPR MUI MS MC MI MA).2 k v =
      weightOf W k v := by
  simp only [gatherWeights, weightOf_weightAt]

/-- The result of `calculateCVSSFromMetrics` in terms of the numbers that the
table reads evaluate to. -/
theorem calculateCVSSFromMetrics_fst (W : WeightTable)
    (AV AC PR UI S C I A E RL RC CR IR AR MAV MAC MPR MUI MS MC MI MA : String) :
    (calculateCVSSFromMetrics W
      AV AC PR UI S C I A E RL RC CR IR AR MAV MAC MPR MUI MS MC MI MA).1 =
    if (missingBaseMetrics AV AC PR UI S C I A).length > 0 then
      ResultT.failure "MissingBaseMetric" (joinMetrics (missingBaseMetrics AV AC PR UI S C I A))
    else if (unknownMetrics (weightOf W)
        AV AC PR UI S C I A E RL RC CR IR AR MAV MAC MPR MUI MS MC MI MA).length > 0 then
      ResultT.failure "UnknownMetricValue" (joinMetrics (unknownMetrics (weightOf W)
        AV AC PR UI S C I A E RL RC CR IR AR MAV MAC MPR MUI MS MC MI MA))
    else
      successResult (gatheredWeights (weightOf W)
        AV AC PR UI S C I A E RL RC CR IR AR MAV MAC MPR MUI MS MC MI MA)
        AV AC PR UI S C I A E RL RC CR IR AR MAV MAC MPR MUI MS MC MI MA := by
  unfold calculateCVSSFromMetrics
  simp only [checkMetricValues_fst, gatherWeights_fst]
  have hw : weightOf (checkMetricValues W
      AV AC PR UI S C I A E RL RC CR IR AR MAV MAC MPR MUI MS MC MI MA).2 = weightOf W := by
    funext k v
    exact weightOf_checkMetricValues W
      AV AC PR UI S C I A E RL RC CR IR AR MAV MAC MPR MUI MS MC MI MA k v
  rw [hw]
  split_ifs <;> rfl

theorem weightOf_calculateCVSSFromMetrics (W : WeightTable)
    (AV AC PR UI S C I A E RL RC CR IR AR MAV MAC MPR MUI MS MC MI MA : String)
    (k v : String) :
    weightOf (calculateCVSSFromMetrics W
      AV AC PR UI S C I A E RL RC CR IR AR MAV MAC MPR MUI MS MC MI MA).2 k v =
      weightOf W k v := by
  unfold calculateCVSSFromMetrics
  simp only
  split_ifs
  · rfl
  · exact weightOf_checkMetricValues W
      AV AC PR UI S C I A E RL RC CR IR AR MAV MAC MPR MUI MS MC MI MA k v
  · rw [weightOf_gatherWeights, weightOf_checkMetricValues]
theorem weightOf_calculateCVSSFromVector (W : WeightTable) (vectorString : String)
    (k v : String) :
    weightOf (calculateCVSSFromVector W vectorString).2 k v = weightOf W k v := by
  unfold calculateCVSSFromVector
  simp only
  split_ifs <;> first | rfl | exact weightOf_calculateCVSSFromMetrics _ _ _ _ _ _ _ _ _ _ _ _ _ _ _ _ _ _ _ _ _ _ _ k v

theorem Reachable.weightOK {W : WeightTable} (h : Reachable W) : WeightOK W := by
  induction h with
  | init => exact fun _ _ => rfl
  | fromMetrics h AV AC PR UI S C I A E RL RC CR IR AR MAV MAC MPR MUI MS MC MI MA ih =>
    intro k v
    rw [weightOf_calculateCVSSFromMetrics]
    exact ih k v
  | fromVector h s ih =>
    intro k v
    rw [weightOf_calculateCVSSFromVector]
    exact ih k v

theorem weightOf_eq_schemaWeight {W : WeightTable} (h : WeightOK W) :
    weightOf W = schemaWeight := by
  funext k v
  exact h k v

theorem schemaWeight_S (S : String) (h : ¬ schemaWeight "S" S = 0) : S = "U" ∨ S = "C" := by
  by_cases hU : S = "U"
  · exact Or.inl hU
  · by_cases hC : S = "C"
    · exact Or.inr hC
    · exact absurd (by simp [schemaWeight, weightOf, Weight, StdMap.find, hU, hC]) h

theorem unknownMetrics_S (w : String → String → ℚ)
    (AV AC PR UI S C I A E RL RC CR IR AR MAV MAC MPR MUI MS MC MI MA : String)
    (h : ¬ (unknownMetrics w
      AV AC PR UI S C I A E RL RC CR IR AR MAV MAC MPR MUI MS MC MI MA).length > 0) :
    ¬ w "S" S = 0 := by
  intro h0
  apply h
  simp [unknownMetrics, flag, h0]

theorem calculateCVSSFromMetrics_success {W : WeightTable} (hW : WeightOK W)
    (AV AC PR UI S C I A E RL RC CR IR AR MAV MAC MPR MUI MS MC MI MA : String)
    (h : (calculateCVSSFromMetrics W
      AV AC PR UI S C I A E RL RC CR IR AR MAV MAC MPR MUI MS MC MI MA).1.success = true) :
    (missingBaseMetrics AV AC PR UI S C I A).length = 0 ∧
    (unknownMetrics schemaWeight
      AV AC PR UI S C I A E RL RC CR IR AR MAV MAC MPR MUI MS MC MI MA).length = 0 ∧
    (calculateCVSSFromMetrics W
      AV AC PR UI S C I A E RL RC CR IR AR MAV MAC MPR MUI MS MC MI MA).1 =
      successResult (gatheredWeights schemaWeight
        AV AC PR UI S C I A E RL RC CR IR AR MAV MAC MPR MUI MS MC MI MA)
        AV AC PR UI S C I A E RL RC CR IR AR MAV MAC MPR MUI MS MC MI MA := by
  rw [calculateCVSSFromMetrics_fst, weightOf_eq_schemaWeight hW] at h ⊢
  split_ifs at h ⊢ with h1 h2
  · simp [ResultT.failure] at h
  · simp [ResultT.failure] at h
  · exact ⟨by omega, by omega, rfl⟩

theorem baseMetricScore_eq_spec (W : WeightTable) (hW : Reachable W)
    (AV AC PR UI S C I A E RL RC CR IR AR MAV MAC MPR MUI MS MC MI MA : String)
    (hacc : (calculateCVSSFromMetrics W
      AV AC PR UI S C I A E RL RC CR IR AR MAV MAC MPR MUI MS MC MI MA).1.success = true) :
    (calculateCVSSFromMetrics W
      AV AC PR UI S C I A E RL RC CR IR AR MAV MAC MPR MUI MS MC MI MA).1.baseMetricScore =
      specBaseScore AV AC PR UI S C I A := by
  obtain ⟨-, hu, hr⟩ := calculateCVSSFromMetrics_success hW.weightOK _ _ _ _ _ _ _ _ _ _ _ _ _ _ _ _ _ _ _ _ _ _ hacc
  rw [hr]
  have hS : S = "U" ∨ S = "C" := by
    apply schemaWeight_S
    apply unknownMetrics_S schemaWeight AV AC PR UI S C I A E RL RC CR IR AR MAV MAC MPR MUI MS MC MI MA
    omega
  have h10 : (10.0 : ℚ) = 10 := by norm_num
  rcases hS with rfl | rfl
  · simp [successResult, baseScore, specBaseScore, baseImpact, baseISS, baseExploitability,
      gatheredWeights, exploitabilityCoefficient, scopeCoefficient, min_comm, h10]
  · simp [successResult, baseScore, specBaseScore, baseImpact, baseISS, baseExploitability,
      gatheredWeights, exploitabilityCoefficient, scopeCoefficient, min_comm, h10]

theorem baseMetricScore_tests (W : WeightTable) (hW : Reachable W) :
    (calculateCVSSFromMetrics W "P" "H" "L" "N" "U" "L" "L" "H"
      "X" "X" "X" "X" "X" "X" "X" "X" "X" "X" "X" "X" "X" "X").1.baseMetricScore = 5.1 ∧
    (calculateCVSSFromMetrics W "P" "L" "L" "N" "U" "L" "L" "H"
      "X" "X" "X" "X" "X" "X" "X" "X" "X" "X" "X" "X" "X" "X").1.baseMetricScore = 5.4 ∧
    (calculateCVSSFromMetrics W "P" "L" "L" "N" "U" "H" "H" "H"
      "X" "X" "X" "X" "X" "X" "X" "X" "X" "X" "X" "X" "X" "X").1.baseMetricScore = 6.6 := by
  refine ⟨?_, ?_, ?_⟩ <;>
  · rw [calculateCVSSFromMetrics_fst, weightOf_eq_schemaWeight hW.weightOK]
    simp [missingBaseMetrics, checkDefined, unknownMetrics, flag, schemaWeight, weightOf, Weight,
      StdMap.find, successResult, gatheredWeights, baseScore, baseImpact, baseISS,
      baseExploitability, exploitabilityCoefficient, scopeCoefficient]
    norm_num [roundUp1, cround]

/-- C1: in every table state that calls can produce, an assignment that
`calculateCVSSFromMetrics` accepts gets as `baseMetricScore` the CVSS v3.1
Base formula over the schema weights (`specBaseScore`), and the assignments
(P,H,L,N,U,L,L,H), (P,L,L,N,U,L,L,H) and (P,L,L,N,U,H,H,H) score 5.1, 5.4
and 6.6. -/
theorem base_score_formula (W : WeightTable) (hW : Reachable W) :
    (∀ AV AC PR UI S C I A E RL RC CR IR AR MAV MAC MPR MUI MS MC MI MA : String,
      (calculateCVSSFromMetrics W
        AV AC PR UI S C I A E RL RC CR IR AR MAV MAC MPR MUI MS MC MI MA).1.success = true →
      (calculateCVSSFromMetrics W
        AV AC PR UI S C I A E RL RC CR IR AR MAV MAC MPR MUI MS MC MI MA).1.baseMetricScore =
        specBaseScore AV AC PR UI S C I A) ∧
    (calculateCVSSFromMetrics W "P" "H" "L" "N" "U" "L" "L" "H"
      "X" "X" "X" "X" "X" "X" "X" "X" "X" "X" "X" "X" "X" "X").1.baseMetricScore = 5.1 ∧
    (calculateCVSSFromMetrics W "P" "L" "L" "N" "U" "L" "L" "H"
      "X" "X" "X" "X" "X" "X" "X" "X" "X" "X" "X" "X" "X" "X").1.baseMetricScore = 5.4 ∧
    (calculateCVSSFromMetrics W "P" "L" "L" "N" "U" "H" "H" "H"
      "X" "X" "X" "X" "X" "X" "X" "X" "X" "X" "X" "X" "X" "X").1.baseMetricScore = 6.6 :=
  ⟨fun AV AC PR UI S C I A E RL RC CR IR AR MAV MAC MPR MUI MS MC MI MA h =>
    baseMetricScore_eq_spec W hW
      AV AC PR UI S C I A E RL RC CR IR AR MAV MAC MPR MUI MS MC MI MA h,
   baseMetricScore_tests W hW⟩

theorem joinMetrics_eq (badMetrics : List String) : joinMetrics badMetrics = namesOf badMetrics := by
  have h : ∀ (l : List String) (init : String),
      l.foldl (fun acc s => acc ++ s ++ ", ") init = init ++ namesOf l := by
    intro l
    induction l with
    | nil => intro init; simp [namesOf]
    | cons a l ih =>
      intro init
      rw [List.foldl_cons, ih]
      simp only [namesOf, String.append_assoc]
  simpa using h badMetrics ""

theorem checkDefined_eq (id v : String) (badMetrics : List String) :
    checkDefined id v badMetrics = badMetrics ++ flag (v = "undefined" ∨ v = "") id := by
  unfold checkDefined flag
  split <;> simp

theorem filter_cons_flag (p : String × String → Bool) (a : String × String)
    (l : List (String × String)) :
    ((a :: l).filter p).map (fun q => q.1) =
      flag (p a = true) a.1 ++ (l.filter p).map (fun q => q.1) := by
  unfold flag
  by_cases h : p a = true <;> simp [List.filter_cons, h]

theorem missingBaseMetrics_eq (AV AC PR UI S C I A : String) :
    missingBaseMetrics AV AC PR UI S C I A = missingIds AV AC PR UI S C I A := by
  simp only [missingBaseMetrics, missingIds, checkDefined_eq, filter_cons_flag,
    List.nil_append, List.append_assoc, List.filter_nil, List.map_nil, List.append_nil,
    decide_eq_true_eq]

theorem missingIds_ne_nil (AV AC PR UI S C I A : String)
    (h : ∃ v ∈ [AV, AC, PR, UI, S, C, I, A], v = "undefined" ∨ v = "") :
    (missingIds AV AC PR UI S C I A).length > 0 := by
  apply List.length_pos_of_ne_nil
  intro hnil
  simp only [missingIds, List.map_eq_nil_iff, List.filter_eq_nil_iff] at hnil
  obtain ⟨v, hv, hc⟩ := h
  simp only [List.mem_cons, List.mem_singleton, List.not_mem_nil, or_false] at hv
  rcases hv with rfl | rfl | rfl | rfl | rfl | rfl | rfl | rfl
  · exact hnil ("AV", v) (by simp) (by simpa using hc)
  · exact hnil ("AC", v) (by simp) (by simpa using hc)
  · exact hnil ("PR", v) (by simp) (by simpa using hc)
  · exact hnil ("UI", v) (by simp) (by simpa using hc)
  · exact hnil ("S", v) (by simp) (by simpa using hc)
  · exact hnil ("C", v) (by simp) (by simpa using hc)
  · exact hnil ("I", v) (by simp) (by simpa using hc)
  · exact hnil ("A", v) (by simp) (by simpa using hc)

/-- C6: in any table state, when one of the 8 Base arguments is
`"undefined"` or empty, `calculateCVSSFromMetrics` fails with errorType
`MissingBaseMetric`, and its errorMessage names exactly the missing Base
metrics, in the order AV, AC, PR, UI, S, C, I, A, each followed by `", "`,
whatever the other 14 arguments are. -/
theorem missing_base_metric (W : WeightTable)
    (AV AC PR UI S C I A E RL RC CR IR AR MAV MAC MPR MUI MS MC MI MA : String)
    (h : ∃ v ∈ [AV, AC, PR, UI, S, C, I, A], v = "undefined" ∨ v = "") :
    (calculateCVSSFromMetrics W
      AV AC PR UI S C I A E RL RC CR IR AR MAV MAC MPR MUI MS MC MI MA).1.success = false ∧
    (calculateCVSSFromMetrics W
      AV AC PR UI S C I A E RL RC CR IR AR MAV MAC MPR MUI MS MC MI MA).1.errorType =
      "MissingBaseMetric" ∧
    (calculateCVSSFromMetrics W
      AV AC PR UI S C I A E RL RC CR IR AR MAV MAC MPR MUI MS MC MI MA).1.errorMessage =
      namesOf (missingIds AV AC PR UI S C I A) := by
  have hlen := missingIds_ne_nil AV AC PR UI S C I A h
  rw [calculateCVSSFromMetrics_fst, missingBaseMetrics_eq, if_pos hlen, joinMetrics_eq]
  exact ⟨rfl, rfl, rfl⟩

theorem outsideDomain_subset
    (AV AC PR UI S C I A E RL RC CR IR AR MAV MAC MPR MUI MS MC MI MA : String) (id : String)
    (h : id ∈ outsideDomain AV AC PR UI S C I A E RL RC CR IR AR MAV MAC MPR MUI MS MC MI MA) :
    id ∈ unknownMetrics schemaWeight
      AV AC PR UI S C I A E RL RC CR IR AR MAV MAC MPR MUI MS MC MI MA := by
  simp only [outsideDomain, metricAssignment, List.mem_map, List.mem_filter, List.mem_cons,
    List.not_mem_nil, or_false, decide_eq_true_eq] at h
  obtain ⟨t, ⟨ht, hout⟩, rfl⟩ := h
  rcases ht with rfl | rfl | rfl | rfl | rfl | rfl | rfl | rfl | rfl | rfl | rfl | rfl | rfl |
    rfl | rfl | rfl | rfl | rfl | rfl | rfl | rfl | rfl <;>
  · simp only [List.mem_cons, List.not_mem_nil, or_false, not_or] at hout
    simp [unknownMetrics, mem_flag, schemaWeight, weightOf, Weight, StdMap.find, hout]

theorem missingIds_eq_nil (AV AC PR UI S C I A : String)
    (h : ∀ v ∈ [AV, AC, PR, UI, S, C, I, A], v ≠ "undefined" ∧ v ≠ "") :
    missingIds AV AC PR UI S C I A = [] := by
  simp only [List.mem_cons, List.not_mem_nil, or_false, forall_eq_or_imp, forall_eq] at h
  simp [missingIds, List.filter_cons, h]

/-- C7: in every table state that calls can produce, when all 8 Base
arguments are present and some argument lies outside the domain of its
metric, `calculateCVSSFromMetrics` fails with errorType `UnknownMetricValue`
and its errorMessage names every metric whose value lies outside its
domain. -/
theorem unknown_metric_value (W : WeightTable) (hW : Reachable W)
    (AV AC PR UI S C I A E RL RC CR IR AR MAV MAC MPR MUI MS MC MI MA : String)
    (hpresent : ∀ v ∈ [AV, AC, PR, UI, S, C, I, A], v ≠ "undefined" ∧ v ≠ "")
    (hout : outsideDomain
      AV AC PR UI S C I A E RL RC CR IR AR MAV MAC MPR MUI MS MC MI MA ≠ []) :
    (calculateCVSSFromMetrics W
      AV AC PR UI S C I A E RL RC CR IR AR MAV MAC MPR MUI MS MC MI MA).1.success = false ∧
    (calculateCVSSFromMetrics W
      AV AC PR UI S C I A E RL RC CR IR AR MAV MAC MPR MUI MS MC MI MA).1.errorType =
      "UnknownMetricValue" ∧
    ∃ named : List String,
      (calculateCVSSFromMetrics W
        AV AC PR UI S C I A E RL RC CR IR AR MAV MAC MPR MUI MS MC MI MA).1.errorMessage =
        namesOf named ∧
      ∀ id ∈ outsideDomain
        AV AC PR UI S C I A E RL RC CR IR AR MAV MAC MPR MUI MS MC MI MA, id ∈ named := by
  have hsub := outsideDomain_subset AV AC PR UI S C I A E RL RC CR IR AR MAV MAC MPR MUI MS MC MI MA
  have hlen : (unknownMetrics schemaWeight
      AV AC PR UI S C I A E RL RC CR IR AR MAV MAC MPR MUI MS MC MI MA).length > 0 := by
    obtain ⟨id, hid⟩ := List.exists_mem_of_ne_nil _ hout
    exact List.length_pos_of_mem (hsub id hid)
  rw [calculateCVSSFromMetrics_fst, missingBaseMetrics_eq, missingIds_eq_nil _ _ _ _ _ _ _ _ hpresent,
    weightOf_eq_schemaWeight hW.weightOK, if_neg (by simp), if_pos hlen, joinMetrics_eq]
  exact ⟨rfl, rfl, _, rfl, hsub⟩

/-! ## The vector grammar -/

theorem mem_lit (s x : List Char) : x ∈ (lit s).matches' ↔ x = s := by
  induction s generalizing x with
  | nil => simp [lit, Language.mem_one]
  | cons c cs ih =>
    simp only [lit, RegularExpression.matches'_mul, RegularExpression.matches'_char,
      Language.mem_mul, Set.mem_singleton_iff]
    constructor
    · rintro ⟨a, rfl, b, hb, rfl⟩
      rw [(ih b).1 hb]
      rfl
    · rintro rfl
      exact ⟨[c], rfl, cs, (ih cs).2 rfl, rfl⟩

theorem mem_cls (cs x : List Char) : x ∈ (cls cs).matches' ↔ ∃ c ∈ cs, x = [c] := by
  induction cs with
  | nil =>
    simp only [cls, RegularExpression.matches'_zero, List.not_mem_nil, false_and, exists_false,
      iff_false]
    exact fun h => h
  | cons c cs ih =>
    simp only [cls, RegularExpression.matches'_add, RegularExpression.matches'_char,
      Language.mem_add, Set.mem_singleton_iff, ih, List.mem_cons]
    constructor
    · rintro (rfl | ⟨d, hd, rfl⟩)
      · exact ⟨c, Or.inl rfl, rfl⟩
      · exact ⟨d, Or.inr hd, rfl⟩
    · rintro ⟨d, rfl | hd, rfl⟩
      · exact Or.inl rfl
      · exact Or.inr ⟨d, hd, rfl⟩

theorem mem_mul_iff (P Q : RegularExpression Char) (x : List Char) :
    x ∈ (P * Q).matches' ↔ ∃ a b, a ∈ P.matches' ∧ b ∈ Q.matches' ∧ x = a ++ b := by
  rw [RegularExpression.matches'_mul, Language.mem_mul]
  constructor
  · rintro ⟨a, ha, b, hb, rfl⟩
    exact ⟨a, b, ha, hb, rfl⟩
  · rintro ⟨a, b, ha, hb, rfl⟩
    exact ⟨a, ha, b, hb, rfl⟩

theorem grammarTokens_match : ∀ t ∈ grammarTokens, metricToken.rmatch (tokenText t) = true := by
  decide

theorem metricToken_sound (x : List Char) (h : x ∈ metricToken.matches') :
    ∃ t ∈ grammarTokens, x = tokenText t := by
  simp only [metricToken, RegularExpression.matches'_add, Language.mem_add, mem_mul_iff,
    mem_lit, mem_cls] at h
  simp at h
  simp [grammarTokens, grammarCodes, tokenText]
  simpa only [or_assoc] using h

theorem metricToken_iff (x : List Char) :
    x ∈ metricToken.matches' ↔ ∃ t ∈ grammarTokens, x = tokenText t := by
  constructor
  · exact metricToken_sound x
  · rintro ⟨t, ht, rfl⟩
    exact (RegularExpression.rmatch_iff_matches' _ _).1 (grammarTokens_match t ht)

theorem slashJoin_cons_cons (a b : List Char) (l : List (List Char)) :
    slashJoin (a :: b :: l) = a ++ '/' :: slashJoin (b :: l) := rfl

theorem slashJoin_concat (ts : List (List Char)) (t : List Char) :
    slashJoin (ts ++ [t]) = (ts.map (fun y => y ++ ['/'])).flatten ++ t := by
  induction ts with
  | nil => simp [slashJoin]
  | cons a ts ih =>
    cases ts with
    | nil => simp [slashJoin]
    | cons b ts =>
      rw [List.cons_append, List.cons_append, slashJoin_cons_cons, ← List.cons_append, ih]
      simp

theorem mem_vectorStringRegex (x : List Char) :
    x ∈ vectorStringRegex.matches' ↔
      ∃ toks : List (String × Char), toks ≠ [] ∧ (∀ t ∈ toks, t ∈ grammarTokens) ∧
        x = "CVSS:3.1/".toList ++ slashJoin (toks.map tokenText) := by
  simp only [vectorStringRegex, mem_mul_iff, mem_lit, RegularExpression.matches'_star,
    Language.mem_kstar, metricToken_iff]
  constructor
  · rintro ⟨a, b, rfl, ⟨b1, b2, ⟨L, rfl, hL⟩, ⟨t, ht, rfl⟩, rfl⟩, rfl⟩
    have hts : ∃ ts : List (String × Char), (∀ u ∈ ts, u ∈ grammarTokens) ∧
        L = ts.map (fun u => tokenText u ++ ['/']) := by
      clear ht
      induction L with
      | nil => exact ⟨[], by simp, rfl⟩
      | cons y L ih =>
        obtain ⟨ts, hts, rfl⟩ := ih (fun z hz => hL z (List.mem_cons_of_mem _ hz))
        obtain ⟨ya, yb, ⟨u, hu, rfl⟩, rfl, rfl⟩ := hL y (List.mem_cons_self _ _)
        refine ⟨u :: ts, ?_, rfl⟩
        intro v hv
        rcases List.mem_cons.1 hv with rfl | hv
        · exact hu
        · exact hts v hv
    obtain ⟨ts, hts, rfl⟩ := hts
    refine ⟨ts ++ [t], by simp, ?_, ?_⟩
    · intro v hv
      rcases List.mem_append.1 hv with hv | hv
      · exact hts v hv
      · rw [List.mem_singleton.1 hv]
        exact ht
    · rw [List.map_append, List.map_singleton, slashJoin_concat, List.map_map]
      rfl
  · rintro ⟨toks, hne, htoks, rfl⟩
    obtain ⟨ts, t, rfl⟩ : ∃ ts t, toks = ts ++ [t] :=
      ⟨toks.dropLast, toks.getLast hne, (List.dropLast_append_getLast hne).symm⟩
    refine ⟨_, _, rfl, ⟨(ts.map (fun u => tokenText u ++ ['/'])).flatten, tokenText t,
      ⟨ts.map (fun u => tokenText u ++ ['/']), rfl, ?_⟩, ⟨t, htoks t (by simp), rfl⟩, rfl⟩, ?_⟩
    · intro y hy
      obtain ⟨u, hu, rfl⟩ := List.mem_map.1 hy
      exact ⟨tokenText u, ['/'], ⟨u, htoks u (by simp [hu]), rfl⟩, rfl, rfl⟩
    · rw [List.map_append, List.map_singleton, slashJoin_concat, List.map_map]
      rfl

theorem regex_match_iff (s : String) :
    regex_match s vectorStringRegex = true ↔ MatchesGrammar s := by
  unfold regex_match MatchesGrammar vectorText
  rw [RegularExpression.rmatch_iff_matches', mem_vectorStringRegex]
  constructor
  · rintro ⟨toks, hne, htoks, h⟩
    exact ⟨toks, hne, htoks, by rw [← h]; rfl⟩
  · rintro ⟨toks, hne, htoks, h⟩
    exact ⟨toks, hne, htoks, by rw [h]; rfl⟩

/-! ## Splitting a vector string into its tokens -/

theorem getlines_slashJoin (ts : List (List Char))
    (h : ∀ t ∈ ts, t ≠ [] ∧ '/' ∉ t) : getlines (slashJoin ts) = ts := by
  have hword : ∀ (t rest : List Char), '/' ∉ t →
      getlines (t ++ '/' :: rest) = t :: getlines rest := by
    intro t rest ht
    induction t with
    | nil => simp [getlines]
    | cons c t ih =>
      have hc : c ≠ '/' := fun e => ht (by simp [e])
      have ht' : '/' ∉ t := fun e => ht (List.mem_cons_of_mem _ e)
      simp [getlines, hc, ih ht']
  have hlast : ∀ t : List Char, t ≠ [] → '/' ∉ t → getlines t = [t] := by
    intro t
    induction t with
    | nil => intro h; exact absurd rfl h
    | cons c t ih =>
      intro _ ht
      have hc : c ≠ '/' := fun e => ht (by simp [e])
      have ht' : '/' ∉ t := fun e => ht (List.mem_cons_of_mem _ e)
      cases t with
      | nil => simp [getlines, hc]
      | cons d t =>
        have e : getlines (c :: d :: t) =
            match getlines (d :: t) with
            | [] => [[c]]
            | u :: us => (c :: u) :: us := by
          rw [getlines, if_neg hc]
        rw [e, ih (by simp) ht']
  induction ts with
  | nil => rfl
  | cons a ts ih =>
    cases ts with
    | nil => exact hlast a (h a (by simp)).1 (h a (by simp)).2
    | cons b ts =>
      rw [slashJoin_cons_cons, hword a _ (h a (by simp)).2,
        ih (fun t ht => h t (List.mem_cons_of_mem _ ht))]

theorem grammarTokens_text : ∀ t ∈ grammarTokens,
    (tokenText t ≠ [] ∧ '/' ∉ tokenText t) ∧ singleMetricName (tokenText t) = t.1 ∧
      singleMetricValue (tokenText t) = String.mk [t.2] ∧
      singleMetricValue (tokenText t) ≠ "undefined" := by
  decide

theorem drop_vectorText (toks : List (String × Char)) :
    (vectorText toks).toList.drop (CVSSVersionIdentifier.length + 1) =
      slashJoin (toks.map tokenText) := rfl

theorem metricNameValues_vectorText (toks : List (String × Char))
    (htoks : ∀ t ∈ toks, t ∈ grammarTokens) :
    getlines ((vectorText toks).toList.drop (CVSSVersionIdentifier.length + 1)) =
      toks.map tokenText := by
  rw [drop_vectorText]
  apply getlines_slashJoin
  intro t ht
  obtain ⟨u, hu, rfl⟩ := List.mem_map.1 ht
  exact (grammarTokens_text u (htoks u hu)).1

/-! ## The loop that records the tokens -/

theorem metricValue_eq (m : StdMap String) (key : String) :
    metricValue m key = (m.find key).getD "" := by
  unfold metricValue StdMap.index
  cases m.find key <;> rfl

theorem find_index_snd (m : StdMap String) (key key' : String) :
    ((m.index key "").2.find key').getD "" = (m.find key').getD "" := by
  unfold StdMap.index
  cases h : m.find key with
  | some a => rfl
  | none =>
    simp only [StdMap.find_assign]
    by_cases e : key' = key
    · subst e
      simp [h]
    · simp [e]

theorem recordMetric_snd_mono (st : StdMap String × List String) (p : List Char) (x : String)
    (h : x ∈ st.2) : x ∈ (recordMetric st p).2 := by
  unfold recordMetric
  simp only
  split
  · exact h
  · exact List.mem_append_left _ h

theorem recordMetric_seen_self (st : StdMap String × List String) (p : List Char)
    (hv : singleMetricValue p ≠ "undefined") :
    metricValue (recordMetric st p).1 (singleMetricName p) ≠ "undefined" := by
  unfold recordMetric
  simp only
  split
  · rw [metricValue_eq, StdMap.find_assign]
    simpa using hv
  · rename_i h
    rw [metricValue_eq, find_index_snd, ← metricValue_eq]
    exact h

theorem recordMetric_seen_mono (st : StdMap String × List String) (p : List Char)
    (id : String) (h : metricValue st.1 id ≠ "undefined") :
    metricValue (recordMetric st p).1 id ≠ "undefined" := by
  unfold recordMetric
  simp only
  split
  · rename_i hu
    rw [metricValue_eq, StdMap.find_assign]
    by_cases e : id = singleMetricName p
    · subst e
      exact absurd hu h
    · rw [if_neg e, find_index_snd, ← metricValue_eq]
      exact h
  · rw [metricValue_eq, find_index_snd, ← metricValue_eq]
    exact h

theorem recordMetric_repeated (st : StdMap String × List String) (p : List Char)
    (h : metricValue st.1 (singleMetricName p) ≠ "undefined") :
    singleMetricName p ∈ (recordMetric st p).2 := by
  unfold recordMetric
  simp only
  split
  · rename_i hu
    exact absurd hu h
  · simp

theorem foldl_recordMetric_named (ps : List (List Char))
    (hv : ∀ p ∈ ps, singleMetricValue p ≠ "undefined") (id : String) :
    ∀ st : StdMap String × List String,
      (id ∈ st.2 ∨ (metricValue st.1 id ≠ "undefined" ∧ id ∈ ps.map singleMetricName) ∨
        2 ≤ (ps.map singleMetricName).count id) →
      id ∈ (ps.foldl recordMetric st).2 := by
  induction ps with
  | nil =>
    intro st h
    rcases h with h | ⟨-, h⟩ | h
    · exact h
    · simp at h
    · simp at h
  | cons p ps ih =>
    intro st h
    rw [List.foldl_cons]
    apply ih (fun q hq => hv q (List.mem_cons_of_mem _ hq))
    rcases h with h | ⟨hs, hm⟩ | h
    · exact Or.inl (recordMetric_snd_mono st p id h)
    · by_cases e : singleMetricName p = id
      · subst e
        exact Or.inl (recordMetric_repeated st p hs)
      · refine Or.inr (Or.inl ⟨recordMetric_seen_mono st p id hs, ?_⟩)
        rw [List.map_cons, List.mem_cons] at hm
        rcases hm with hm | hm
        · exact absurd hm.symm e
        · exact hm
    · by_cases e : singleMetricName p = id
      · subst e
        refine Or.inr (Or.inl ⟨recordMetric_seen_self st p (hv p (List.mem_cons_self _ _)), ?_⟩)
        rw [List.map_cons, List.count_cons_self] at h
        exact List.count_pos_iff.1 (by omega)
      · rw [List.map_cons, List.count_cons_of_ne (fun e' => e e'.symm)] at h
        exact Or.inr (Or.inr h)

theorem map_singleMetricName (toks : List (String × Char))
    (htoks : ∀ t ∈ toks, t ∈ grammarTokens) :
    (toks.map tokenText).map singleMetricName = toks.map Prod.fst := by
  rw [List.map_map]
  apply List.map_congr_left
  intro t ht
  exact (grammarTokens_text t (htoks t ht)).2.1

/-- C8: in any table state, for a vector string made of grammar tokens in
which some metric id occurs in two or more tokens,
`calculateCVSSFromVector` fails with errorType `MultipleDefinitionsOfMetric`
and its errorMessage names every id that occurs more than once, whether or
not a Base metric is absent from the string. -/
theorem repeated_metric (W : WeightTable) (toks : List (String × Char))
    (htoks : ∀ t ∈ toks, t ∈ grammarTokens)
    (hrep : ∃ id, 2 ≤ (toks.map Prod.fst).count id) :
    (calculateCVSSFromVector W (vectorText toks)).1.success = false ∧
    (calculateCVSSFromVector W (vectorText toks)).1.errorType = "MultipleDefinitionsOfMetric" ∧
    ∃ named : List String,
      (calculateCVSSFromVector W (vectorText toks)).1.errorMessage = namesOf named ∧
      ∀ id, 2 ≤ (toks.map Prod.fst).count id → id ∈ named := by
  have hne : toks ≠ [] := by
    rintro rfl
    obtain ⟨id, hid⟩ := hrep
    simp at hid
  have hmatch : regex_match (vectorText toks) vectorStringRegex = true :=
    (regex_match_iff _).2 ⟨toks, hne, htoks, rfl⟩
  have hnamed : ∀ id, 2 ≤ (toks.map Prod.fst).count id →
      id ∈ ((toks.map tokenText).foldl recordMetric (initialMetricValues, [])).2 := by
    intro id hid
    apply foldl_recordMetric_named
    · intro p hp
      obtain ⟨u, hu, rfl⟩ := List.mem_map.1 hp
      exact (grammarTokens_text u (htoks u hu)).2.2.2
    · rw [map_singleMetricName toks htoks]
      exact Or.inr (Or.inr hid)
  have hlen : ((toks.map tokenText).foldl recordMetric (initialMetricValues, [])).2.length > 0 := by
    obtain ⟨id, hid⟩ := hrep
    exact List.length_pos_of_mem (hnamed id hid)
  unfold calculateCVSSFromVector
  simp only [hmatch, not_true_eq_false, if_false, metricNameValues_vectorText toks htoks,
    if_pos hlen, joinMetrics_eq]
  exact ⟨rfl, rfl, _, rfl, hnamed⟩

theorem calculateCVSSFromMetrics_errorType (W : WeightTable)
    (AV AC PR UI S C I A E RL RC CR IR AR MAV MAC MPR MUI MS MC MI MA : String) :
    (calculateCVSSFromMetrics W
      AV AC PR UI S C I A E RL RC CR IR AR MAV MAC MPR MUI MS MC MI MA).1.errorType ≠
      "MalformedVectorString" := by
  rw [calculateCVSSFromMetrics_fst]
  split_ifs <;> simp [ResultT.failure, successResult]

theorem calculateCVSSFromVector_errorType (W : WeightTable) (s : String)
    (h : regex_match s vectorStringRegex = true) :
    (calculateCVSSFromVector W s).1.errorType ≠ "MalformedVectorString" := by
  unfold calculateCVSSFromVector
  simp only [h, not_true_eq_false, if_false]
  split_ifs
  · simp [ResultT.failure]
  · exact calculateCVSSFromMetrics_errorType W _ _ _ _ _ _ _ _ _ _ _ _ _ _ _ _ _ _ _ _ _ _

theorem calculateCVSSFromVector_malformed (W : WeightTable) (s : String)
    (h : ¬ regex_match s vectorStringRegex = true) :
    calculateCVSSFromVector W s = (ResultT.failure "MalformedVectorString" "", W) := by
  unfold calculateCVSSFromVector
  rw [if_pos h]

/-- C9: in any table state, `calculateCVSSFromVector` fails with errorType
`MalformedVectorString` and an empty errorMessage exactly when the input is
not `CVSS:3.1/` followed by one or more slash-separated grammar tokens with
no trailing slash; `CVSS:3.1/AV:N` matches the grammar and is not
malformed. -/
theorem malformed_vector_string (W : WeightTable) :
    (∀ s : String,
      ((calculateCVSSFromVector W s).1.success = false ∧
        (calculateCVSSFromVector W s).1.errorType = "MalformedVectorString" ∧
        (calculateCVSSFromVector W s).1.errorMessage = "") ↔ ¬ MatchesGrammar s) ∧
    MatchesGrammar "CVSS:3.1/AV:N" ∧
    (calculateCVSSFromVector W "CVSS:3.1/AV:N").1.errorType ≠ "MalformedVectorString" := by
  have hAV : regex_match "CVSS:3.1/AV:N" vectorStringRegex = true := by decide
  refine ⟨?_, (regex_match_iff _).1 hAV, calculateCVSSFromVector_errorType W _ hAV⟩
  intro s
  rw [← regex_match_iff]
  constructor
  · rintro ⟨-, ht, -⟩ hm
    exact calculateCVSSFromVector_errorType W s hm ht
  · intro hm
    rw [calculateCVSSFromVector_malformed W s hm]
    exact ⟨rfl, rfl, rfl⟩

/-! ## Evaluations -/

theorem weightOf_Weight_eq : weightOf Weight = schemaWeight := rfl

/-- C2, evaluated on the initial table: the in-domain Base assignment
(N,L,N,N,U,N,N,N) with every Temporal and Environmental value `"X"` is not
scored; the call fails with `UnknownMetricValue` naming C, I and A, because
the weight 0.00 of the code N tests as false. -/
theorem none_impact_rejected :
    (calculateCVSSFromMetrics Weight "N" "L" "N" "N" "U" "N" "N" "N"
      "X" "X" "X" "X" "X" "X" "X" "X" "X" "X" "X" "X" "X" "X").1 =
      ResultT.failure "UnknownMetricValue" "C, I, A, " := by
  rw [calculateCVSSFromMetrics_fst]
  simp [missingBaseMetrics, checkDefined, unknownMetrics, flag, weightOf, Weight, StdMap.find]
  norm_num
  rfl

/-- C3, evaluated on the initial table: a valid Base assignment with the
in-domain Environmental values CR = `"H"` and MAV = `"N"` is not scored; the
call fails with `UnknownMetricValue` naming CR and MAV, because the validity
block reads the table under the keys `"CR"` and `"MAV"`, which it does not
have. -/
theorem environmental_value_rejected :
    (calculateCVSSFromMetrics Weight "N" "L" "N" "N" "U" "H" "H" "H"
      "X" "X" "X" "H" "X" "X" "N" "X" "X" "X" "X" "X" "X" "X").1 =
      ResultT.failure "UnknownMetricValue" "CR, MAV, " := by
  rw [calculateCVSSFromMetrics_fst]
  simp [missingBaseMetrics, checkDefined, unknownMetrics, flag, weightOf, Weight, StdMap.find]
  norm_num
  rfl

theorem calculateCVSSFromVector_multiple (W : WeightTable) (s : String) (bad : List String)
    (hm : regex_match s vectorStringRegex = true)
    (hfold : ((getlines (s.toList.drop (CVSSVersionIdentifier.length + 1))).foldl recordMetric
      (initialMetricValues, [])).2 = bad)
    (hbad : bad.length > 0) :
    (calculateCVSSFromVector W s).1 =
      ResultT.failure "MultipleDefinitionsOfMetric" (joinMetrics bad) := by
  unfold calculateCVSSFromVector
  simp only [hm, not_true_eq_false, if_false, hfold, if_pos hbad]

theorem vector_E_F (W : WeightTable) :
    (calculateCVSSFromVector W "CVSS:3.1/AV:N/AC:L/PR:N/UI:N/S:U/C:H/I:H/A:H/E:F").1 =
      ResultT.failure "MultipleDefinitionsOfMetric" "E, " := by
  rw [calculateCVSSFromVector_multiple W _ ["E"] (by decide) (by decide) (by decide)]
  rfl

/-- C4, evaluated on the initial table: the vector that appends a single
`/E:F` to a valid Base vector matches the grammar and repeats no metric, yet
the call fails with `MultipleDefinitionsOfMetric` naming E. -/
theorem temporal_token_rejected :
    MatchesGrammar "CVSS:3.1/AV:N/AC:L/PR:N/UI:N/S:U/C:H/I:H/A:H/E:F" ∧
    (calculateCVSSFromVector Weight "CVSS:3.1/AV:N/AC:L/PR:N/UI:N/S:U/C:H/I:H/A:H/E:F").1 =
      ResultT.failure "MultipleDefinitionsOfMetric" "E, " :=
  ⟨(regex_match_iff _).1 (by decide), vector_E_F Weight⟩

theorem calculateCVSSFromVector_of_values (W : WeightTable) (s : String)
    (AV AC PR UI S C I A E RL RC CR IR AR MAV MAC MPR MUI MS MC MI MA : String)
    (hm : regex_match s vectorStringRegex = true)
    (hbad : ((getlines (s.toList.drop (CVSSVersionIdentifier.length + 1))).foldl recordMetric
      (initialMetricValues, [])).2 = [])
    (hvals : ["AV", "AC", "PR", "UI", "S", "C", "I", "A", "E", "RL", "RC", "CR", "IR", "AR",
        "MAV", "MAC", "MPR", "MUI", "MS", "MC", "MI", "MA"].map
        (metricValue ((getlines (s.toList.drop (CVSSVersionIdentifier.length + 1))).foldl
          recordMetric (initialMetricValues, [])).1) =
      [AV, AC, PR, UI, S, C, I, A, E, RL, RC, CR, IR, AR, MAV, MAC, MPR, MUI, MS, MC, MI, MA]) :
    calculateCVSSFromVector W s =
      calculateCVSSFromMetrics W
        AV AC PR UI S C I A E RL RC CR IR AR MAV MAC MPR MUI MS MC MI MA := by
  simp only [List.map_cons, List.map_nil, List.cons.injEq, and_true] at hvals
  obtain ⟨h1, h2, h3, h4, h5, h6, h7, h8, h9, h10, h11, h12, h13, h14, h15, h16, h17, h18,
    h19, h20, h21, h22⟩ := hvals
  unfold calculateCVSSFromVector
  simp only [hm, not_true_eq_false, if_false, hbad, List.length_nil, gt_iff_lt, lt_self_iff_false,
    h1, h2, h3, h4, h5, h6, h7, h8, h9, h10, h11, h12, h13, h14, h15, h16, h17, h18,
    h19, h20, h21, h22]

/-- C10, evaluated on the initial table: the vector grammar accepts the
token `PR:U`, whose code is outside the domain N, L, H of PR, and the vector
that carries it is rejected as `UnknownMetricValue` naming PR, not as
`MalformedVectorString`. -/
theorem privileges_code_U_accepted :
    regex_match "CVSS:3.1/AV:N/AC:L/PR:U/UI:N/S:U/C:H/I:H/A:H" vectorStringRegex = true ∧
    (calculateCVSSFromVector Weight "CVSS:3.1/AV:N/AC:L/PR:U/UI:N/S:U/C:H/I:H/A:H").1 =
      ResultT.failure "UnknownMetricValue" "PR, " := by
  refine ⟨by decide, ?_⟩
  rw [calculateCVSSFromVector_of_values Weight _ "N" "L" "U" "N" "U" "H" "H" "H"
    "X" "X" "X" "X" "X" "X" "X" "X" "X" "X" "X" "X" "X" "X" (by decide) (by decide) (by decide),
    calculateCVSSFromMetrics_fst]
  simp [missingBaseMetrics, checkDefined, unknownMetrics, flag, weightOf, Weight, StdMap.find]
  norm_num
  rfl

/-- C5, evaluated on the initial table: the assignment (N,L,N,N,U,H,H,H)
with E = `"F"` is accepted and serialised with the suffix `/E:F`, and
`calculateCVSSFromVector` applied to that vector string, in the table state
the first call leaves, fails with `MultipleDefinitionsOfMetric` instead of
recovering the assignment. -/
theorem round_trip_fails :
    (calculateCVSSFromMetrics Weight "N" "L" "N" "N" "U" "H" "H" "H"
      "F" "X" "X" "X" "X" "X" "X" "X" "X" "X" "X" "X" "X" "X").1.success = true ∧
    (calculateCVSSFromMetrics Weight "N" "L" "N" "N" "U" "H" "H" "H"
      "F" "X" "X" "X" "X" "X" "X" "X" "X" "X" "X" "X" "X" "X").1.vectorString =
      "CVSS:3.1/AV:N/AC:L/PR:N/UI:N/S:U/C:H/I:H/A:H/E:F" ∧
    (calculateCVSSFromVector
      (calculateCVSSFromMetrics Weight "N" "L" "N" "N" "U" "H" "H" "H"
        "F" "X" "X" "X" "X" "X" "X" "X" "X" "X" "X" "X" "X" "X").2
      (calculateCVSSFromMetrics Weight "N" "L" "N" "N" "U" "H" "H" "H"
        "F" "X" "X" "X" "X" "X" "X" "X" "X" "X" "X" "X" "X" "X").1.vectorString).1 =
      ResultT.failure "MultipleDefinitionsOfMetric" "E, " := by
  have hr : (calculateCVSSFromMetrics Weight "N" "L" "N" "N" "U" "H" "H" "H"
      "F" "X" "X" "X" "X" "X" "X" "X" "X" "X" "X" "X" "X" "X").1 =
      successResult (gatheredWeights schemaWeight "N" "L" "N" "N" "U" "H" "H" "H"
        "F" "X" "X" "X" "X" "X" "X" "X" "X" "X" "X" "X" "X" "X") "N" "L" "N" "N" "U" "H" "H" "H"
        "F" "X" "X" "X" "X" "X" "X" "X" "X" "X" "X" "X" "X" "X" := by
    rw [calculateCVSSFromMetrics_fst, weightOf_Weight_eq, if_neg (by decide), if_neg]
    simp [unknownMetrics, flag, schemaWeight, weightOf, Weight, StdMap.find]
    norm_num
  have hv : (successResult (gatheredWeights schemaWeight "N" "L" "N" "N" "U" "H" "H" "H"
        "F" "X" "X" "X" "X" "X" "X" "X" "X" "X" "X" "X" "X" "X") "N" "L" "N" "N" "U" "H" "H" "H"
        "F" "X" "X" "X" "X" "X" "X" "X" "X" "X" "X" "X" "X" "X").vectorString =
      "CVSS:3.1/AV:N/AC:L/PR:N/UI:N/S:U/C:H/I:H/A:H/E:F" := by
    decide
  rw [hr]
  refine ⟨rfl, hv, ?_⟩
  rw [hv]
  exact vector_E_F _

/-! ## Instances -/

theorem accepted_PHLNULLH :
    (calculateCVSSFromMetrics Weight "P" "H" "L" "N" "U" "L" "L" "H"
      "X" "X" "X" "X" "X" "X" "X" "X" "X" "X" "X" "X" "X" "X").1.success = true := by
  rw [calculateCVSSFromMetrics_fst, if_neg (by decide), if_neg]
  · rfl
  · simp [unknownMetrics, flag, weightOf, Weight, StdMap.find]
    norm_num

theorem base_score_formula_witness :
    (calculateCVSSFromMetrics Weight "P" "H" "L" "N" "U" "L" "L" "H"
      "X" "X" "X" "X" "X" "X" "X" "X" "X" "X" "X" "X" "X" "X").1.success = true ∧
    (calculateCVSSFromMetrics Weight "P" "H" "L" "N" "U" "L" "L" "H"
      "X" "X" "X" "X" "X" "X" "X" "X" "X" "X" "X" "X" "X" "X").1.baseMetricScore =
      specBaseScore "P" "H" "L" "N" "U" "L" "L" "H" :=
  ⟨accepted_PHLNULLH,
   (base_score_formula Weight Reachable.init).1 "P" "H" "L" "N" "U" "L" "L" "H"
      "X" "X" "X" "X" "X" "X" "X" "X" "X" "X" "X" "X" "X" "X" accepted_PHLNULLH⟩

theorem missing_base_metric_witness :
    (∃ v ∈ ["undefined", "L", "", "N", "U", "H", "H", "H"], v = "undefined" ∨ v = "") ∧
    (calculateCVSSFromMetrics Weight "undefined" "L" "" "N" "U" "H" "H" "H"
      "X" "X" "X" "Q" "X" "X" "X" "X" "X" "X" "X" "X" "X" "X").1.errorType =
      "MissingBaseMetric" ∧
    (calculateCVSSFromMetrics Weight "undefined" "L" "" "N" "U" "H" "H" "H"
      "X" "X" "X" "Q" "X" "X" "X" "X" "X" "X" "X" "X" "X" "X").1.errorMessage = "AV, PR, " :=
  ⟨by decide,
   (missing_base_metric Weight "undefined" "L" "" "N" "U" "H" "H" "H"
      "X" "X" "X" "Q" "X" "X" "X" "X" "X" "X" "X" "X" "X" "X" (by decide)).2.1,
   (missing_base_metric Weight "undefined" "L" "" "N" "U" "H" "H" "H"
      "X" "X" "X" "Q" "X" "X" "X" "X" "X" "X" "X" "X" "X" "X" (by decide)).2.2.trans
      (by decide)⟩

theorem unknown_metric_value_witness :
    (∀ v ∈ ["Z", "L", "N", "N", "U", "H", "H", "H"], v ≠ "undefined" ∧ v ≠ "") ∧
    outsideDomain "Z" "L" "N" "N" "U" "H" "H" "H"
      "X" "X" "X" "X" "X" "X" "X" "X" "X" "X" "X" "X" "X" "X" = ["AV"] ∧
    (calculateCVSSFromMetrics Weight "Z" "L" "N" "N" "U" "H" "H" "H"
      "X" "X" "X" "X" "X" "X" "X" "X" "X" "X" "X" "X" "X" "X").1.errorType =
      "UnknownMetricValue" :=
  ⟨by decide, by decide,
   (unknown_metric_value Weight Reachable.init "Z" "L" "N" "N" "U" "H" "H" "H"
      "X" "X" "X" "X" "X" "X" "X" "X" "X" "X" "X" "X" "X" "X" (by decide) (by decide)).2.1⟩

theorem repeated_metric_witness :
    (∀ t ∈ [("AV", 'N'), ("AV", 'N')], t ∈ grammarTokens) ∧
    (∃ id, 2 ≤ ([("AV", 'N'), ("AV", 'N')].map Prod.fst).count id) ∧
    (calculateCVSSFromVector Weight "CVSS:3.1/AV:N/AV:N").1.errorType =
      "MultipleDefinitionsOfMetric" :=
  ⟨by decide, ⟨"AV", by decide⟩,
   (repeated_metric Weight [("AV", 'N'), ("AV", 'N')] (by decide) ⟨"AV", by decide⟩).2.1⟩

/-! ## Rounding up to one decimal place -/

theorem cround_intCast (m : ℤ) : cround (m : ℚ) = m := by
  unfold cround
  split
  · rw [Int.floor_eq_iff]
    constructor <;> linarith
  · rw [Int.ceil_eq_iff]
    constructor <;> linarith

theorem cround_of_nonneg (y : ℚ) (h : 0 ≤ y) : cround y = ⌊y + 1 / 2⌋ := by
  unfold cround
  rw [if_pos h]

theorem roundUp1_eq_ceil (x : ℚ) :
    roundUp1 x = ((⌈(cround (x * 100000) : ℚ) / 10000⌉ : ℤ) : ℚ) / 10 := by
  unfold roundUp1
  simp only
  generalize cround (x * 100000) = n
  split
  · rename_i h
    obtain ⟨q, rfl⟩ : ∃ q : ℤ, n = 10000 * q := ⟨n / 10000, by omega⟩
    have e : ((10000 * q : ℤ) : ℚ) / 10000 = (q : ℚ) := by
      push_cast
      field_simp
    rw [e, Int.ceil_intCast]
    push_cast
    field_simp
    ring
  · rename_i h
    have hc : ⌈(n : ℚ) / 10000⌉ = ⌊(n : ℚ) / 10000⌋ + 1 := by
      rw [Int.ceil_eq_iff]
      constructor
      · have h1 := Int.floor_le ((n : ℚ) / 10000)
        rcases lt_or_eq_of_le h1 with h2 | h2
        · push_cast
          linarith
        · exfalso
          apply h
          have h3 : (n : ℚ) = 10000 * (⌊(n : ℚ) / 10000⌋ : ℚ) := by
            rw [h2]
            field_simp
          have h4 : n = 10000 * ⌊(n : ℚ) / 10000⌋ := by exact_mod_cast h3
          omega
      · have h1 := Int.lt_floor_add_one ((n : ℚ) / 10000)
        push_cast
        linarith
    rw [hc]
    push_cast
    rfl

theorem roundUp1_multiple (x : ℚ) : ∃ k : ℤ, roundUp1 x = (k : ℚ) / 10 :=
  ⟨_, roundUp1_eq_ceil x⟩

theorem roundUp1_tenth (k : ℤ) : roundUp1 ((k : ℚ) / 10) = (k : ℚ) / 10 := by
  rw [roundUp1_eq_ceil]
  have e : (k : ℚ) / 10 * 100000 = ((10000 * k : ℤ) : ℚ) := by
    push_cast
    ring
  rw [e, cround_intCast]
  have e2 : ((10000 * k : ℤ) : ℚ) / 10000 = (k : ℚ) := by
    push_cast
    field_simp
  rw [e2, Int.ceil_intCast]

/-- C13: the function `roundUp1`, with exact arithmetic, is idempotent:
`roundUp1 (roundUp1 x) = roundUp1 x` for every number `x`. -/
theorem roundUp1_idempotent (x : ℚ) : roundUp1 (roundUp1 x) = roundUp1 x := by
  obtain ⟨k, hk⟩ := roundUp1_multiple x
  rw [hk, roundUp1_tenth]

theorem nearestInt_near (y : ℚ) : |y - (nearestInt y : ℚ)| ≤ 1 / 2 := by
  unfold nearestInt
  have h1 := Int.floor_le (y + 1 / 2)
  have h2 := Int.lt_floor_add_one (y + 1 / 2)
  rw [abs_le]
  constructor <;> linarith

theorem roundUp1_cases (x : ℚ) (hx : 0 ≤ x) :
    roundUp1 x =
      if (10000 : ℤ) ∣ nearestInt (100000 * x) then
        (nearestInt (100000 * x) : ℚ) / 100000
      else
        (((⌊(nearestInt (100000 * x) : ℚ) / 10000⌋ : ℤ) : ℚ) + 1) / 10 := by
  have hn : cround (x * 100000) = nearestInt (100000 * x) := by
    rw [cround_of_nonneg _ (by positivity), mul_comm]
    rfl
  unfold roundUp1
  simp only [hn, Int.dvd_iff_emod_eq_zero]

theorem roundUp1_least (x : ℚ) (hx : 0 ≤ x) :
    (nearestInt (100000 * x) : ℚ) / 100000 ≤ roundUp1 x ∧
    ∀ k : ℤ, (nearestInt (100000 * x) : ℚ) / 100000 ≤ (k : ℚ) / 10 →
      roundUp1 x ≤ (k : ℚ) / 10 := by
  have hn : cround (x * 100000) = nearestInt (100000 * x) := by
    rw [cround_of_nonneg _ (by positivity), mul_comm]
    rfl
  rw [roundUp1_eq_ceil, hn]
  generalize nearestInt (100000 * x) = n
  constructor
  · have h := Int.le_ceil ((n : ℚ) / 10000)
    linarith
  · intro k hk
    have h : ⌈(n : ℚ) / 10000⌉ ≤ k := by
      rw [Int.ceil_le]
      linarith
    have h' : ((⌈(n : ℚ) / 10000⌉ : ℤ) : ℚ) ≤ (k : ℚ) := by exact_mod_cast h
    linarith

/-! ## `roundUp1` in double arithmetic -/

theorem roundHalfEven_of_near (y : ℚ) (m : ℤ) (h1 : (m : ℚ) - 1 / 2 < y)
    (h2 : y < (m : ℚ) + 1 / 2) : roundHalfEven y = m := by
  unfold roundHalfEven
  by_cases h : (m : ℚ) ≤ y
  · have hf : ⌊y⌋ = m := Int.floor_eq_iff.2 ⟨h, by linarith⟩
    rw [hf, if_pos (by linarith)]
  · have hf : ⌊y⌋ = m - 1 := Int.floor_eq_iff.2 ⟨by push_cast; linarith, by push_cast; linarith⟩
    rw [hf, if_neg (by push_cast; linarith), if_pos (by push_cast; linarith)]
    ring

/-- The double nearest to a positive number `x` with `2 ^ e ≤ x < 2 ^ (e + 1)`
is `m * 2 ^ (e - 52)` for the integer `m` within a half of `x / 2 ^ (e - 52)`. -/
theorem binary64_of_bounds (x : ℚ) (e m : ℤ) (he : -1022 ≤ e) (hlo : (2 : ℚ) ^ e ≤ x)
    (hhi : x < (2 : ℚ) ^ (e + 1)) (h1 : (m : ℚ) - 1 / 2 < x / 2 ^ (e - 52))
    (h2 : x / 2 ^ (e - 52) < (m : ℚ) + 1 / 2)
    (hfin : (m : ℚ) * 2 ^ (e - 52) < 2 ^ (1024 : ℤ)) :
    binary64 x = some ((m : ℚ) * 2 ^ (e - 52)) := by
  have hx : 0 < x := lt_of_lt_of_le (zpow_pos (by norm_num) e) hlo
  have hlog : Int.log 2 x = e := by
    apply le_antisymm
    · have := (Int.lt_zpow_iff_log_lt (R := ℚ) (b := 2) (by norm_num) hx).1
        (by exact_mod_cast hhi)
      omega
    · exact (Int.zpow_le_iff_le_log (R := ℚ) (b := 2) (by norm_num) hx).1
        (by exact_mod_cast hlo)
  unfold binary64
  simp only [abs_of_pos hx, hlog, max_eq_left he, roundHalfEven_of_near _ m h1 h2,
    if_pos hfin, if_neg (not_lt.2 hx.le)]

theorem binary64_zero : binary64 0 = some 0 := by
  unfold binary64
  simp [Int.log_of_right_le_zero, roundHalfEven]
  positivity

theorem roundUp1Double_of_product (x p : ℚ) (hp : binary64 (x * 100000) = some p) :
    roundUp1Double x =
      if cround p % 10000 = 0 then binary64 ((cround p : ℚ) / 100000)
      else
        (binary64 ((cround p : ℚ) / 10000)).bind fun quotient =>
          (binary64 ((⌊quotient⌋ : ℤ) + 1)).bind fun sum => binary64 (sum / 10) := by
  unfold roundUp1Double
  rw [hp]
  rfl

theorem roundUp1Double_of_quotient (x p q s : ℚ) (hp : binary64 (x * 100000) = some p)
    (hc : ¬ cround p % 10000 = 0) (hq : binary64 ((cround p : ℚ) / 10000) = some q)
    (hs : binary64 ((⌊q⌋ : ℤ) + 1) = some s) :
    roundUp1Double x = binary64 (s / 10) := by
  rw [roundUp1Double_of_product x p hp, if_neg hc, hq, Option.some_bind, hs, Option.some_bind]

theorem double_4000005 :
    binary64 (100000 * (2251802628435015 / 562949953421312)) = some 400000.5 ∧
    roundUp1Double (2251802628435015 / 562949953421312) =
      some (2308094809027379 / 562949953421312) := by
  have hp : binary64 (100000 * (2251802628435015 / 562949953421312)) = some 400000.5 := by
    rw [binary64_of_bounds _ 18 6871956263534592 (by norm_num) (by norm_num) (by norm_num)
      (by norm_num) (by norm_num) (by norm_num)]
    norm_num
  have hq : binary64 ((400001 : ℚ) / 10000) = some (1407378401990489 / 35184372088832) := by
    rw [binary64_of_bounds _ 5 5629513607961956 (by norm_num) (by norm_num) (by norm_num)
      (by norm_num) (by norm_num) (by norm_num)]
    norm_num
  have hs : binary64 41 = some 41 := by
    rw [binary64_of_bounds _ 5 5770237022568448 (by norm_num) (by norm_num) (by norm_num)
      (by norm_num) (by norm_num) (by norm_num)]
    norm_num
  have hr : binary64 ((41 : ℚ) / 10) = some (2308094809027379 / 562949953421312) := by
    rw [binary64_of_bounds _ 2 4616189618054758 (by norm_num) (by norm_num) (by norm_num)
      (by norm_num) (by norm_num) (by norm_num)]
    norm_num
  have hc : cround (400000.5 : ℚ) = 400001 := by
    norm_num [cround]
  have hfl : ⌊(1407378401990489 / 35184372088832 : ℚ)⌋ = 40 := by
    rw [Int.floor_eq_iff]
    norm_num
  refine ⟨hp, ?_⟩
  rw [roundUp1Double_of_quotient _ 400000.5 (1407378401990489 / 35184372088832) 41
    (by rw [mul_comm]; exact hp) (by rw [hc]; norm_num)
    (by rw [hc]; push_cast; exact hq) (by rw [hfl]; norm_num [hs])]
  exact hr

theorem double_examples :
    (binary64 0.000001).bind roundUp1Double = some 0 ∧
    (binary64 0.000009).bind roundUp1Double = binary64 0.1 := by
  have h1 : binary64 (0.000001 : ℚ) = some (4722366482869645 / 4722366482869645213696) := by
    rw [binary64_of_bounds _ (-20) 4722366482869645 (by norm_num) (by norm_num) (by norm_num)
      (by norm_num) (by norm_num) (by norm_num)]
    norm_num
  have h1p : binary64 ((4722366482869645 / 4722366482869645213696 : ℚ) * 100000) =
      some (7205759403792793 / 72057594037927936) := by
    rw [binary64_of_bounds _ (-4) 7205759403792793 (by norm_num) (by norm_num) (by norm_num)
      (by norm_num) (by norm_num) (by norm_num)]
    norm_num
  have h9 : binary64 (0.000009 : ℚ) = some (5312662293228351 / 590295810358705651712) := by
    rw [binary64_of_bounds _ (-17) 5312662293228351 (by norm_num) (by norm_num) (by norm_num)
      (by norm_num) (by norm_num) (by norm_num)]
    norm_num
  have h9p : binary64 ((5312662293228351 / 590295810358705651712 : ℚ) * 100000) =
      some (8106479329266893 / 9007199254740992) := by
    rw [binary64_of_bounds _ (-1) 8106479329266893 (by norm_num) (by norm_num) (by norm_num)
      (by norm_num) (by norm_num) (by norm_num)]
    norm_num
  have hq : binary64 ((1 : ℚ) / 10000) = some (7378697629483821 / 73786976294838206464) := by
    rw [binary64_of_bounds _ (-14) 7378697629483821 (by norm_num) (by norm_num) (by norm_num)
      (by norm_num) (by norm_num) (by norm_num)]
    norm_num
  have hs : binary64 1 = some 1 := by
    rw [binary64_of_bounds _ 0 4503599627370496 (by norm_num) (by norm_num) (by norm_num)
      (by norm_num) (by norm_num) (by norm_num)]
    norm_num
  have h01 : binary64 (0.1 : ℚ) = some (3602879701896397 / 36028797018963968) := by
    rw [binary64_of_bounds _ (-4) 7205759403792794 (by norm_num) (by norm_num) (by norm_num)
      (by norm_num) (by norm_num) (by norm_num)]
    norm_num
  have h01' : binary64 ((1 : ℚ) / 10) = some (3602879701896397 / 36028797018963968) := by
    rw [binary64_of_bounds _ (-4) 7205759403792794 (by norm_num) (by norm_num) (by norm_num)
      (by norm_num) (by norm_num) (by norm_num)]
    norm_num
  have hc1 : cround (7205759403792793 / 72057594037927936 : ℚ) = 0 := by
    norm_num [cround]
  have hc9 : cround (8106479329266893 / 9007199254740992 : ℚ) = 1 := by
    norm_num [cround]
  have hfl : ⌊(7378697629483821 / 73786976294838206464 : ℚ)⌋ = 0 := by
    rw [Int.floor_eq_iff]
    norm_num
  constructor
  · rw [h1, Option.some_bind, roundUp1Double_of_product _ _ h1p, hc1, if_pos (by norm_num),
      Int.cast_zero, zero_div, binary64_zero]
  · rw [h9, Option.some_bind]
    rw [roundUp1Double_of_quotient _ _ _ 1 h9p (by rw [hc9]; norm_num)
      (by rw [hc9, Int.cast_one]; exact hq) (by rw [hfl]; norm_num [hs])]
    rw [h01', h01]

theorem roundHalfEven_near (y : ℚ) : |(roundHalfEven y : ℚ) - y| ≤ 1 / 2 := by
  have h1 := Int.floor_le y
  have h2 := Int.lt_floor_add_one y
  unfold roundHalfEven
  rw [abs_le]
  split_ifs <;> push_cast <;> constructor <;> linarith

theorem roundHalfEven_nonneg (y : ℚ) (hy : 0 ≤ y) : 0 ≤ roundHalfEven y := by
  have h := Int.floor_nonneg.2 hy
  unfold roundHalfEven
  split_ifs <;> omega

/-- The double for a number is not negative when the number is not. -/
theorem binary64_nonneg (x p : ℚ) (hx : 0 ≤ x) (hp : binary64 x = some p) : 0 ≤ p := by
  unfold binary64 at hp
  simp only [if_neg (not_lt.2 hx)] at hp
  split_ifs at hp
  rw [← Option.some.inj hp]
  have hm : (0 : ℚ) ≤ (roundHalfEven (|x| / 2 ^ (max (Int.log 2 |x|) (-1022) - 52)) : ℚ) := by
    exact_mod_cast roundHalfEven_nonneg _ (div_nonneg (abs_nonneg x) (by positivity))
  exact mul_nonneg hm (by positivity)

/-- The double for a number `q` of the normal range differs from `q` by at
most `q * 2 ^ (-53)`. -/
theorem binary64_near (q : ℚ) (hlow : (2 : ℚ) ^ (-1022 : ℤ) ≤ q)
    (hhigh : q < (2 : ℚ) ^ (1023 : ℤ)) :
    ∃ r, binary64 q = some r ∧ |r - q| ≤ q * 2 ^ (-53 : ℤ) := by
  have hq : 0 < q := lt_of_lt_of_le (by positivity) hlow
  have hlo : (2 : ℚ) ^ Int.log 2 q ≤ q := by
    exact_mod_cast Int.zpow_log_le_self (R := ℚ) (b := 2) (by norm_num) hq
  have he : -1022 ≤ Int.log 2 q :=
    (Int.zpow_le_iff_le_log (R := ℚ) (b := 2) (by norm_num) hq).1 (by exact_mod_cast hlow)
  have hu : 0 < (2 : ℚ) ^ (Int.log 2 q - 52) := by positivity
  have hu2 : (2 : ℚ) ^ (Int.log 2 q - 52) = 2 ^ Int.log 2 q * 2 ^ (-52 : ℤ) := by
    rw [← zpow_add₀ (by norm_num : (2 : ℚ) ≠ 0)]
    rfl
  have hnear := roundHalfEven_near (q / 2 ^ (Int.log 2 q - 52))
  have hdiff : (roundHalfEven (q / 2 ^ (Int.log 2 q - 52)) : ℚ) * 2 ^ (Int.log 2 q - 52) - q =
      ((roundHalfEven (q / 2 ^ (Int.log 2 q - 52)) : ℚ) - q / 2 ^ (Int.log 2 q - 52)) *
        2 ^ (Int.log 2 q - 52) := by
    field_simp
  have herr : |(roundHalfEven (q / 2 ^ (Int.log 2 q - 52)) : ℚ) * 2 ^ (Int.log 2 q - 52) - q| ≤
      q * 2 ^ (-53 : ℤ) := by
    rw [hdiff, abs_mul, abs_of_pos hu]
    have h53 : (2 : ℚ) ^ (-53 : ℤ) = 2 ^ (-52 : ℤ) / 2 := by norm_num
    have h52 : (0 : ℚ) < 2 ^ (-52 : ℤ) := by positivity
    calc |(roundHalfEven (q / 2 ^ (Int.log 2 q - 52)) : ℚ) - q / 2 ^ (Int.log 2 q - 52)| *
          2 ^ (Int.log 2 q - 52)
        ≤ 1 / 2 * 2 ^ (Int.log 2 q - 52) := mul_le_mul_of_nonneg_right hnear hu.le
      _ = 2 ^ Int.log 2 q * (2 ^ (-52 : ℤ) / 2) := by rw [hu2]; ring
      _ ≤ q * (2 ^ (-52 : ℤ) / 2) := mul_le_mul_of_nonneg_right hlo (by positivity)
      _ = q * 2 ^ (-53 : ℤ) := by rw [h53]
  refine ⟨(roundHalfEven (q / 2 ^ (Int.log 2 q - 52)) : ℚ) * 2 ^ (Int.log 2 q - 52), ?_, herr⟩
  have hfin : (roundHalfEven (q / 2 ^ (Int.log 2 q - 52)) : ℚ) * 2 ^ (Int.log 2 q - 52) <
      2 ^ (1024 : ℤ) := by
    have h := (abs_le.1 herr).2
    have h53 : (2 : ℚ) ^ (-53 : ℤ) ≤ 1 := by norm_num
    have h1024 : (2 : ℚ) ^ (1024 : ℤ) = 2 * 2 ^ (1023 : ℤ) := by
      rw [← zpow_one_add₀ (by norm_num : (2 : ℚ) ≠ 0)]
      rfl
    rw [h1024]
    nlinarith
  unfold binary64
  simp only [abs_of_pos hq, max_eq_left he, if_pos hfin, if_neg (not_lt.2 hq.le)]

/-- An integer from 0 to below `2 ^ 53` is a double. -/
theorem binary64_int (k : ℤ) (h0 : 0 ≤ k) (hk : k < 2 ^ 53) : binary64 (k : ℚ) = some (k : ℚ) := by
  rcases h0.eq_or_lt with rfl | hpos
  · simpa using binary64_zero
  have hq : (0 : ℚ) < (k : ℚ) := by exact_mod_cast hpos
  have hlo : (2 : ℚ) ^ Int.log 2 (k : ℚ) ≤ (k : ℚ) := by
    exact_mod_cast Int.zpow_log_le_self (R := ℚ) (b := 2) (by norm_num) hq
  have hhi : (k : ℚ) < (2 : ℚ) ^ (Int.log 2 (k : ℚ) + 1) := by
    exact_mod_cast Int.lt_zpow_succ_log_self (R := ℚ) (b := 2) (by norm_num) (k : ℚ)
  have he0 : 0 ≤ Int.log 2 (k : ℚ) :=
    (Int.zpow_le_iff_le_log (R := ℚ) (b := 2) (by norm_num) hq).1
      (by rw [zpow_zero]; exact_mod_cast hpos)
  have he52 : Int.log 2 (k : ℚ) < 53 :=
    (Int.lt_zpow_iff_log_lt (R := ℚ) (b := 2) (by norm_num) hq).1 (by
      have : (k : ℚ) < (2 : ℚ) ^ (53 : ℕ) := by exact_mod_cast hk
      exact_mod_cast this)
  have hpow : (2 : ℚ) ^ (Int.log 2 (k : ℚ) - 52) =
      ((2 : ℚ) ^ (52 - Int.log 2 (k : ℚ)).toNat)⁻¹ := by
    rw [← zpow_natCast, Int.toNat_of_nonneg (by omega), ← zpow_neg]
    congr 1
    ring
  have hm : ((k * 2 ^ (52 - Int.log 2 (k : ℚ)).toNat : ℤ) : ℚ) =
      (k : ℚ) / 2 ^ (Int.log 2 (k : ℚ) - 52) := by
    rw [hpow]
    push_cast
    field_simp
  have hval : ((k * 2 ^ (52 - Int.log 2 (k : ℚ)).toNat : ℤ) : ℚ) *
      2 ^ (Int.log 2 (k : ℚ) - 52) = (k : ℚ) := by
    rw [hm]
    field_simp
  rw [binary64_of_bounds (k : ℚ) (Int.log 2 (k : ℚ)) (k * 2 ^ (52 - Int.log 2 (k : ℚ)).toNat)
    (by omega) hlo hhi (by rw [hm]; linarith) (by rw [hm]; linarith) (by
      rw [hval]
      have : (k : ℚ) < (2 : ℚ) ^ (53 : ℕ) := by exact_mod_cast hk
      have h2 : (2 : ℚ) ^ (53 : ℕ) < 2 ^ (1024 : ℤ) := by norm_num
      linarith), hval]

/-- The quotient `n / 10000` of a positive integer below `2 ^ 53` that is no
multiple of 10000, rounded to a double, has the integer part of the exact
quotient. -/
theorem binary64_quotient (n : ℤ) (h0 : 0 < n) (hn : n < 2 ^ 53) (hd : ¬ n % 10000 = 0) :
    ∃ q, binary64 ((n : ℚ) / 10000) = some q ∧ ⌊q⌋ = ⌊(n : ℚ) / 10000⌋ := by
  have hn1 : (1 : ℚ) ≤ (n : ℚ) := by exact_mod_cast h0
  have hn2 : (n : ℚ) < (2 : ℚ) ^ (53 : ℕ) := by exact_mod_cast hn
  obtain ⟨q, hq, herr⟩ := binary64_near ((n : ℚ) / 10000)
    (by
      have : (2 : ℚ) ^ (-1022 : ℤ) ≤ 1 / 10000 := by norm_num
      have h' : (1 : ℚ) / 10000 ≤ (n : ℚ) / 10000 := by linarith
      linarith)
    (by
      have : (2 : ℚ) ^ (53 : ℕ) / 10000 < 2 ^ (1023 : ℤ) := by norm_num
      linarith)
  refine ⟨q, hq, ?_⟩
  have hdiv := Int.emod_add_ediv n 10000
  have hb0 := Int.emod_nonneg n (by norm_num : (10000 : ℤ) ≠ 0)
  have hb1 := Int.emod_lt_of_pos n (by norm_num : (0 : ℤ) < 10000)
  have hsplit : (n : ℚ) = ((n % 10000 : ℤ) : ℚ) + 10000 * ((n / 10000 : ℤ) : ℚ) := by
    exact_mod_cast hdiv.symm
  have hbl : (1 : ℚ) ≤ ((n % 10000 : ℤ) : ℚ) := by
    have : 1 ≤ n % 10000 := by omega
    exact_mod_cast this
  have hbu : ((n % 10000 : ℤ) : ℚ) ≤ 9999 := by
    have : n % 10000 ≤ 9999 := by omega
    exact_mod_cast this
  have hfl : ⌊(n : ℚ) / 10000⌋ = n / 10000 := by
    rw [Int.floor_eq_iff]
    constructor <;> linarith
  have hsmall : (n : ℚ) / 10000 * 2 ^ (-53 : ℤ) < 1 / 10000 := by
    have h53 : (2 : ℚ) ^ (-53 : ℤ) = 1 / 2 ^ (53 : ℕ) := by norm_num
    rw [h53, div_mul_div_comm, div_lt_div_iff₀ (by positivity) (by positivity)]
    nlinarith
  have habs := abs_le.1 herr
  rw [hfl, Int.floor_eq_iff]
  constructor <;> linarith [habs.1, habs.2]

/-- The function `roundUp1` in double arithmetic, for a product that rounds
to an integer `n` from 0 to below `2 ^ 53`: the double for `n / 100000` when
10000 divides `n`, and the double for `(floor (n / 10000) + 1) / 10`
otherwise. -/
theorem roundUp1Double_cases (x p : ℚ) (hx : 0 ≤ x) (hp : binary64 (x * 100000) = some p)
    (hn : cround p < 2 ^ 53) :
    roundUp1Double x =
      if (10000 : ℤ) ∣ cround p then binary64 ((cround p : ℚ) / 100000)
      else binary64 ((((⌊(cround p : ℚ) / 10000⌋ : ℤ) : ℚ) + 1) / 10) := by
  have hp0 : 0 ≤ p := binary64_nonneg _ p (by positivity) hp
  have hn0 : 0 ≤ cround p := by
    unfold cround
    rw [if_pos hp0]
    exact Int.floor_nonneg.2 (by linarith)
  by_cases hd : cround p % 10000 = 0
  · rw [roundUp1Double_of_product x p hp, if_pos hd, if_pos (Int.dvd_of_emod_eq_zero hd)]
  · have hd' : ¬ (10000 : ℤ) ∣ cround p := fun h => hd (Int.emod_eq_zero_of_dvd h)
    have hpos : 0 < cround p := by
      rcases hn0.eq_or_lt with h | h
      · rw [← h] at hd
        exact absurd rfl hd
      · exact h
    obtain ⟨q, hq, hfl⟩ := binary64_quotient (cround p) hpos hn hd
    have hfl' : ⌊(cround p : ℚ) / 10000⌋ = cround p / 10000 := by
      rw [Int.floor_eq_iff]
      have hdiv := Int.emod_add_ediv (cround p) 10000
      have hb0 := Int.emod_nonneg (cround p) (by norm_num : (10000 : ℤ) ≠ 0)
      have hb1 := Int.emod_lt_of_pos (cround p) (by norm_num : (0 : ℤ) < 10000)
      have hsplit : ((cround p : ℤ) : ℚ) =
          ((cround p % 10000 : ℤ) : ℚ) + 10000 * ((cround p / 10000 : ℤ) : ℚ) := by
        exact_mod_cast hdiv.symm
      have h1 : (0 : ℚ) ≤ ((cround p % 10000 : ℤ) : ℚ) := by exact_mod_cast hb0
      have h2 : ((cround p % 10000 : ℤ) : ℚ) < 10000 := by exact_mod_cast hb1
      constructor <;> linarith
    have hs : binary64 (((⌊q⌋ : ℤ) : ℚ) + 1) = some ((((⌊q⌋ : ℤ) : ℚ)) + 1) := by
      have h := binary64_int (⌊q⌋ + 1) (by rw [hfl, hfl']; omega) (by rw [hfl, hfl']; omega)
      push_cast at h
      exact h
    rw [roundUp1Double_of_quotient x p q _ hp hd hq hs, if_neg hd', hfl]

/-- C14, as stated, fails in the double arithmetic of the code: for the
double `2251802628435015 / 2 ^ 49`, just below 4.000005, the integer nearest
to `100000 * x` is 400000, a multiple of 10000, so that the claim gives
`400000 / 100000 = 4.0`; the product rounded to a double is 400000.5, which
`round` takes to 400001, and `roundUp1` returns the double 4.1. -/
theorem roundUp1_double_product :
    binary64 (2251802628435015 / 562949953421312) =
      some (2251802628435015 / 562949953421312) ∧
    (0 : ℚ) ≤ 2251802628435015 / 562949953421312 ∧
    nearestInt (100000 * (2251802628435015 / 562949953421312)) = 400000 ∧
    (10000 : ℤ) ∣ 400000 ∧
    binary64 (100000 * (2251802628435015 / 562949953421312)) = some 400000.5 ∧
    cround (400000.5 : ℚ) = 400001 ∧
    roundUp1Double (2251802628435015 / 562949953421312) = binary64 4.1 ∧
    roundUp1Double (2251802628435015 / 562949953421312) ≠
      binary64 ((400000 : ℚ) / 100000) := by
  have hx : binary64 ((2251802628435015 : ℚ) / 562949953421312) =
      some (2251802628435015 / 562949953421312) := by
    rw [binary64_of_bounds _ 2 4503605256870030 (by norm_num) (by norm_num) (by norm_num)
      (by norm_num) (by norm_num) (by norm_num)]
    norm_num
  have h41 : binary64 (4.1 : ℚ) = some (2308094809027379 / 562949953421312) := by
    rw [binary64_of_bounds _ 2 4616189618054758 (by norm_num) (by norm_num) (by norm_num)
      (by norm_num) (by norm_num) (by norm_num)]
    norm_num
  have h4 : binary64 ((400000 : ℚ) / 100000) = some 4 := by
    rw [binary64_of_bounds _ 2 4503599627370496 (by norm_num) (by norm_num) (by norm_num)
      (by norm_num) (by norm_num) (by norm_num)]
    norm_num
  have hn : nearestInt (100000 * (2251802628435015 / 562949953421312)) = 400000 := by
    unfold nearestInt
    rw [Int.floor_eq_iff]
    norm_num
  refine ⟨hx, by norm_num, hn, by norm_num, double_4000005.1, by norm_num [cround], ?_, ?_⟩
  · rw [double_4000005.2, h41]
  · rw [double_4000005.2, h4]
    norm_num

/-- C14, amended: for every `x ≥ 0`, with exact arithmetic and `n` the integer
nearest to `100000 * x`, `roundUp1 x` is `n / 100000` when 10000 divides `n`
and `(floor (n / 10000) + 1) / 10` otherwise; it is a multiple of 0.1, it is
not below `n / 100000`, and no multiple of 0.1 that is not below
`n / 100000` is smaller. In particular `roundUp1 0.000001 = 0.0` and
`roundUp1 0.000009 = 0.1`, also in double arithmetic. In double arithmetic
`n` is the integer nearest to the product `x * 100000` rounded to a double,
and for `n` below `2 ^ 53` the result is the double for `n / 100000` when
10000 divides `n` and the double for `(floor (n / 10000) + 1) / 10`
otherwise. -/
theorem roundUp1_spec :
    (∀ x : ℚ, 0 ≤ x →
      |100000 * x - (nearestInt (100000 * x) : ℚ)| ≤ 1 / 2 ∧
      roundUp1 x =
        (if (10000 : ℤ) ∣ nearestInt (100000 * x) then
          (nearestInt (100000 * x) : ℚ) / 100000
        else
          (((⌊(nearestInt (100000 * x) : ℚ) / 10000⌋ : ℤ) : ℚ) + 1) / 10) ∧
      (∃ k : ℤ, roundUp1 x = (k : ℚ) / 10) ∧
      (nearestInt (100000 * x) : ℚ) / 100000 ≤ roundUp1 x ∧
      ∀ k : ℤ, (nearestInt (100000 * x) : ℚ) / 100000 ≤ (k : ℚ) / 10 →
        roundUp1 x ≤ (k : ℚ) / 10) ∧
    roundUp1 0.000001 = 0.0 ∧ roundUp1 0.000009 = 0.1 ∧
    (binary64 0.000001).bind roundUp1Double = some 0 ∧
    (binary64 0.000009).bind roundUp1Double = binary64 0.1 ∧
    (∀ x p : ℚ, 0 ≤ x → binary64 (x * 100000) = some p → cround p < 2 ^ 53 →
      roundUp1Double x =
        if (10000 : ℤ) ∣ cround p then binary64 ((cround p : ℚ) / 100000)
        else binary64 ((((⌊(cround p : ℚ) / 10000⌋ : ℤ) : ℚ) + 1) / 10)) := by
  refine ⟨fun x hx => ⟨nearestInt_near _, roundUp1_cases x hx, roundUp1_multiple x,
    (roundUp1_least x hx).1, (roundUp1_least x hx).2⟩, ?_, ?_, double_examples.1,
    double_examples.2, fun x p hx hp hn => roundUp1Double_cases x p hx hp hn⟩
  · norm_num [roundUp1, cround]
  · norm_num [roundUp1, cround]

theorem roundUp1_spec_witness :
    (0 : ℚ) ≤ 0.000009 ∧ ∃ k : ℤ, roundUp1 0.000009 = (k : ℚ) / 10 :=
  ⟨by norm_num, (roundUp1_spec.1 0.000009 (by norm_num)).2.2.1⟩

/-! ## Severity bands -/

theorem severityRating_tenth (k : ℤ) (h0 : 0 ≤ k) (h100 : k ≤ 100) :
    severityRating ((k : ℚ) / 10) =
      if k = 0 then "None" else if k ≤ 39 then "Low" else if k ≤ 69 then "Medium"
      else if k ≤ 89 then "High" else "Critical" := by
  interval_cases k <;> norm_num [severityRating, severityScan, severityRatings]

theorem tenth_bounds (s : ℚ) (hs : ∃ k : ℤ, s = (k : ℚ) / 10) (h0 : 0 ≤ s) (h10 : s ≤ 10) :
    ∃ k : ℤ, 0 ≤ k ∧ k ≤ 100 ∧ s = (k : ℚ) / 10 := by
  obtain ⟨k, rfl⟩ := hs
  refine ⟨k, ?_, ?_, rfl⟩
  · have : (0 : ℚ) ≤ (k : ℚ) := by linarith
    exact_mod_cast this
  · have : (k : ℚ) ≤ (100 : ℚ) := by linarith
    exact_mod_cast this

theorem severityRating_iff (s : ℚ) (hs : ∃ k : ℤ, s = (k : ℚ) / 10) (h0 : 0 ≤ s)
    (h10 : s ≤ 10) :
    (severityRating s = "None" ↔ s = 0.0) ∧
    (severityRating s = "Low" ↔ 0.1 ≤ s ∧ s ≤ 3.9) ∧
    (severityRating s = "Medium" ↔ 4.0 ≤ s ∧ s ≤ 6.9) ∧
    (severityRating s = "High" ↔ 7.0 ≤ s ∧ s ≤ 8.9) ∧
    (severityRating s = "Critical" ↔ 9.0 ≤ s ∧ s ≤ 10.0) := by
  obtain ⟨k, hk0, hk100, rfl⟩ := tenth_bounds s hs h0 h10
  rw [severityRating_tenth k hk0 hk100]
  interval_cases k <;> norm_num <;> decide

/-! ## Bounds on the weights and the scores -/

theorem StdMap.find_mem {α : Type} (m : StdMap α) (k : String) (a : α)
    (h : m.find k = some a) : (k, a) ∈ m := by
  induction m with
  | nil => simp [StdMap.find] at h
  | cons hd tl ih =>
    obtain ⟨k0, b⟩ := hd
    by_cases e : k = k0
    · subst e
      simp only [StdMap.find, if_true, Option.some.injEq] at h
      subst h
      exact List.mem_cons_self _ _
    · simp only [StdMap.find, if_neg e] at h
      exact List.mem_cons_of_mem _ (ih h)

theorem weightOf_nonneg (W : WeightTable) (h : ∀ e ∈ W, ∀ p ∈ e.2, 0 ≤ p.2)
    (k v : String) : 0 ≤ weightOf W k v := by
  unfold weightOf
  cases hk : W.find k with
  | none => exact le_refl _
  | some inner =>
    cases hv : inner.find v with
    | none =>
      show (0 : ℚ) ≤ (inner.find v).getD 0
      rw [hv]
      exact le_refl _
    | some w =>
      show (0 : ℚ) ≤ (inner.find v).getD 0
      rw [hv]
      exact h (k, inner) (StdMap.find_mem W k inner hk) (v, w) (StdMap.find_mem inner v w hv)

theorem schemaWeight_nonneg (k v : String) : 0 ≤ schemaWeight k v := by
  apply weightOf_nonneg
  simp only [Weight, List.forall_mem_cons, List.not_mem_nil, false_imp_iff, implies_true,
    and_true]
  norm_num

theorem schemaWeight_temporal_le_one (k v : String) (hk : k = "E" ∨ k = "RL" ∨ k = "RC") :
    schemaWeight k v ≤ 1 := by
  rcases hk with rfl | rfl | rfl <;>
  · simp [schemaWeight, weightOf, Weight, StdMap.find]
    split_ifs <;> norm_num
theorem isScore_zero : IsScore 0 :=
  ⟨⟨0, by norm_num⟩, le_refl _, by norm_num⟩

theorem isScore_roundUp1 (y : ℚ) (h0 : 0 ≤ y) (h10 : y ≤ 10) : IsScore (roundUp1 y) := by
  refine ⟨roundUp1_multiple y, ?_, ?_⟩
  · rw [roundUp1_eq_ceil, cround_of_nonneg _ (by positivity)]
    have hn : (0 : ℤ) ≤ ⌊y * 100000 + 1 / 2⌋ := Int.floor_nonneg.2 (by positivity)
    have hc : (0 : ℤ) ≤ ⌈((⌊y * 100000 + 1 / 2⌋ : ℤ) : ℚ) / 10000⌉ :=
      Int.ceil_nonneg (by positivity)
    have hc' : (0 : ℚ) ≤ ((⌈((⌊y * 100000 + 1 / 2⌋ : ℤ) : ℚ) / 10000⌉ : ℤ) : ℚ) := by
      exact_mod_cast hc
    linarith
  · rw [roundUp1_eq_ceil, cround_of_nonneg _ (by positivity)]
    have h1 := Int.floor_le (y * 100000 + 1 / 2)
    have h2 : ((⌊y * 100000 + 1 / 2⌋ : ℤ) : ℚ) < 1000001 := by linarith
    have h3 : ⌊y * 100000 + 1 / 2⌋ ≤ 1000000 := by
      have : ⌊y * 100000 + 1 / 2⌋ < 1000001 := by exact_mod_cast h2
      omega
    have h4 : ((⌊y * 100000 + 1 / 2⌋ : ℤ) : ℚ) ≤ 1000000 := by exact_mod_cast h3
    have hc : ⌈((⌊y * 100000 + 1 / 2⌋ : ℤ) : ℚ) / 10000⌉ ≤ 100 := by
      rw [Int.ceil_le]
      push_cast
      linarith
    have hc' : ((⌈((⌊y * 100000 + 1 / 2⌋ : ℤ) : ℚ) / 10000⌉ : ℤ) : ℚ) ≤ 100 := by
      exact_mod_cast hc
    linarith

theorem isScore_baseScore (w : MetricWeights) (S : String)
    (hAV : 0 ≤ w.AV) (hAC : 0 ≤ w.AC) (hPR : 0 ≤ w.PR) (hUI : 0 ≤ w.UI) :
    IsScore (baseScore w S) := by
  have hE : 0 ≤ baseExploitability w := by
    unfold baseExploitability exploitabilityCoefficient
    positivity
  unfold baseScore
  split
  · exact isScore_zero
  · rename_i hI
    have hI' : 0 < baseImpact w S := lt_of_not_ge hI
    split
    · exact isScore_roundUp1 _ (le_min (by linarith) (by norm_num)) (min_le_right _ _ |>.trans (by norm_num))
    · refine isScore_roundUp1 _ (le_min ?_ (by norm_num)) (min_le_right _ _ |>.trans (by norm_num))
      unfold scopeCoefficient
      have : 0 ≤ baseExploitability w + baseImpact w S := by linarith
      positivity

theorem isScore_scaled (s a b c : ℚ) (hs : IsScore s) (ha : 0 ≤ a) (ha1 : a ≤ 1)
    (hb : 0 ≤ b) (hb1 : b ≤ 1) (hc : 0 ≤ c) (hc1 : c ≤ 1) :
    IsScore (roundUp1 (s * a * b * c)) := by
  obtain ⟨-, h0, h10⟩ := hs
  apply isScore_roundUp1
  · positivity
  · have h1 : s * a ≤ 10 := by nlinarith
    have h1' : 0 ≤ s * a := by positivity
    have h2 : s * a * b ≤ 10 := by nlinarith
    have h2' : 0 ≤ s * a * b := by positivity
    nlinarith

theorem isScore_temporalScore (w : MetricWeights) (S : String)
    (hAV : 0 ≤ w.AV) (hAC : 0 ≤ w.AC) (hPR : 0 ≤ w.PR) (hUI : 0 ≤ w.UI)
    (hE : 0 ≤ w.E) (hE1 : w.E ≤ 1) (hRL : 0 ≤ w.RL) (hRL1 : w.RL ≤ 1)
    (hRC : 0 ≤ w.RC) (hRC1 : w.RC ≤ 1) :
    IsScore (temporalScore w S) :=
  isScore_scaled _ _ _ _ (isScore_baseScore w S hAV hAC hPR hUI) hE hE1 hRL hRL1 hRC hRC1

theorem isScore_envScore (w : MetricWeights) (S MS : String)
    (hAV : 0 ≤ w.MAV) (hAC : 0 ≤ w.MAC) (hPR : 0 ≤ w.MPR) (hUI : 0 ≤ w.MUI)
    (hE : 0 ≤ w.E) (hE1 : w.E ≤ 1) (hRL : 0 ≤ w.RL) (hRL1 : w.RL ≤ 1)
    (hRC : 0 ≤ w.RC) (hRC1 : w.RC ≤ 1) :
    IsScore (envScore w S MS) := by
  have hX : 0 ≤ modifiedExploitability w := by
    unfold modifiedExploitability exploitabilityCoefficient
    positivity
  unfold envScore
  split
  · exact isScore_zero
  · rename_i hI
    have hI' : 0 < modifiedImpact w S MS := lt_of_not_ge hI
    split
    · exact isScore_scaled _ _ _ _
        (isScore_roundUp1 _ (le_min (by linarith) (by norm_num))
          (min_le_right _ _ |>.trans (by norm_num))) hE hE1 hRL hRL1 hRC hRC1
    · refine isScore_scaled _ _ _ _
        (isScore_roundUp1 _ (le_min ?_ (by norm_num))
          (min_le_right _ _ |>.trans (by norm_num))) hE hE1 hRL hRL1 hRC hRC1
      unfold scopeCoefficient
      have : 0 ≤ modifiedImpact w S MS + modifiedExploitability w := by linarith
      positivity
theorem isScore_scores
    (AV AC PR UI S C I A E RL RC CR IR AR MAV MAC MPR MUI MS MC MI MA : String) :
    IsScore (baseScore (gatheredWeights schemaWeight
      AV AC PR UI S C I A E RL RC CR IR AR MAV MAC MPR MUI MS MC MI MA) S) ∧
    IsScore (temporalScore (gatheredWeights schemaWeight
      AV AC PR UI S C I A E RL RC CR IR AR MAV MAC MPR MUI MS MC MI MA) S) ∧
    IsScore (envScore (gatheredWeights schemaWeight
      AV AC PR UI S C I A E RL RC CR IR AR MAV MAC MPR MUI MS MC MI MA) S MS) := by
  have hE := schemaWeight_temporal_le_one "E" E (Or.inl rfl)
  have hRL := schemaWeight_temporal_le_one "RL" RL (Or.inr (Or.inl rfl))
  have hRC := schemaWeight_temporal_le_one "RC" RC (Or.inr (Or.inr rfl))
  exact ⟨isScore_baseScore _ _ (schemaWeight_nonneg _ _) (schemaWeight_nonneg _ _)
      (schemaWeight_nonneg _ _) (schemaWeight_nonneg _ _),
    isScore_temporalScore _ _ (schemaWeight_nonneg _ _) (schemaWeight_nonneg _ _)
      (schemaWeight_nonneg _ _) (schemaWeight_nonneg _ _) (schemaWeight_nonneg _ _) hE
      (schemaWeight_nonneg _ _) hRL (schemaWeight_nonneg _ _) hRC,
    isScore_envScore _ _ _ (schemaWeight_nonneg _ _) (schemaWeight_nonneg _ _)
      (schemaWeight_nonneg _ _) (schemaWeight_nonneg _ _) (schemaWeight_nonneg _ _) hE
      (schemaWeight_nonneg _ _) hRL (schemaWeight_nonneg _ _) hRC⟩

/-- C15: in every table state that calls can produce, the Base, Temporal and
Environmental scores of an accepted assignment are each a multiple of 0.1 in
the closed range from 0.0 to 10.0. -/
theorem scores_in_range (W : WeightTable) (hW : Reachable W)
    (AV AC PR UI S C I A E RL RC CR IR AR MAV MAC MPR MUI MS MC MI MA : String)
    (hacc : (calculateCVSSFromMetrics W
      AV AC PR UI S C I A E RL RC CR IR AR MAV MAC MPR MUI MS MC MI MA).1.success = true) :
    IsScore (calculateCVSSFromMetrics W
      AV AC PR UI S C I A E RL RC CR IR AR MAV MAC MPR MUI MS MC MI MA).1.baseMetricScore ∧
    IsScore (calculateCVSSFromMetrics W
      AV AC PR UI S C I A E RL RC CR IR AR MAV MAC MPR MUI MS MC MI MA).1.temporalMetricScore ∧
    IsScore (calculateCVSSFromMetrics W
      AV AC PR UI S C I A E RL RC CR IR AR MAV MAC MPR MUI MS MC MI MA).1.environmentalMetricScore := by
  rw [(calculateCVSSFromMetrics_success hW.weightOK
    AV AC PR UI S C I A E RL RC CR IR AR MAV MAC MPR MUI MS MC MI MA hacc).2.2]
  exact isScore_scores AV AC PR UI S C I A E RL RC CR IR AR MAV MAC MPR MUI MS MC MI MA

theorem scores_in_range_witness :
    (calculateCVSSFromMetrics Weight "P" "H" "L" "N" "U" "L" "L" "H"
      "X" "X" "X" "X" "X" "X" "X" "X" "X" "X" "X" "X" "X" "X").1.success = true ∧
    IsScore (calculateCVSSFromMetrics Weight "P" "H" "L" "N" "U" "L" "L" "H"
      "X" "X" "X" "X" "X" "X" "X" "X" "X" "X" "X" "X" "X" "X").1.temporalMetricScore :=
  ⟨accepted_PHLNULLH,
   (scores_in_range Weight Reachable.init "P" "H" "L" "N" "U" "L" "L" "H"
      "X" "X" "X" "X" "X" "X" "X" "X" "X" "X" "X" "X" "X" "X" accepted_PHLNULLH).2.1⟩
theorem schemaWeight_temporal_X :
    schemaWeight "E" "X" = 1 ∧ schemaWeight "RL" "X" = 1 ∧ schemaWeight "RC" "X" = 1 := by
  refine ⟨?_, ?_, ?_⟩ <;>
  · simp [schemaWeight, weightOf, Weight, StdMap.find]
    norm_num

/-- C18: in every table state that calls can produce, the Temporal score of
an accepted assignment is `roundUp1 (baseMetricScore * We * Wrl * Wrc)` with
the Temporal weights of the schema; the code `"X"` has the weight 1.0 in each
of the three Temporal families, and when E, RL and RC are all `"X"` the
Temporal score equals the Base score. -/
theorem temporal_score_formula (W : WeightTable) (hW : Reachable W)
    (AV AC PR UI S C I A E RL RC CR IR AR MAV MAC MPR MUI MS MC MI MA : String)
    (hacc : (calculateCVSSFromMetrics W
      AV AC PR UI S C I A E RL RC CR IR AR MAV MAC MPR MUI MS MC MI MA).1.success = true) :
    (calculateCVSSFromMetrics W
      AV AC PR UI S C I A E RL RC CR IR AR MAV MAC MPR MUI MS MC MI MA).1.temporalMetricScore =
      roundUp1 ((calculateCVSSFromMetrics W
        AV AC PR UI S C I A E RL RC CR IR AR MAV MAC MPR MUI MS MC MI MA).1.baseMetricScore *
        schemaWeight "E" E * schemaWeight "RL" RL * schemaWeight "RC" RC) ∧
    (schemaWeight "E" "X" = 1 ∧ schemaWeight "RL" "X" = 1 ∧ schemaWeight "RC" "X" = 1) ∧
    (E = "X" → RL = "X" → RC = "X" →
      (calculateCVSSFromMetrics W
        AV AC PR UI S C I A E RL RC CR IR AR MAV MAC MPR MUI MS MC MI MA).1.temporalMetricScore =
      (calculateCVSSFromMetrics W
        AV AC PR UI S C I A E RL RC CR IR AR MAV MAC MPR MUI MS MC MI MA).1.baseMetricScore) := by
  rw [(calculateCVSSFromMetrics_success hW.weightOK
    AV AC PR UI S C I A E RL RC CR IR AR MAV MAC MPR MUI MS MC MI MA hacc).2.2]
  refine ⟨rfl, schemaWeight_temporal_X, ?_⟩
  rintro rfl rfl rfl
  obtain ⟨⟨k, hk⟩, -, -⟩ := (isScore_scores
    AV AC PR UI S C I A "X" "X" "X" CR IR AR MAV MAC MPR MUI MS MC MI MA).1
  show temporalScore _ S = baseScore _ S
  unfold temporalScore
  rw [hk]
  show roundUp1 ((k : ℚ) / 10 * schemaWeight "E" "X" * schemaWeight "RL" "X" *
    schemaWeight "RC" "X") = (k : ℚ) / 10
  rw [schemaWeight_temporal_X.1, schemaWeight_temporal_X.2.1, schemaWeight_temporal_X.2.2,
    mul_one, mul_one, mul_one, roundUp1_tenth]

theorem temporal_score_formula_witness :
    (calculateCVSSFromMetrics Weight "P" "H" "L" "N" "U" "L" "L" "H"
      "X" "X" "X" "X" "X" "X" "X" "X" "X" "X" "X" "X" "X" "X").1.success = true ∧
    (calculateCVSSFromMetrics Weight "P" "H" "L" "N" "U" "L" "L" "H"
      "X" "X" "X" "X" "X" "X" "X" "X" "X" "X" "X" "X" "X" "X").1.temporalMetricScore =
    (calculateCVSSFromMetrics Weight "P" "H" "L" "N" "U" "L" "L" "H"
      "X" "X" "X" "X" "X" "X" "X" "X" "X" "X" "X" "X" "X" "X").1.baseMetricScore :=
  ⟨accepted_PHLNULLH,
   (temporal_score_formula Weight Reachable.init "P" "H" "L" "N" "U" "L" "L" "H"
      "X" "X" "X" "X" "X" "X" "X" "X" "X" "X" "X" "X" "X" "X" accepted_PHLNULLH).2.2
      rfl rfl rfl⟩
theorem severityScan_of_none (s : ℚ) (table : StdMap (ℚ × ℚ))
    (h : ∀ e ∈ table, ¬ inBand s e) : severityScan s table = "undefined" := by
  induction table with
  | nil => rfl
  | cons e table ih =>
    obtain ⟨name, bottom, top⟩ := e
    have he : ¬ (s ≥ bottom ∧ s ≤ top) := h (name, bottom, top) (List.mem_cons_self _ _)
    simp only [severityScan, if_neg he]
    exact ih (fun e' he' => h e' (List.mem_cons_of_mem _ he'))

theorem severityScan_of_mem (s : ℚ) (table : StdMap (ℚ × ℚ)) (e : String × ℚ × ℚ)
    (he : e ∈ table) (hin : inBand s e)
    (huniq : ∀ e' ∈ table, inBand s e' → e'.1 = e.1) : severityScan s table = e.1 := by
  induction table with
  | nil => simp at he
  | cons e0 table ih =>
    obtain ⟨name, bottom, top⟩ := e0
    by_cases h0 : s ≥ bottom ∧ s ≤ top
    · simp only [severityScan, if_pos h0]
      exact huniq (name, bottom, top) (List.mem_cons_self _ _) h0
    · simp only [severityScan, if_neg h0]
      rcases List.mem_cons.1 he with rfl | he'
      · exact absurd hin h0
      · exact ih he' (fun e' he'' => huniq e' (List.mem_cons_of_mem _ he''))

theorem bands_disjoint (s : ℚ) (e e' : String × ℚ × ℚ) (he : e ∈ severityRatings)
    (he' : e' ∈ severityRatings) (hin : inBand s e) (hin' : inBand s e') : e = e' := by
  simp only [severityRatings, List.mem_cons, List.not_mem_nil, or_false] at he he'
  unfold inBand at hin hin'
  rcases he with rfl | rfl | rfl | rfl | rfl <;> rcases he' with rfl | rfl | rfl | rfl | rfl <;>
    first
    | rfl
    | (exfalso; norm_num at hin hin'; linarith [hin.1, hin.2, hin'.1, hin'.2])

theorem severityScan_perm (s : ℚ) (table : StdMap (ℚ × ℚ))
    (hperm : table.Perm severityRatings) :
    severityScan s table = severityScan s severityRatings := by
  by_cases h : ∃ e ∈ severityRatings, inBand s e
  · obtain ⟨e, he, hin⟩ := h
    have huniq : ∀ e' ∈ severityRatings, inBand s e' → e'.1 = e.1 :=
      fun e' he' hin' => by rw [bands_disjoint s e' e he' he hin' hin]
    rw [severityScan_of_mem s severityRatings e he hin huniq,
      severityScan_of_mem s table e (hperm.mem_iff.2 he) hin
        (fun e' he' => huniq e' (hperm.mem_iff.1 he'))]
  · have hnone : ∀ e ∈ severityRatings, ¬ inBand s e := fun e he hin => h ⟨e, he, hin⟩
    rw [severityScan_of_none s severityRatings hnone,
      severityScan_of_none s table (fun e he => hnone e (hperm.mem_iff.1 he))]

theorem severityRating_mem (s : ℚ) (hs : IsScore s) :
    severityRating s ∈ ["None", "Low", "Medium", "High", "Critical"] := by
  obtain ⟨k, hk0, hk100, rfl⟩ := tenth_bounds s hs.1 hs.2.1 hs.2.2
  rw [severityRating_tenth k hk0 hk100]
  split_ifs <;> simp
theorem severityRating_eq_scan (s : ℚ) (h0 : 0 ≤ s) :
    severityRating s = severityScan s severityRatings := by
  unfold severityRating
  rw [if_neg (not_lt.2 h0)]

theorem severityRating_band (s : ℚ) (hs : IsScore s) :
    ∃ e ∈ severityRatings, inBand s e ∧ (∀ e' ∈ severityRatings, inBand s e' → e' = e) ∧
      severityRating s = e.1 := by
  have hmem := severityRating_mem s hs
  have hne : severityRating s ≠ "undefined" := by
    intro h
    rw [h] at hmem
    revert hmem
    decide
  rw [severityRating_eq_scan s hs.2.1] at hne ⊢
  have hex : ∃ e ∈ severityRatings, inBand s e := by
    by_contra hnone
    exact hne (severityScan_of_none s severityRatings (fun e he hin => hnone ⟨e, he, hin⟩))
  obtain ⟨e, he, hin⟩ := hex
  have huniq : ∀ e' ∈ severityRatings, inBand s e' → e' = e :=
    fun e' he' hin' => bands_disjoint s e' e he' he hin' hin
  exact ⟨e, he, hin, huniq,
    severityScan_of_mem s severityRatings e he hin (fun e' he' hin' => by rw [huniq e' he' hin'])⟩

/-- C16: for every score `s` that is a multiple of 0.1 with `0.0 ≤ s ≤ 10.0`,
`severityRating s` is `"None"` iff `s = 0.0`, `"Low"` iff `0.1 ≤ s ≤ 3.9`,
`"Medium"` iff `4.0 ≤ s ≤ 6.9`, `"High"` iff `7.0 ≤ s ≤ 8.9` and `"Critical"`
iff `9.0 ≤ s ≤ 10.0`; it is neither `"undefined"` nor `"NaN"`, and a scan of
the band table in any other order returns the same name. In every table
state that calls can produce, the three severities of a successful result
are each one of the five band names. -/
theorem severity_rating_bands :
    (∀ s : ℚ, IsScore s →
      ((severityRating s = "None" ↔ s = 0.0) ∧
        (severityRating s = "Low" ↔ 0.1 ≤ s ∧ s ≤ 3.9) ∧
        (severityRating s = "Medium" ↔ 4.0 ≤ s ∧ s ≤ 6.9) ∧
        (severityRating s = "High" ↔ 7.0 ≤ s ∧ s ≤ 8.9) ∧
        (severityRating s = "Critical" ↔ 9.0 ≤ s ∧ s ≤ 10.0)) ∧
      severityRating s ≠ "undefined" ∧ severityRating s ≠ "NaN" ∧
      ∀ table : StdMap (ℚ × ℚ), table.Perm severityRatings →
        severityScan s table = severityRating s) ∧
    (∀ W : WeightTable, Reachable W →
      ∀ AV AC PR UI S C I A E RL RC CR IR AR MAV MAC MPR MUI MS MC MI MA : String,
      (calculateCVSSFromMetrics W
        AV AC PR UI S C I A E RL RC CR IR AR MAV MAC MPR MUI MS MC MI MA).1.success = true →
      (calculateCVSSFromMetrics W
        AV AC PR UI S C I A E RL RC CR IR AR MAV MAC MPR MUI MS MC MI MA).1.baseSeverity ∈
        ["None", "Low", "Medium", "High", "Critical"] ∧
      (calculateCVSSFromMetrics W
        AV AC PR UI S C I A E RL RC CR IR AR MAV MAC MPR MUI MS MC MI MA).1.temporalSeverity ∈
        ["None", "Low", "Medium", "High", "Critical"] ∧
      (calculateCVSSFromMetrics W
        AV AC PR UI S C I A E RL RC CR IR AR MAV MAC MPR MUI MS MC MI MA).1.environmentalSeverity ∈
        ["None", "Low", "Medium", "High", "Critical"]) := by
  constructor
  · intro s hs
    have hmem := severityRating_mem s hs
    refine ⟨severityRating_iff s hs.1 hs.2.1 hs.2.2, ?_, ?_, ?_⟩
    · intro h
      rw [h] at hmem
      revert hmem
      decide
    · intro h
      rw [h] at hmem
      revert hmem
      decide
    · intro table hperm
      rw [severityRating_eq_scan s hs.2.1]
      exact severityScan_perm s table hperm
  · intro W hW AV AC PR UI S C I A E RL RC CR IR AR MAV MAC MPR MUI MS MC MI MA hacc
    rw [(calculateCVSSFromMetrics_success hW.weightOK
      AV AC PR UI S C I A E RL RC CR IR AR MAV MAC MPR MUI MS MC MI MA hacc).2.2]
    obtain ⟨hb, ht, he⟩ := isScore_scores
      AV AC PR UI S C I A E RL RC CR IR AR MAV MAC MPR MUI MS MC MI MA
    exact ⟨severityRating_mem _ hb, severityRating_mem _ ht, severityRating_mem _ he⟩

theorem isScore_example : IsScore 5.1 :=
  ⟨⟨51, by norm_num⟩, by norm_num, by norm_num⟩

theorem severity_rating_bands_witness :
    IsScore 5.1 ∧ (severityRating 5.1 = "Medium" ↔ (4.0 : ℚ) ≤ 5.1 ∧ (5.1 : ℚ) ≤ 6.9) :=
  ⟨isScore_example, (severity_rating_bands.1 5.1 isScore_example).1.2.2.1⟩

/-- C17, as stated, fails: the score 3.95 lies in the range from 0.0 to 10.0
and in no band, and `severityRating` returns `"undefined"` for it. -/
theorem severity_gap :
    (0 : ℚ) ≤ 3.95 ∧ (3.95 : ℚ) ≤ 10.0 ∧ (∀ e ∈ severityRatings, ¬ inBand 3.95 e) ∧
    severityRating 3.95 = "undefined" := by
  have hnone : ∀ e ∈ severityRatings, ¬ inBand 3.95 e := by
    intro e he
    simp only [severityRatings, List.mem_cons, List.not_mem_nil, or_false] at he
    unfold inBand
    rcases he with rfl | rfl | rfl | rfl | rfl <;> norm_num
  refine ⟨by norm_num, by norm_num, hnone, ?_⟩
  rw [severityRating_eq_scan _ (by norm_num)]
  exact severityScan_of_none _ _ hnone

/-- C17, amended: the bands do not overlap, every score lies in at most one
band; every score that is a multiple of 0.1 with `0.0 ≤ s ≤ 10.0` lies in
exactly one band, and `severityRating` returns the name of that band, which
is one of the five band names and not `"undefined"`; a score `s ≥ 0` that
lies in no band is rated `"undefined"`. -/
theorem severity_bands_partition :
    (∀ (s : ℚ) (e e' : String × ℚ × ℚ), e ∈ severityRatings → e' ∈ severityRatings →
      inBand s e → inBand s e' → e = e') ∧
    (∀ s : ℚ, IsScore s →
      (∃ e ∈ severityRatings, inBand s e ∧ (∀ e' ∈ severityRatings, inBand s e' → e' = e) ∧
        severityRating s = e.1) ∧
      severityRating s ∈ ["None", "Low", "Medium", "High", "Critical"] ∧
      severityRating s ≠ "undefined") ∧
    (∀ s : ℚ, 0 ≤ s → (∀ e ∈ severityRatings, ¬ inBand s e) →
      severityRating s = "undefined") := by
  refine ⟨bands_disjoint, fun s hs => ⟨severityRating_band s hs, severityRating_mem s hs, ?_⟩,
    fun s h0 hnone => ?_⟩
  · intro h
    have hmem := severityRating_mem s hs
    rw [h] at hmem
    revert hmem
    decide
  · rw [severityRating_eq_scan s h0]
    exact severityScan_of_none s severityRatings hnone

theorem severity_bands_partition_witness :
    IsScore 5.1 ∧ severityRating 5.1 ∈ ["None", "Low", "Medium", "High", "Critical"] :=
  ⟨isScore_example, (severity_bands_partition.2.1 5.1 isScore_example).2.1⟩
/-! ## The vector string of a result -/

theorem appendUnlessX_eq (tag v s : String) :
    appendUnlessX tag v s = s ++ (if v ≠ "X" then tag ++ v else "") := by
  unfold appendUnlessX
  split <;> simp [String.append_assoc]

theorem concatAll_filter_cons (p : String × String) (l : List (String × String)) :
    concatAll (((p :: l).filter (fun q => q.2 ≠ "X")).map slashToken) =
      (if p.2 ≠ "X" then slashToken p else "") ++
        concatAll ((l.filter (fun q => q.2 ≠ "X")).map slashToken) := by
  by_cases h : p.2 = "X"
  · simp [List.filter_cons, h, concatAll]
  · simp [List.filter_cons, h, concatAll]

theorem constructVectorString_eq
    (AV AC PR UI S C I A E RL RC CR IR AR MAV MAC MPR MUI MS MC MI MA : String) :
    constructVectorString AV AC PR UI S C I A E RL RC CR IR AR MAV MAC MPR MUI MS MC MI MA =
      specVectorString AV AC PR UI S C I A E RL RC CR IR AR MAV MAC MPR MUI MS MC MI MA := by
  simp only [constructVectorString, specVectorString, appendUnlessX_eq, concatAll_filter_cons,
    List.filter_nil, List.map_nil, List.map_cons, concatAll, slashToken, CVSSVersionIdentifier,
    String.append_assoc, String.append_empty]
  rfl

/-- C19: in any table state, the vectorString of an accepted assignment is
`CVSS:3.1` followed by the tokens of AV, AC, PR, UI, S, C, I, A with the codes
supplied, always and in that order, followed by the tokens of E, RL, RC, CR,
IR, AR, MAV, MAC, MPR, MUI, MS, MC, MI, MA in that order, each present
exactly when the value supplied for it is not `"X"`, with the code that was
supplied. -/
theorem vector_string_of_result (W : WeightTable)
    (AV AC PR UI S C I A E RL RC CR IR AR MAV MAC MPR MUI MS MC MI MA : String)
    (hacc : (calculateCVSSFromMetrics W
      AV AC PR UI S C I A E RL RC CR IR AR MAV MAC MPR MUI MS MC MI MA).1.success = true) :
    (calculateCVSSFromMetrics W
      AV AC PR UI S C I A E RL RC CR IR AR MAV MAC MPR MUI MS MC MI MA).1.vectorString =
      specVectorString AV AC PR UI S C I A E RL RC CR IR AR MAV MAC MPR MUI MS MC MI MA := by
  rw [calculateCVSSFromMetrics_fst] at hacc ⊢
  split_ifs at hacc ⊢ with h1 h2
  · simp [ResultT.failure] at hacc
  · simp [ResultT.failure] at hacc
  · exact constructVectorString_eq
      AV AC PR UI S C I A E RL RC CR IR AR MAV MAC MPR MUI MS MC MI MA

theorem accepted_with_E_F :
    (calculateCVSSFromMetrics Weight "N" "L" "N" "N" "U" "H" "H" "H"
      "F" "X" "X" "X" "X" "X" "X" "X" "X" "X" "X" "X" "X" "X").1.success = true := by
  rw [calculateCVSSFromMetrics_fst, if_neg (by decide), if_neg]
  · rfl
  · simp [unknownMetrics, flag, weightOf, Weight, StdMap.find]
    norm_num

theorem vector_string_of_result_witness :
    (calculateCVSSFromMetrics Weight "N" "L" "N" "N" "U" "H" "H" "H"
      "F" "X" "X" "X" "X" "X" "X" "X" "X" "X" "X" "X" "X" "X").1.success = true ∧
    (calculateCVSSFromMetrics Weight "N" "L" "N" "N" "U" "H" "H" "H"
      "F" "X" "X" "X" "X" "X" "X" "X" "X" "X" "X" "X" "X" "X").1.vectorString =
      "CVSS:3.1/AV:N/AC:L/PR:N/UI:N/S:U/C:H/I:H/A:H/E:F" :=
  ⟨accepted_with_E_F,
   (vector_string_of_result Weight "N" "L" "N" "N" "U" "H" "H" "H"
      "F" "X" "X" "X" "X" "X" "X" "X" "X" "X" "X" "X" "X" "X" accepted_with_E_F).trans
      (by decide)⟩

/-! ## Failures report no score -/

theorem reportsNoScore_failure (errorType errorMessage : String) :
    ReportsNoScore (ResultT.failure errorType errorMessage) := rfl

theorem failure_cases (errorType errorMessage : String) (h : errorType ∈ errorKinds) :
    ((ResultT.failure errorType errorMessage).success = false →
      (ResultT.failure errorType errorMessage).errorType ∈ errorKinds ∧
      ReportsNoScore (ResultT.failure errorType errorMessage)) ∧
    ((ResultT.failure errorType errorMessage).success = true →
      (ResultT.failure errorType errorMessage).errorType = "" ∧
      (ResultT.failure errorType errorMessage).errorMessage = "") :=
  ⟨fun _ => ⟨h, reportsNoScore_failure _ _⟩, fun h' => by simp [ResultT.failure] at h'⟩

theorem calculateCVSSFromMetrics_cases (W : WeightTable)
    (AV AC PR UI S C I A E RL RC CR IR AR MAV MAC MPR MUI MS MC MI MA : String) :
    ((calculateCVSSFromMetrics W
        AV AC PR UI S C I A E RL RC CR IR AR MAV MAC MPR MUI MS MC MI MA).1.success = false →
      (calculateCVSSFromMetrics W
        AV AC PR UI S C I A E RL RC CR IR AR MAV MAC MPR MUI MS MC MI MA).1.errorType ∈
        errorKinds ∧
      ReportsNoScore (calculateCVSSFromMetrics W
        AV AC PR UI S C I A E RL RC CR IR AR MAV MAC MPR MUI MS MC MI MA).1) ∧
    ((calculateCVSSFromMetrics W
        AV AC PR UI S C I A E RL RC CR IR AR MAV MAC MPR MUI MS MC MI MA).1.success = true →
      (calculateCVSSFromMetrics W
        AV AC PR UI S C I A E RL RC CR IR AR MAV MAC MPR MUI MS MC MI MA).1.errorType = "" ∧
      (calculateCVSSFromMetrics W
        AV AC PR UI S C I A E RL RC CR IR AR MAV MAC MPR MUI MS MC MI MA).1.errorMessage = "") := by
  rw [calculateCVSSFromMetrics_fst]
  split_ifs
  · exact failure_cases _ _ (by decide)
  · exact failure_cases _ _ (by decide)
  · exact ⟨fun h => by simp [successResult] at h, fun _ => ⟨rfl, rfl⟩⟩

/-- C20: in any table state, a result of `calculateCVSSFromMetrics` or of
`calculateCVSSFromVector` with success = false has one of the four error
kinds as errorType and reports no score (every numeric field is 0, the three
severities and the vectorString are empty, baseMetricsValues is empty); a
result with success = true has an empty errorType and errorMessage. -/
theorem failure_reports_no_score (W : WeightTable) :
    (∀ AV AC PR UI S C I A E RL RC CR IR AR MAV MAC MPR MUI MS MC MI MA : String,
      ((calculateCVSSFromMetrics W
          AV AC PR UI S C I A E RL RC CR IR AR MAV MAC MPR MUI MS MC MI MA).1.success = false →
        (calculateCVSSFromMetrics W
          AV AC PR UI S C I A E RL RC CR IR AR MAV MAC MPR MUI MS MC MI MA).1.errorType ∈
          errorKinds ∧
        ReportsNoScore (calculateCVSSFromMetrics W
          AV AC PR UI S C I A E RL RC CR IR AR MAV MAC MPR MUI MS MC MI MA).1) ∧
      ((calculateCVSSFromMetrics W
          AV AC PR UI S C I A E RL RC CR IR AR MAV MAC MPR MUI MS MC MI MA).1.success = true →
        (calculateCVSSFromMetrics W
          AV AC PR UI S C I A E RL RC CR IR AR MAV MAC MPR MUI MS MC MI MA).1.errorType = "" ∧
        (calculateCVSSFromMetrics W
          AV AC PR UI S C I A E RL RC CR IR AR MAV MAC MPR MUI MS MC MI MA).1.errorMessage =
          "")) ∧
    (∀ vectorString : String,
      ((calculateCVSSFromVector W vectorString).1.success = false →
        (calculateCVSSFromVector W vectorString).1.errorType ∈ errorKinds ∧
        ReportsNoScore (calculateCVSSFromVector W vectorString).1) ∧
      ((calculateCVSSFromVector W vectorString).1.success = true →
        (calculateCVSSFromVector W vectorString).1.errorType = "" ∧
        (calculateCVSSFromVector W vectorString).1.errorMessage = "")) := by
  refine ⟨calculateCVSSFromMetrics_cases W, ?_⟩
  intro vectorString
  unfold calculateCVSSFromVector
  simp only
  split_ifs <;>
    first
    | exact failure_cases _ _ (by decide)
    | exact calculateCVSSFromMetrics_cases W _ _ _ _ _ _ _ _ _ _ _ _ _ _ _ _ _ _ _ _ _ _

theorem failure_reports_no_score_witness :
    (calculateCVSSFromVector Weight "CVSS:3.1/AV:N/").1.success = false ∧
    (calculateCVSSFromVector Weight "CVSS:3.1/AV:N/").1.errorType ∈ errorKinds ∧
    ReportsNoScore (calculateCVSSFromVector Weight "CVSS:3.1/AV:N/").1 :=
  have h : (calculateCVSSFromVector Weight "CVSS:3.1/AV:N/").1.success = false := by
    rw [calculateCVSSFromVector_malformed Weight _ (by decide)]
    rfl
  ⟨h, ((failure_reports_no_score Weight).2 "CVSS:3.1/AV:N/").1 h⟩
/-! ## The two entry points agree -/

theorem metricValue_assign (m : StdMap String) (k v k' : String) :
    metricValue (m.assign k v) k' = if k' = k then v else metricValue m k' := by
  rw [metricValue_eq, metricValue_eq, StdMap.find_assign]
  split <;> rfl

theorem recordMetric_fresh (m : StdMap String) (bad : List String) (p : List Char)
    (h : metricValue m (singleMetricName p) = "undefined") :
    recordMetric (m, bad) p = (m.assign (singleMetricName p) (singleMetricValue p), bad) := by
  have hfind : m.find (singleMetricName p) = some "undefined" := by
    rw [metricValue_eq] at h
    cases hf : m.find (singleMetricName p) with
    | none =>
      rw [hf] at h
      exact absurd h (by decide)
    | some a =>
      rw [hf] at h
      exact congrArg some h
  unfold recordMetric StdMap.index
  simp only [hfind, if_true]

theorem tokenValue_cons (t : String × Char) (toks : List (String × Char)) (id dflt : String) :
    tokenValue (t :: toks) id dflt =
      if t.1 = id then String.mk [t.2] else tokenValue toks id dflt := by
  unfold tokenValue
  by_cases h : t.1 = id <;> simp [List.find?_cons, h]

theorem tokenValue_of_not_mem (toks : List (String × Char)) (id dflt : String)
    (h : id ∉ toks.map Prod.fst) : tokenValue toks id dflt = dflt := by
  induction toks with
  | nil => rfl
  | cons t toks ih =>
    rw [List.map_cons, List.mem_cons, not_or] at h
    rw [tokenValue_cons, if_neg (fun e => h.1 e.symm), ih h.2]

theorem foldl_recordMetric_fresh (toks : List (String × Char))
    (htoks : ∀ t ∈ toks, t ∈ grammarTokens) (hnodup : (toks.map Prod.fst).Nodup)
    (bad : List String) :
    ∀ m : StdMap String, (∀ t ∈ toks, metricValue m t.1 = "undefined") →
      ∃ m' : StdMap String,
        (toks.map tokenText).foldl recordMetric (m, bad) = (m', bad) ∧
        ∀ id, metricValue m' id = tokenValue toks id (metricValue m id) := by
  induction toks with
  | nil => exact fun m _ => ⟨m, rfl, fun _ => rfl⟩
  | cons t toks ih =>
    intro m hm
    rw [List.map_cons, List.nodup_cons] at hnodup
    have ht := grammarTokens_text t (htoks t (List.mem_cons_self _ _))
    have hstep : recordMetric (m, bad) (tokenText t) =
        (m.assign t.1 (String.mk [t.2]), bad) := by
      rw [recordMetric_fresh m bad (tokenText t)
        (by rw [ht.2.1]; exact hm t (List.mem_cons_self _ _)), ht.2.1, ht.2.2.1]
    obtain ⟨m', hfold, hval⟩ := ih (fun u hu => htoks u (List.mem_cons_of_mem _ hu)) hnodup.2
      (m.assign t.1 (String.mk [t.2])) (by
        intro u hu
        have hne : u.1 ≠ t.1 := fun e => hnodup.1 (e ▸ List.mem_map_of_mem Prod.fst hu)
        rw [metricValue_assign, if_neg hne]
        exact hm u (List.mem_cons_of_mem _ hu))
    refine ⟨m', ?_, ?_⟩
    · rw [List.map_cons, List.foldl_cons, hstep, hfold]
    · intro id
      rw [hval id, tokenValue_cons, metricValue_assign]
      by_cases e : id = t.1
      · subst e
        rw [if_pos rfl, if_pos rfl, tokenValue_of_not_mem toks _ _ hnodup.1]
      · rw [if_neg e, if_neg (fun e' => e e'.symm)]

/-- C11: in any table state, for a vector string made of one or more grammar
tokens that are all tokens of Base metrics and repeat no metric id, in any
order and whether or not all 8 Base metrics occur, `calculateCVSSFromVector`
returns exactly what `calculateCVSSFromMetrics` returns for the value of each
token, `"undefined"` for every Base metric without a token and `"X"` for
every Temporal and Environmental metric. -/
theorem entry_points_agree (W : WeightTable) (toks : List (String × Char))
    (hne : toks ≠ []) (htoks : ∀ t ∈ toks, t ∈ grammarTokens)
    (hbase : ∀ t ∈ toks, t.1 ∈ baseIds) (hnodup : (toks.map Prod.fst).Nodup) :
    calculateCVSSFromVector W (vectorText toks) =
      calculateCVSSFromMetrics W
        (tokenValue toks "AV" "undefined") (tokenValue toks "AC" "undefined")
        (tokenValue toks "PR" "undefined") (tokenValue toks "UI" "undefined")
        (tokenValue toks "S" "undefined") (tokenValue toks "C" "undefined")
        (tokenValue toks "I" "undefined") (tokenValue toks "A" "undefined")
        "X" "X" "X" "X" "X" "X" "X" "X" "X" "X" "X" "X" "X" "X" := by
  have hinit : ∀ t ∈ toks, metricValue initialMetricValues t.1 = "undefined" := by
    intro t ht
    have hb := hbase t ht
    revert hb
    generalize t.1 = id
    intro hb
    simp only [baseIds, List.mem_cons, List.not_mem_nil, or_false] at hb
    rcases hb with rfl | rfl | rfl | rfl | rfl | rfl | rfl | rfl <;> decide
  obtain ⟨m', hfold, hval⟩ := foldl_recordMetric_fresh toks htoks hnodup [] initialMetricValues hinit
  have hopt : ∀ id, id ∉ baseIds → tokenValue toks id (metricValue initialMetricValues id) =
      metricValue initialMetricValues id := by
    intro id hid
    apply tokenValue_of_not_mem
    intro hmem
    obtain ⟨t, ht, rfl⟩ := List.mem_map.1 hmem
    exact hid (hbase t ht)
  apply calculateCVSSFromVector_of_values
  · exact (regex_match_iff _).2 ⟨toks, hne, htoks, rfl⟩
  · rw [metricNameValues_vectorText toks htoks, hfold]
  · rw [metricNameValues_vectorText toks htoks, hfold]
    simp only [List.map_cons, List.map_nil, hval]
    rw [hopt "E" (by decide), hopt "RL" (by decide), hopt "RC" (by decide),
      hopt "CR" (by decide), hopt "IR" (by decide), hopt "AR" (by decide),
      hopt "MAV" (by decide), hopt "MAC" (by decide), hopt "MPR" (by decide),
      hopt "MUI" (by decide), hopt "MS" (by decide), hopt "MC" (by decide),
      hopt "MI" (by decide), hopt "MA" (by decide)]
    rfl
theorem entry_points_agree_witness :
    (∀ t ∈ [("AC", 'L'), ("AV", 'N')], t ∈ grammarTokens) ∧
    calculateCVSSFromVector Weight "CVSS:3.1/AC:L/AV:N" =
      calculateCVSSFromMetrics Weight "N" "L" "undefined" "undefined" "undefined" "undefined"
        "undefined" "undefined" "X" "X" "X" "X" "X" "X" "X" "X" "X" "X" "X" "X" "X" "X" :=
  ⟨by decide,
   entry_points_agree Weight [("AC", 'L'), ("AV", 'N')] (by decide) (by decide) (by decide)
     (by decide)⟩

theorem vectorString_of_success (W : WeightTable)
    (AV AC PR UI S C I A E RL RC CR IR AR MAV MAC MPR MUI MS MC MI MA : String)
    (hacc : (calculateCVSSFromMetrics W
      AV AC PR UI S C I A E RL RC CR IR AR MAV MAC MPR MUI MS MC MI MA).1.success = true) :
    (calculateCVSSFromMetrics W
      AV AC PR UI S C I A E RL RC CR IR AR MAV MAC MPR MUI MS MC MI MA).1.vectorString =
      constructVectorString
        AV AC PR UI S C I A E RL RC CR IR AR MAV MAC MPR MUI MS MC MI MA := by
  rw [calculateCVSSFromMetrics_fst] at hacc ⊢
  split_ifs at hacc ⊢ with h1 h2
  · simp [ResultT.failure] at hacc
  · simp [ResultT.failure] at hacc
  · rfl

theorem baseSeverity_of_success (W : WeightTable)
    (AV AC PR UI S C I A E RL RC CR IR AR MAV MAC MPR MUI MS MC MI MA : String)
    (hacc : (calculateCVSSFromMetrics W
      AV AC PR UI S C I A E RL RC CR IR AR MAV MAC MPR MUI MS MC MI MA).1.success = true) :
    (calculateCVSSFromMetrics W
      AV AC PR UI S C I A E RL RC CR IR AR MAV MAC MPR MUI MS MC MI MA).1.baseSeverity =
      severityRating (calculateCVSSFromMetrics W
        AV AC PR UI S C I A E RL RC CR IR AR MAV MAC MPR MUI MS MC MI MA).1.baseMetricScore := by
  rw [calculateCVSSFromMetrics_fst] at hacc ⊢
  split_ifs at hacc ⊢ with h1 h2
  · simp [ResultT.failure] at hacc
  · simp [ResultT.failure] at hacc
  · rfl

theorem accepted_PHLNULLH_reachable (W : WeightTable) (hW : Reachable W) :
    (calculateCVSSFromMetrics W "P" "H" "L" "N" "U" "L" "L" "H"
      "X" "X" "X" "X" "X" "X" "X" "X" "X" "X" "X" "X" "X" "X").1.success = true := by
  rw [calculateCVSSFromMetrics_fst, weightOf_eq_schemaWeight hW.weightOK, if_neg (by decide),
    if_neg]
  · rfl
  · simp [unknownMetrics, flag, schemaWeight, weightOf, Weight, StdMap.find]
    norm_num

theorem canonical_vector_text (a b c d e f g h : Char) :
    constructVectorString (String.mk [a]) (String.mk [b]) (String.mk [c]) (String.mk [d])
      (String.mk [e]) (String.mk [f]) (String.mk [g]) (String.mk [h])
      "X" "X" "X" "X" "X" "X" "X" "X" "X" "X" "X" "X" "X" "X" =
    vectorText [("AV", a), ("AC", b), ("PR", c), ("UI", d), ("S", e), ("C", f), ("I", g),
      ("A", h)] := by
  apply String.ext
  simp [constructVectorString, appendUnlessX, vectorText, slashJoin, tokenText,
    CVSSVersionIdentifier]

/-- C12: in every table state that calls can produce, for a vector string
made of `CVSS:3.1` and the 8 Base tokens in the order AV, AC, PR, UI, S, C, I,
A that `calculateCVSSFromVector` scores successfully, the vectorString of
the result is the input string; the result for
`CVSS:3.1/AV:P/AC:H/PR:L/UI:N/S:U/C:L/I:L/A:H` is a success with Base score
5.1, Base severity `"Medium"` and the input as vectorString. -/
theorem canonical_vector_unchanged (W : WeightTable) (hW : Reachable W) :
    (∀ a b c d e f g h : Char,
      (∀ t ∈ [("AV", a), ("AC", b), ("PR", c), ("UI", d), ("S", e), ("C", f), ("I", g),
        ("A", h)], t ∈ grammarTokens) →
      (calculateCVSSFromVector W (vectorText [("AV", a), ("AC", b), ("PR", c), ("UI", d),
        ("S", e), ("C", f), ("I", g), ("A", h)])).1.success = true →
      (calculateCVSSFromVector W (vectorText [("AV", a), ("AC", b), ("PR", c), ("UI", d),
        ("S", e), ("C", f), ("I", g), ("A", h)])).1.vectorString =
        vectorText [("AV", a), ("AC", b), ("PR", c), ("UI", d), ("S", e), ("C", f), ("I", g),
          ("A", h)]) ∧
    (calculateCVSSFromVector W "CVSS:3.1/AV:P/AC:H/PR:L/UI:N/S:U/C:L/I:L/A:H").1.success =
      true ∧
    (calculateCVSSFromVector W
      "CVSS:3.1/AV:P/AC:H/PR:L/UI:N/S:U/C:L/I:L/A:H").1.baseMetricScore = 5.1 ∧
    (calculateCVSSFromVector W
      "CVSS:3.1/AV:P/AC:H/PR:L/UI:N/S:U/C:L/I:L/A:H").1.baseSeverity = "Medium" ∧
    (calculateCVSSFromVector W
      "CVSS:3.1/AV:P/AC:H/PR:L/UI:N/S:U/C:L/I:L/A:H").1.vectorString =
      "CVSS:3.1/AV:P/AC:H/PR:L/UI:N/S:U/C:L/I:L/A:H" := by
  refine ⟨?_, ?_⟩
  · intro a b c d e f g h htoks
    rw [entry_points_agree W _ (by simp) htoks (by simp [baseIds]) (by simp)]
    intro hacc
    have hv := vectorString_of_success W _ _ _ _ _ _ _ _ _ _ _ _ _ _ _ _ _ _ _ _ _ _ hacc
    rw [hv]
    exact canonical_vector_text a b c d e f g h
  · have hv : calculateCVSSFromVector W "CVSS:3.1/AV:P/AC:H/PR:L/UI:N/S:U/C:L/I:L/A:H" =
        calculateCVSSFromMetrics W "P" "H" "L" "N" "U" "L" "L" "H"
          "X" "X" "X" "X" "X" "X" "X" "X" "X" "X" "X" "X" "X" "X" :=
      calculateCVSSFromVector_of_values W _ _ _ _ _ _ _ _ _ _ _ _ _ _ _ _ _ _ _ _ _ _ _
        (by decide) (by decide) (by decide)
    have hacc := accepted_PHLNULLH_reachable W hW
    rw [hv]
    refine ⟨hacc, (baseMetricScore_tests W hW).1, ?_, ?_⟩
    · rw [baseSeverity_of_success W _ _ _ _ _ _ _ _ _ _ _ _ _ _ _ _ _ _ _ _ _ _ hacc,
        (baseMetricScore_tests W hW).1]
      norm_num [severityRating, severityScan, severityRatings]
    · rw [vectorString_of_success W _ _ _ _ _ _ _ _ _ _ _ _ _ _ _ _ _ _ _ _ _ _ hacc]
      decide

theorem canonical_vector_unchanged_witness :
    (∀ t ∈ [("AV", 'P'), ("AC", 'H'), ("PR", 'L'), ("UI", 'N'), ("S", 'U'), ("C", 'L'),
      ("I", 'L'), ("A", 'H')], t ∈ grammarTokens) ∧
    (calculateCVSSFromVector Weight "CVSS:3.1/AV:P/AC:H/PR:L/UI:N/S:U/C:L/I:L/A:H").1.success =
      true ∧
    (calculateCVSSFromVector Weight
      "CVSS:3.1/AV:P/AC:H/PR:L/UI:N/S:U/C:L/I:L/A:H").1.vectorString =
      "CVSS:3.1/AV:P/AC:H/PR:L/UI:N/S:U/C:L/I:L/A:H" :=
  ⟨by decide, (canonical_vector_unchanged Weight Reachable.init).2.1,
   (canonical_vector_unchanged Weight Reachable.init).1 'P' 'H' 'L' 'N' 'U' 'L' 'L' 'H'
     (by decide) (canonical_vector_unchanged Weight Reachable.init).2.1⟩

/-! ## Environmental scores without Environmental metrics -/

theorem schemaWeight_CIAR_X : schemaWeight "CIAR" "X" = 1 := by
  simp [schemaWeight, weightOf, Weight, StdMap.find]
  norm_num

theorem gatheredWeights_X (AV AC PR UI S C I A E RL RC : String) :
    gatheredWeights schemaWeight AV AC PR UI S C I A E RL RC
      "X" "X" "X" "X" "X" "X" "X" "X" "X" "X" "X" =
    ⟨schemaWeight "AV" AV, schemaWeight "AC" AC, schemaWeight ("PR" ++ S) PR,
     schemaWeight "UI" UI, schemaWeight "S" S, schemaWeight "CIA" C, schemaWeight "CIA" I,
     schemaWeight "CIA" A, schemaWeight "E" E, schemaWeight "RL" RL, schemaWeight "RC" RC,
     1, 1, 1,
     schemaWeight "AV" AV, schemaWeight "AC" AC, schemaWeight ("PR" ++ S) PR,
     schemaWeight "UI" UI, schemaWeight "S" S, schemaWeight "CIA" C, schemaWeight "CIA" I,
     schemaWeight "CIA" A⟩ := by
  simp [gatheredWeights, schemaWeight_CIAR_X]

theorem modifiedExploitability_X (AV AC PR UI S C I A E RL RC : String) :
    modifiedExploitability (gatheredWeights schemaWeight AV AC PR UI S C I A E RL RC
      "X" "X" "X" "X" "X" "X" "X" "X" "X" "X" "X") =
    baseExploitability (gatheredWeights schemaWeight AV AC PR UI S C I A E RL RC
      "X" "X" "X" "X" "X" "X" "X" "X" "X" "X" "X") := by
  rw [gatheredWeights_X]
  rfl

theorem envMISS_X (AV AC PR UI S C I A E RL RC : String) :
    envMISS (gatheredWeights schemaWeight AV AC PR UI S C I A E RL RC
      "X" "X" "X" "X" "X" "X" "X" "X" "X" "X" "X") =
    min 0.915 (baseISS (gatheredWeights schemaWeight AV AC PR UI S C I A E RL RC
      "X" "X" "X" "X" "X" "X" "X" "X" "X" "X" "X")) := by
  rw [gatheredWeights_X]
  simp only [envMISS, baseISS, mul_one]
  exact min_comm _ _

/-- C23: in every table state that calls can produce, for an accepted
assignment in which CR, IR, AR and the eight Modified metrics are `"X"`, the
Environmental sub-scores come from the Base values:
environmentalModifiedExploitability is baseExploitability and
environmentalMISS is `min(0.915, baseISS)`. -/
theorem environmental_from_base (W : WeightTable) (hW : Reachable W)
    (AV AC PR UI S C I A E RL RC : String)
    (hacc : (calculateCVSSFromMetrics W AV AC PR UI S C I A E RL RC
      "X" "X" "X" "X" "X" "X" "X" "X" "X" "X" "X").1.success = true) :
    (calculateCVSSFromMetrics W AV AC PR UI S C I A E RL RC
      "X" "X" "X" "X" "X" "X" "X" "X" "X" "X" "X").1.environmentalModifiedExploitability =
    (calculateCVSSFromMetrics W AV AC PR UI S C I A E RL RC
      "X" "X" "X" "X" "X" "X" "X" "X" "X" "X" "X").1.baseExploitability ∧
    (calculateCVSSFromMetrics W AV AC PR UI S C I A E RL RC
      "X" "X" "X" "X" "X" "X" "X" "X" "X" "X" "X").1.environmentalMISS =
    min 0.915 (calculateCVSSFromMetrics W AV AC PR UI S C I A E RL RC
      "X" "X" "X" "X" "X" "X" "X" "X" "X" "X" "X").1.baseISS := by
  rw [(calculateCVSSFromMetrics_success hW.weightOK AV AC PR UI S C I A E RL RC
    "X" "X" "X" "X" "X" "X" "X" "X" "X" "X" "X" hacc).2.2]
  exact ⟨modifiedExploitability_X AV AC PR UI S C I A E RL RC,
    envMISS_X AV AC PR UI S C I A E RL RC⟩

theorem environmental_from_base_witness :
    (calculateCVSSFromMetrics Weight "P" "H" "L" "N" "U" "L" "L" "H"
      "X" "X" "X" "X" "X" "X" "X" "X" "X" "X" "X" "X" "X" "X").1.success = true ∧
    (calculateCVSSFromMetrics Weight "P" "H" "L" "N" "U" "L" "L" "H"
      "X" "X" "X" "X" "X" "X" "X" "X" "X" "X" "X" "X" "X" "X").1.environmentalModifiedExploitability =
    (calculateCVSSFromMetrics Weight "P" "H" "L" "N" "U" "L" "L" "H"
      "X" "X" "X" "X" "X" "X" "X" "X" "X" "X" "X" "X" "X" "X").1.baseExploitability :=
  ⟨accepted_PHLNULLH,
   (environmental_from_base Weight Reachable.init "P" "H" "L" "N" "U" "L" "L" "H"
      "X" "X" "X" accepted_PHLNULLH).1⟩

theorem schemaWeight_CIA_le (v : String) : schemaWeight "CIA" v ≤ 0.56 := by
  simp [schemaWeight, weightOf, Weight, StdMap.find]
  split_ifs <;> norm_num

theorem roundUp1_zero : roundUp1 0 = 0 := by
  have h := roundUp1_tenth 0
  simp only [Int.cast_zero, zero_div] at h
  exact h

theorem baseISS_le (w : MetricWeights) (hC : w.C ≤ 0.56) (hI : w.I ≤ 0.56)
    (hA : w.A ≤ 0.56) : baseISS w ≤ 0.914816 := by
  unfold baseISS
  have h1 : (0.44 : ℚ) ≤ 1 - w.C := by linarith
  have h2 : (0.44 : ℚ) ≤ 1 - w.I := by linarith
  have h3 : (0.44 : ℚ) ≤ 1 - w.A := by linarith
  have h12 : (0.44 : ℚ) * 0.44 ≤ (1 - w.C) * (1 - w.I) :=
    mul_le_mul h1 h2 (by norm_num) (by linarith)
  have h123 : (0.44 : ℚ) * 0.44 * 0.44 ≤ (1 - w.C) * (1 - w.I) * (1 - w.A) :=
    mul_le_mul h12 h3 (by norm_num) (by nlinarith)
  norm_num at h123 ⊢
  linarith

theorem modifiedImpact_unchanged (AV AC PR UI C I A E RL RC : String) :
    modifiedImpact (gatheredWeights schemaWeight AV AC PR UI "U" C I A E RL RC
      "X" "X" "X" "X" "X" "X" "X" "X" "X" "X" "X") "U" "X" =
    baseImpact (gatheredWeights schemaWeight AV AC PR UI "U" C I A E RL RC
      "X" "X" "X" "X" "X" "X" "X" "X" "X" "X" "X") "U" := by
  have hiss := baseISS_le (gatheredWeights schemaWeight AV AC PR UI "U" C I A E RL RC
      "X" "X" "X" "X" "X" "X" "X" "X" "X" "X" "X")
    (schemaWeight_CIA_le C) (schemaWeight_CIA_le I) (schemaWeight_CIA_le A)
  have hmiss : envMISS (gatheredWeights schemaWeight AV AC PR UI "U" C I A E RL RC
      "X" "X" "X" "X" "X" "X" "X" "X" "X" "X" "X") =
      baseISS (gatheredWeights schemaWeight AV AC PR UI "U" C I A E RL RC
      "X" "X" "X" "X" "X" "X" "X" "X" "X" "X" "X") := by
    rw [envMISS_X]
    exact min_eq_right (by linarith)
  unfold modifiedImpact baseImpact
  rw [if_pos (Or.inr ⟨rfl, rfl⟩), if_pos rfl, hmiss, gatheredWeights_X]

theorem envScore_unchanged (AV AC PR UI C I A E RL RC : String) :
    envScore (gatheredWeights schemaWeight AV AC PR UI "U" C I A E RL RC
      "X" "X" "X" "X" "X" "X" "X" "X" "X" "X" "X") "U" "X" =
    temporalScore (gatheredWeights schemaWeight AV AC PR UI "U" C I A E RL RC
      "X" "X" "X" "X" "X" "X" "X" "X" "X" "X" "X") "U" := by
  unfold envScore temporalScore baseScore
  rw [modifiedImpact_unchanged, modifiedExploitability_X]
  split
  · rw [zero_mul, zero_mul, zero_mul, roundUp1_zero]
  · rw [if_pos (Or.inr ⟨rfl, rfl⟩), if_pos rfl, add_comm]

/-- C24: in every table state that calls can produce, for an accepted
assignment with Scope `"U"` and every Environmental metric `"X"`, the Base
impact sub-score is at most 0.914816, below the cap 0.915, the Modified
impact equals the Base impact, the Environmental score equals the Temporal
score, and it equals the Base score when E, RL and RC are `"X"` as well. -/
theorem environmental_equals_temporal (W : WeightTable) (hW : Reachable W)
    (AV AC PR UI C I A E RL RC : String)
    (hacc : (calculateCVSSFromMetrics W AV AC PR UI "U" C I A E RL RC
      "X" "X" "X" "X" "X" "X" "X" "X" "X" "X" "X").1.success = true) :
    (calculateCVSSFromMetrics W AV AC PR UI "U" C I A E RL RC
      "X" "X" "X" "X" "X" "X" "X" "X" "X" "X" "X").1.baseISS ≤ 0.914816 ∧
    (calculateCVSSFromMetrics W AV AC PR UI "U" C I A E RL RC
      "X" "X" "X" "X" "X" "X" "X" "X" "X" "X" "X").1.environmentalModifiedImpact =
    (calculateCVSSFromMetrics W AV AC PR UI "U" C I A E RL RC
      "X" "X" "X" "X" "X" "X" "X" "X" "X" "X" "X").1.baseImpact ∧
    (calculateCVSSFromMetrics W AV AC PR UI "U" C I A E RL RC
      "X" "X" "X" "X" "X" "X" "X" "X" "X" "X" "X").1.environmentalMetricScore =
    (calculateCVSSFromMetrics W AV AC PR UI "U" C I A E RL RC
      "X" "X" "X" "X" "X" "X" "X" "X" "X" "X" "X").1.temporalMetricScore ∧
    (E = "X" → RL = "X" → RC = "X" →
      (calculateCVSSFromMetrics W AV AC PR UI "U" C I A E RL RC
        "X" "X" "X" "X" "X" "X" "X" "X" "X" "X" "X").1.environmentalMetricScore =
      (calculateCVSSFromMetrics W AV AC PR UI "U" C I A E RL RC
        "X" "X" "X" "X" "X" "X" "X" "X" "X" "X" "X").1.baseMetricScore) := by
  rw [(calculateCVSSFromMetrics_success hW.weightOK AV AC PR UI "U" C I A E RL RC
    "X" "X" "X" "X" "X" "X" "X" "X" "X" "X" "X" hacc).2.2]
  refine ⟨baseISS_le _ (schemaWeight_CIA_le C) (schemaWeight_CIA_le I) (schemaWeight_CIA_le A),
    modifiedImpact_unchanged AV AC PR UI C I A E RL RC,
    envScore_unchanged AV AC PR UI C I A E RL RC, ?_⟩
  rintro rfl rfl rfl
  show envScore _ "U" "X" = baseScore _ "U"
  rw [envScore_unchanged]
  obtain ⟨⟨k, hk⟩, -, -⟩ := (isScore_scores
    AV AC PR UI "U" C I A "X" "X" "X" "X" "X" "X" "X" "X" "X" "X" "X" "X" "X" "X").1
  unfold temporalScore
  rw [hk]
  show roundUp1 ((k : ℚ) / 10 * schemaWeight "E" "X" * schemaWeight "RL" "X" *
    schemaWeight "RC" "X") = (k : ℚ) / 10
  rw [schemaWeight_temporal_X.1, schemaWeight_temporal_X.2.1, schemaWeight_temporal_X.2.2,
    mul_one, mul_one, mul_one, roundUp1_tenth]

theorem environmental_equals_temporal_witness :
    (calculateCVSSFromMetrics Weight "P" "H" "L" "N" "U" "L" "L" "H"
      "X" "X" "X" "X" "X" "X" "X" "X" "X" "X" "X" "X" "X" "X").1.success = true ∧
    (calculateCVSSFromMetrics Weight "P" "H" "L" "N" "U" "L" "L" "H"
      "X" "X" "X" "X" "X" "X" "X" "X" "X" "X" "X" "X" "X" "X").1.environmentalMetricScore =
    (calculateCVSSFromMetrics Weight "P" "H" "L" "N" "U" "L" "L" "H"
      "X" "X" "X" "X" "X" "X" "X" "X" "X" "X" "X" "X" "X" "X").1.baseMetricScore :=
  ⟨accepted_PHLNULLH,
   (environmental_equals_temporal Weight Reachable.init "P" "H" "L" "N" "L" "L" "H"
      "X" "X" "X" accepted_PHLNULLH).2.2.2 rfl rfl rfl⟩

/-! ## The Temporal score does not exceed the Base score -/

theorem roundUp1_mono (x y : ℚ) (hx : 0 ≤ x) (hxy : x ≤ y) : roundUp1 x ≤ roundUp1 y := by
  have hy : 0 ≤ y := hx.trans hxy
  rw [roundUp1_eq_ceil, roundUp1_eq_ceil, cround_of_nonneg _ (by positivity),
    cround_of_nonneg _ (by positivity)]
  have h1 : ⌊x * 100000 + 1 / 2⌋ ≤ ⌊y * 100000 + 1 / 2⌋ := Int.floor_mono (by linarith)
  have h2 : ((⌊x * 100000 + 1 / 2⌋ : ℤ) : ℚ) / 10000 ≤
      ((⌊y * 100000 + 1 / 2⌋ : ℤ) : ℚ) / 10000 := by
    have : ((⌊x * 100000 + 1 / 2⌋ : ℤ) : ℚ) ≤ ((⌊y * 100000 + 1 / 2⌋ : ℤ) : ℚ) := by
      exact_mod_cast h1
    linarith
  have h3 := Int.ceil_mono h2
  have h4 : ((⌈((⌊x * 100000 + 1 / 2⌋ : ℤ) : ℚ) / 10000⌉ : ℤ) : ℚ) ≤
      ((⌈((⌊y * 100000 + 1 / 2⌋ : ℤ) : ℚ) / 10000⌉ : ℤ) : ℚ) := by exact_mod_cast h3
  linarith

theorem temporalScore_le (w : MetricWeights) (S : String)
    (hAV : 0 ≤ w.AV) (hAC : 0 ≤ w.AC) (hPR : 0 ≤ w.PR) (hUI : 0 ≤ w.UI)
    (hE : 0 ≤ w.E) (hE1 : w.E ≤ 1) (hRL : 0 ≤ w.RL) (hRL1 : w.RL ≤ 1)
    (hRC : 0 ≤ w.RC) (hRC1 : w.RC ≤ 1) :
    temporalScore w S ≤ baseScore w S := by
  obtain ⟨⟨k, hk⟩, h0, -⟩ := isScore_baseScore w S hAV hAC hPR hUI
  unfold temporalScore
  have h1 : baseScore w S * w.E ≤ baseScore w S := by nlinarith
  have h1' : 0 ≤ baseScore w S * w.E := by positivity
  have h2 : baseScore w S * w.E * w.RL ≤ baseScore w S := by nlinarith
  have h2' : 0 ≤ baseScore w S * w.E * w.RL := by positivity
  have h3 : baseScore w S * w.E * w.RL * w.RC ≤ baseScore w S := by nlinarith
  have h3' : 0 ≤ baseScore w S * w.E * w.RL * w.RC := by positivity
  calc roundUp1 (baseScore w S * w.E * w.RL * w.RC)
      ≤ roundUp1 (baseScore w S) := roundUp1_mono _ _ h3' h3
    _ = baseScore w S := by rw [hk, roundUp1_tenth]

/-- C26: in every table state that calls can produce, the Temporal score of
an accepted assignment is not above its Base score, whatever E, RL and RC
are. -/
theorem temporal_le_base (W : WeightTable) (hW : Reachable W)
    (AV AC PR UI S C I A E RL RC CR IR AR MAV MAC MPR MUI MS MC MI MA : String)
    (hacc : (calculateCVSSFromMetrics W
      AV AC PR UI S C I A E RL RC CR IR AR MAV MAC MPR MUI MS MC MI MA).1.success = true) :
    (calculateCVSSFromMetrics W
      AV AC PR UI S C I A E RL RC CR IR AR MAV MAC MPR MUI MS MC MI MA).1.temporalMetricScore ≤
    (calculateCVSSFromMetrics W
      AV AC PR UI S C I A E RL RC CR IR AR MAV MAC MPR MUI MS MC MI MA).1.baseMetricScore := by
  rw [(calculateCVSSFromMetrics_success hW.weightOK
    AV AC PR UI S C I A E RL RC CR IR AR MAV MAC MPR MUI MS MC MI MA hacc).2.2]
  exact temporalScore_le _ S (schemaWeight_nonneg _ _) (schemaWeight_nonneg _ _)
    (schemaWeight_nonneg _ _) (schemaWeight_nonneg _ _) (schemaWeight_nonneg _ _)
    (schemaWeight_temporal_le_one "E" E (Or.inl rfl)) (schemaWeight_nonneg _ _)
    (schemaWeight_temporal_le_one "RL" RL (Or.inr (Or.inl rfl))) (schemaWeight_nonneg _ _)
    (schemaWeight_temporal_le_one "RC" RC (Or.inr (Or.inr rfl)))

theorem temporal_le_base_witness :
    (calculateCVSSFromMetrics Weight "N" "L" "N" "N" "U" "H" "H" "H"
      "F" "X" "X" "X" "X" "X" "X" "X" "X" "X" "X" "X" "X" "X").1.success = true ∧
    (calculateCVSSFromMetrics Weight "N" "L" "N" "N" "U" "H" "H" "H"
      "F" "X" "X" "X" "X" "X" "X" "X" "X" "X" "X" "X" "X" "X").1.temporalMetricScore ≤
    (calculateCVSSFromMetrics Weight "N" "L" "N" "N" "U" "H" "H" "H"
      "F" "X" "X" "X" "X" "X" "X" "X" "X" "X" "X" "X" "X" "X").1.baseMetricScore :=
  ⟨accepted_with_E_F,
   temporal_le_base Weight Reachable.init "N" "L" "N" "N" "U" "H" "H" "H"
      "F" "X" "X" "X" "X" "X" "X" "X" "X" "X" "X" "X" "X" "X" accepted_with_E_F⟩

/-! ## What a call does to the weight table -/

theorem findWeight_weightAt (W : WeightTable) (k v k' v' : String) :
    findWeight (weightAt W k v).2 k' v' =
      if k' = k ∧ v' = v then some ((findWeight W k v).getD 0) else findWeight W k' v' := by
  unfold weightAt findWeight StdMap.index
  cases hk : W.find k with
  | none =>
    by_cases e : k' = k
    · subst e
      by_cases e' : v' = v <;> simp [StdMap.find_assign, StdMap.find, StdMap.assign, hk, e']
    · simp [StdMap.find_assign, e]
  | some inner =>
    by_cases e : k' = k
    · subst e
      cases hv : inner.find v with
      | none =>
        by_cases e' : v' = v
        · subst e'
          simp [StdMap.find_assign, hk, hv]
        · simp [StdMap.find_assign, hk, hv, e']
      | some w =>
        by_cases e' : v' = v
        · subst e'
          simp [StdMap.find_assign, hk, hv]
        · simp [StdMap.find_assign, hk, hv, e']
    · cases hv : inner.find v <;> simp [StdMap.find_assign, hk, hv, e]

theorem AddsOnlyZeros.refl (W : WeightTable) : AddsOnlyZeros W W :=
  fun _ _ => ⟨fun _ h => h, fun _ h => Or.inl h⟩

theorem AddsOnlyZeros.trans {W W' W'' : WeightTable} (h : AddsOnlyZeros W W')
    (h' : AddsOnlyZeros W' W'') : AddsOnlyZeros W W'' := by
  intro k v
  refine ⟨fun w hw => (h' k v).1 w ((h k v).1 w hw), fun w hw => ?_⟩
  rcases (h' k v).2 w hw with h1 | h1
  · exact (h k v).2 w h1
  · exact Or.inr h1

theorem addsOnlyZeros_weightAt (W : WeightTable) (k v : String) :
    AddsOnlyZeros W (weightAt W k v).2 := by
  intro k' v'
  rw [findWeight_weightAt]
  by_cases e : k' = k ∧ v' = v
  · obtain ⟨rfl, rfl⟩ := e
    rw [if_pos ⟨rfl, rfl⟩]
    constructor
    · intro w hw
      rw [hw]
      rfl
    · intro w hw
      cases hf : findWeight W k' v' with
      | none =>
        rw [hf] at hw
        exact Or.inr (Option.some.inj hw).symm
      | some w' =>
        rw [hf] at hw
        exact Or.inl hw
  · rw [if_neg e]
    exact ⟨fun _ h => h, fun _ h => Or.inl h⟩

theorem addsOnlyZeros_step {W0 W : WeightTable} (k v : String) (h : AddsOnlyZeros W0 W) :
    AddsOnlyZeros W0 (weightAt W k v).2 :=
  h.trans (addsOnlyZeros_weightAt W k v)

theorem addsOnlyZeros_checkWeight {W0 : WeightTable} (id k v : String)
    (st : List String × WeightTable) (h : AddsOnlyZeros W0 st.2) :
    AddsOnlyZeros W0 (checkWeight id k v st).2 :=
  addsOnlyZeros_step k v h

theorem addsOnlyZeros_checkWeightOrX {W0 : WeightTable} (id k v : String)
    (st : List String × WeightTable) (h : AddsOnlyZeros W0 st.2) :
    AddsOnlyZeros W0 (checkWeightOrX id k v st).2 := by
  unfold checkWeightOrX
  split
  · exact h
  · exact addsOnlyZeros_checkWeight id k v st h

theorem addsOnlyZeros_checkMetricValues (W : WeightTable)
    (AV AC PR UI S C I A E RL RC CR IR AR MAV MAC MPR MUI MS MC MI MA : String) :
    AddsOnlyZeros W (checkMetricValues W
      AV AC PR UI S C I A E RL RC CR IR AR MAV MAC MPR MUI MS MC MI MA).2 := by
  unfold checkMetricValues
  iterate 11 apply addsOnlyZeros_checkWeightOrX
  iterate 11 apply addsOnlyZeros_checkWeight
  exact AddsOnlyZeros.refl W

theorem addsOnlyZeros_gatherWeights (W : WeightTable)
    (AV AC PR UI S C I A E RL RC CR IR AR MAV MAC MPR MUI MS MC MI MA : String) :
    AddsOnlyZeros W (gatherWeights W
      AV AC PR UI S C I A E RL RC CR IR AR MAV MAC MPR MUI MS MC MI MA).2 := by
  unfold gatherWeights
  simp only
  iterate 22 apply addsOnlyZeros_step
  exact AddsOnlyZeros.refl W

theorem calculateCVSSFromMetrics_snd (W : WeightTable)
    (AV AC PR UI S C I A E RL RC CR IR AR MAV MAC MPR MUI MS MC MI MA : String) :
    (calculateCVSSFromMetrics W
      AV AC PR UI S C I A E RL RC CR IR AR MAV MAC MPR MUI MS MC MI MA).2 =
      if (missingBaseMetrics AV AC PR UI S C I A).length > 0 then W
      else if (checkMetricValues W
          AV AC PR UI S C I A E RL RC CR IR AR MAV MAC MPR MUI MS MC MI MA).1.length > 0 then
        (checkMetricValues W
          AV AC PR UI S C I A E RL RC CR IR AR MAV MAC MPR MUI MS MC MI MA).2
      else
        (gatherWeights (checkMetricValues W
          AV AC PR UI S C I A E RL RC CR IR AR MAV MAC MPR MUI MS MC MI MA).2
          AV AC PR UI S C I A E RL RC CR IR AR MAV MAC MPR MUI MS MC MI MA).2 := by
  unfold calculateCVSSFromMetrics
  by_cases h1 : (missingBaseMetrics AV AC PR UI S C I A).length > 0
  · simp only [if_pos h1]
  · by_cases h2 : (checkMetricValues W
        AV AC PR UI S C I A E RL RC CR IR AR MAV MAC MPR MUI MS MC MI MA).1.length > 0
    · simp only [if_neg h1, if_pos h2]
    · simp only [if_neg h1, if_neg h2]

theorem addsOnlyZeros_calculateCVSSFromMetrics (W : WeightTable)
    (AV AC PR UI S C I A E RL RC CR IR AR MAV MAC MPR MUI MS MC MI MA : String) :
    AddsOnlyZeros W (calculateCVSSFromMetrics W
      AV AC PR UI S C I A E RL RC CR IR AR MAV MAC MPR MUI MS MC MI MA).2 := by
  rw [calculateCVSSFromMetrics_snd]
  split_ifs
  · exact AddsOnlyZeros.refl W
  · exact addsOnlyZeros_checkMetricValues W
      AV AC PR UI S C I A E RL RC CR IR AR MAV MAC MPR MUI MS MC MI MA
  · apply AddsOnlyZeros.trans (addsOnlyZeros_checkMetricValues W
      AV AC PR UI S C I A E RL RC CR IR AR MAV MAC MPR MUI MS MC MI MA)
    exact addsOnlyZeros_gatherWeights _
      AV AC PR UI S C I A E RL RC CR IR AR MAV MAC MPR MUI MS MC MI MA

theorem addsOnlyZeros_calculateCVSSFromVector (W : WeightTable) (vectorString : String) :
    AddsOnlyZeros W (calculateCVSSFromVector W vectorString).2 := by
  unfold calculateCVSSFromVector
  simp only
  split_ifs <;>
    first
    | exact AddsOnlyZeros.refl W
    | exact addsOnlyZeros_calculateCVSSFromMetrics W _ _ _ _ _ _ _ _ _ _ _ _ _ _ _ _ _ _ _ _ _ _

theorem calculateCVSSFromMetrics_fst_eq (W : WeightTable) (hW : Reachable W)
    (AV AC PR UI S C I A E RL RC CR IR AR MAV MAC MPR MUI MS MC MI MA : String) :
    (calculateCVSSFromMetrics W
      AV AC PR UI S C I A E RL RC CR IR AR MAV MAC MPR MUI MS MC MI MA).1 =
    (calculateCVSSFromMetrics Weight
      AV AC PR UI S C I A E RL RC CR IR AR MAV MAC MPR MUI MS MC MI MA).1 := by
  rw [calculateCVSSFromMetrics_fst, calculateCVSSFromMetrics_fst,
    weightOf_eq_schemaWeight hW.weightOK, weightOf_Weight_eq]

theorem calculateCVSSFromVector_fst_eq (W : WeightTable) (hW : Reachable W)
    (vectorString : String) :
    (calculateCVSSFromVector W vectorString).1 =
      (calculateCVSSFromVector Weight vectorString).1 := by
  unfold calculateCVSSFromVector
  simp only
  split_ifs <;>
    first
    | exact calculateCVSSFromMetrics_fst_eq W hW _ _ _ _ _ _ _ _ _ _ _ _ _ _ _ _ _ _ _ _ _ _
    | rfl

theorem weightOf_eq_findWeight (W : WeightTable) (k v : String) :
    weightOf W k v = (findWeight W k v).getD 0 := by
  unfold weightOf findWeight
  cases W.find k <;> rfl

/-- C25: in every state `W` of the table that earlier calls can produce,
`calculateCVSSFromMetrics` and `calculateCVSSFromVector` return the result
they return in the initial state. The call keeps every entry of the table
with its weight, every entry it adds has the weight 0, and a pair of keys
without an entry before the call reads as 0, the mark of an unknown value,
after it. -/
theorem result_independent_of_state (W : WeightTable) (hW : Reachable W)
    (AV AC PR UI S C I A E RL RC CR IR AR MAV MAC MPR MUI MS MC MI MA : String)
    (vectorString : String) :
    (calculateCVSSFromMetrics W
      AV AC PR UI S C I A E RL RC CR IR AR MAV MAC MPR MUI MS MC MI MA).1 =
    (calculateCVSSFromMetrics Weight
      AV AC PR UI S C I A E RL RC CR IR AR MAV MAC MPR MUI MS MC MI MA).1 ∧
    (calculateCVSSFromVector W vectorString).1 =
      (calculateCVSSFromVector Weight vectorString).1 ∧
    AddsOnlyZeros W (calculateCVSSFromMetrics W
      AV AC PR UI S C I A E RL RC CR IR AR MAV MAC MPR MUI MS MC MI MA).2 ∧
    AddsOnlyZeros W (calculateCVSSFromVector W vectorString).2 ∧
    ∀ k v, findWeight W k v = none →
      weightOf (calculateCVSSFromMetrics W
        AV AC PR UI S C I A E RL RC CR IR AR MAV MAC MPR MUI MS MC MI MA).2 k v = 0 ∧
      weightOf (calculateCVSSFromVector W vectorString).2 k v = 0 := by
  refine ⟨calculateCVSSFromMetrics_fst_eq W hW _ _ _ _ _ _ _ _ _ _ _ _ _ _ _ _ _ _ _ _ _ _,
    calculateCVSSFromVector_fst_eq W hW _,
    addsOnlyZeros_calculateCVSSFromMetrics W _ _ _ _ _ _ _ _ _ _ _ _ _ _ _ _ _ _ _ _ _ _,
    addsOnlyZeros_calculateCVSSFromVector W _, fun k v h => ?_⟩
  rw [weightOf_calculateCVSSFromMetrics, weightOf_calculateCVSSFromVector,
    weightOf_eq_findWeight, h]
  exact ⟨rfl, rfl⟩

theorem result_independent_of_state_witness :
    Reachable (calculateCVSSFromMetrics Weight "Z" "L" "N" "N" "U" "H" "H" "H"
      "X" "X" "X" "X" "X" "X" "X" "X" "X" "X" "X" "X" "X" "X").2 ∧
    (calculateCVSSFromMetrics
      (calculateCVSSFromMetrics Weight "Z" "L" "N" "N" "U" "H" "H" "H"
        "X" "X" "X" "X" "X" "X" "X" "X" "X" "X" "X" "X" "X" "X").2
      "Z" "L" "N" "N" "U" "H" "H" "H"
      "X" "X" "X" "X" "X" "X" "X" "X" "X" "X" "X" "X" "X" "X").1 =
    (calculateCVSSFromMetrics Weight "Z" "L" "N" "N" "U" "H" "H" "H"
      "X" "X" "X" "X" "X" "X" "X" "X" "X" "X" "X" "X" "X" "X").1 :=
  ⟨Reachable.fromMetrics Reachable.init _ _ _ _ _ _ _ _ _ _ _ _ _ _ _ _ _ _ _ _ _ _,
   (result_independent_of_state _
    (Reachable.fromMetrics Reachable.init _ _ _ _ _ _ _ _ _ _ _ _ _ _ _ _ _ _ _ _ _ _)
    "Z" "L" "N" "N" "U" "H" "H" "H"
    "X" "X" "X" "X" "X" "X" "X" "X" "X" "X" "X" "X" "X" "X"
    "CVSS:3.1/AV:N/AC:L/PR:U/UI:N/S:U/C:H/I:H/A:H").1⟩

/-- C21, evaluated on the initial table: the table has no entry for the
value `"Z"` of AV, no key `"CR"` and no entry for the value `"U"` under
`"PRU"`; after `calculateCVSSFromMetrics` with AV = `"Z"` it has the entry
`"AV"`, `"Z"` with weight 0, after `calculateCVSSFromMetrics` with
CR = `"H"` it has the entry `"CR"`, `"H"` with weight 0, and after
`calculateCVSSFromVector` and `generateJSONFromVector` on a vector with
`PR:U` it has the entry `"PRU"`, `"U"` with weight 0. -/
theorem weight_table_changed :
    findWeight Weight "AV" "Z" = none ∧
    findWeight (calculateCVSSFromMetrics Weight "Z" "L" "N" "N" "U" "H" "H" "H"
      "X" "X" "X" "X" "X" "X" "X" "X" "X" "X" "X" "X" "X" "X").2 "AV" "Z" = some 0 ∧
    Weight.find "CR" = none ∧
    findWeight (calculateCVSSFromMetrics Weight "N" "L" "N" "N" "U" "H" "H" "H"
      "X" "X" "X" "H" "X" "X" "X" "X" "X" "X" "X" "X" "X" "X").2 "CR" "H" = some 0 ∧
    findWeight Weight "PRU" "U" = none ∧
    findWeight (calculateCVSSFromVector Weight
      "CVSS:3.1/AV:N/AC:L/PR:U/UI:N/S:U/C:H/I:H/A:H").2 "PRU" "U" = some 0 ∧
    findWeight (generateJSONFromVector Weight baseMetricsValueNames
      "CVSS:3.1/AV:N/AC:L/PR:U/UI:N/S:U/C:H/I:H/A:H" false).2.1 "PRU" "U" = some 0 := by
  have hv : findWeight (calculateCVSSFromVector Weight
      "CVSS:3.1/AV:N/AC:L/PR:U/UI:N/S:U/C:H/I:H/A:H").2 "PRU" "U" = some 0 := by
    rw [calculateCVSSFromVector_of_values Weight _ "N" "L" "U" "N" "U" "H" "H" "H"
      "X" "X" "X" "X" "X" "X" "X" "X" "X" "X" "X" "X" "X" "X" (by decide) (by decide)
      (by decide), calculateCVSSFromMetrics_snd, if_neg (by decide), if_pos]
    · simp [checkMetricValues, checkWeight, checkWeightOrX, weightAt, StdMap.index,
        StdMap.find, StdMap.assign, Weight, findWeight]
    · rw [checkMetricValues_fst]
      simp [unknownMetrics, flag, weightOf, Weight, StdMap.find]
  refine ⟨by decide, ?_, by decide, ?_, by decide, hv, hv⟩
  · rw [calculateCVSSFromMetrics_snd, if_neg (by decide), if_pos]
    · simp [checkMetricValues, checkWeight, checkWeightOrX, weightAt, StdMap.index,
        StdMap.find, StdMap.assign, Weight, findWeight]
    · rw [checkMetricValues_fst]
      simp [unknownMetrics, flag, weightOf, Weight, StdMap.find]
  · rw [calculateCVSSFromMetrics_snd, if_neg (by decide), if_pos]
    · simp [checkMetricValues, checkWeight, checkWeightOrX, weightAt, StdMap.index,
        StdMap.find, StdMap.assign, Weight, findWeight]
    · rw [checkMetricValues_fst]
      simp [unknownMetrics, flag, weightOf, Weight, StdMap.find]

/-! ## The replacement of a placeholder -/

theorem startsWith_append (pat rest : List Char) : startsWith pat (pat ++ rest) = true := by
  induction pat with
  | nil => cases rest <;> rfl
  | cons p ps ih => simp [startsWith, ih]

theorem replaceAux_skip (pat fmt : List Char) (xs b q : List Char) :
    replaceAux pat fmt xs.length b (xs ++ q) = replaceAux pat fmt 0 b q := by
  induction xs with
  | nil => rfl
  | cons x xs ih =>
    cases hq : xs ++ q with
    | nil =>
      simp only [List.append_eq_nil] at hq
      obtain ⟨rfl, rfl⟩ := hq
      simp [replaceAux]
    | cons y ys =>
      rw [List.cons_append, List.length_cons, replaceAux, ih]

theorem formatMatch_plain (matched before after fmt : List Char) (h : '$' ∉ fmt) :
    formatMatch matched before after FormatState.plain fmt = fmt := by
  induction fmt with
  | nil => rfl
  | cons c rest ih =>
    have hc : c ≠ '$' := fun e => h (e ▸ List.mem_cons_self _ _)
    have hr : '$' ∉ rest := fun e => h (List.mem_cons_of_mem _ e)
    rw [formatMatch, if_neg hc, ih hr]

theorem replaceAux_noOccur (pat fmt : List Char) (text b : List Char)
    (h : occursIn pat text = false) : replaceAux pat fmt 0 b text = text := by
  induction text generalizing b with
  | nil => rfl
  | cons c cs ih =>
    simp only [occursIn, Bool.or_eq_false_iff] at h
    rw [replaceAux, if_neg (by simp [h.1]), ih _ h.2]

theorem replaceAux_before (pat' fmt : List Char) (p rest b : List Char) (hp : '_' ∉ p) :
    replaceAux ('_' :: pat') fmt 0 b (p ++ rest) =
      p ++ replaceAux ('_' :: pat') fmt 0 (b ++ p) rest := by
  induction p generalizing b with
  | nil => simp
  | cons c cs ih =>
    have hc : '_' ≠ c := fun e => hp (e ▸ List.mem_cons_self _ _)
    have hr : '_' ∉ cs := fun e => hp (List.mem_cons_of_mem _ e)
    rw [List.cons_append, replaceAux, if_neg (by simp [startsWith, hc]), ih _ hr]
    simp

theorem replaceAux_match (pat' fmt : List Char) (q b : List Char) (hfmt : '$' ∉ fmt)
    (hq : occursIn ('_' :: pat') q = false) :
    replaceAux ('_' :: pat') fmt 0 b (('_' :: pat') ++ q) = fmt ++ q := by
  have hs := startsWith_append ('_' :: pat') q
  rw [List.cons_append] at hs ⊢
  rw [replaceAux, if_pos hs, formatMatch_plain _ _ _ _ hfmt]
  simp only [List.length_cons, Nat.add_sub_cancel]
  rw [replaceAux_skip, replaceAux_noOccur _ _ _ _ hq]

/-- The replacement of the one occurrence of a placeholder: the text before
it has no underscore, the text after it has no further occurrence, and the
replacement has no dollar sign. -/
theorem replaceAux_step (pat' fmt : List Char) (p q : List Char) (hp : '_' ∉ p)
    (hfmt : '$' ∉ fmt) (hq : occursIn ('_' :: pat') q = false) :
    replaceAux ('_' :: pat') fmt 0 [] (p ++ (('_' :: pat') ++ q)) = p ++ (fmt ++ q) := by
  rw [replaceAux_before _ _ _ _ _ hp, replaceAux_match _ _ _ _ hfmt hq]

theorem generateJSONFromVector_fst (W : WeightTable) (N : NamesTable) (v : String) (o : Bool) :
    (generateJSONFromVector W N v o).1 =
      (renderJSON N (calculateCVSSFromVector W v).1 v o).1 := by
  simp only [generateJSONFromVector]

theorem generateJSONFromVector_names (W : WeightTable) (N : NamesTable) (v : String)
    (o : Bool) :
    (generateJSONFromVector W N v o).2.2 =
      (renderJSON N (calculateCVSSFromVector W v).1 v o).2 := by
  simp only [generateJSONFromVector]

theorem renderJSON_minimal (N : NamesTable) (res : ResultT) (v : String) :
    (renderJSON N res v false).1 =
      fillJson v (fixed1 res.baseMetricScore) (toupper res.baseSeverity) := by
  simp [renderJSON]

theorem renderJSON_extended (N : NamesTable) (res : ResultT) (v : String) :
    (renderJSON N res v true).1 =
      (fillJsonExt N res.baseMetricsValues v (fixed1 res.baseMetricScore)
        (toupper res.baseSeverity)).1 := by
  simp [renderJSON]

theorem regex_replace_step (text pat fmt : String) (p pat' q : List Char)
    (ht : text.toList = p ++ (('_' :: pat') ++ q)) (hpat : pat.toList = '_' :: pat')
    (hp : '_' ∉ p) (hfmt : '$' ∉ fmt.toList) (hq : occursIn ('_' :: pat') q = false) :
    regex_replace text pat fmt = String.mk (p ++ (fmt.toList ++ q)) := by
  unfold regex_replace
  rw [ht, hpat, replaceAux_step _ _ _ _ hp hfmt hq]

/-- The four replacements in the template of the minimal object give the
object of the specification, when the vector string and the score text have
neither an underscore nor a dollar sign and the severity text has no dollar
sign. -/
theorem fillJson_eq (v score sev : String)
    (hv1 : '_' ∉ v.toList) (hv2 : '$' ∉ v.toList)
    (hs1 : '_' ∉ score.toList) (hs2 : '$' ∉ score.toList) (hsev : '$' ∉ sev.toList) :
    fillJson v score sev = minimalJson CVSSVersionIdentifier v score sev := by
  unfold fillJson
  rw [regex_replace_step jsonTemplate "__version__" CVSSVersionIdentifier
    "\x7b\n    \"version\": \"".toList "_version__".toList
    ("\",\n    \"vectorString\": \"__vectorString__\",\n    \"baseScore\": " ++
      "__baseMetricScore__,\n    \"baseSeverity\": \"__baseSeverity__\"\n\x7d\n\n").toList
    (by decide) (by decide) (by decide) (by decide) (by decide)]
  rw [regex_replace_step _ "__vectorString__" v
    "\x7b\n    \"version\": \"CVSS:3.1\",\n    \"vectorString\": \"".toList
    "_vectorString__".toList
    ("\",\n    \"baseScore\": " ++
      "__baseMetricScore__,\n    \"baseSeverity\": \"__baseSeverity__\"\n\x7d\n\n").toList
    (by decide) (by decide) (by decide) hv2 (by decide)]
  rw [regex_replace_step _ "__baseMetricScore__" score
    ("\x7b\n    \"version\": \"CVSS:3.1\",\n    \"vectorString\": \"".toList ++
      (v.toList ++ "\",\n    \"baseScore\": ".toList))
    "_baseMetricScore__".toList
    ",\n    \"baseSeverity\": \"__baseSeverity__\"\n\x7d\n\n".toList
    ?_ (by decide) ?_ hs2 (by decide)]
  rw [regex_replace_step _ "__baseSeverity__" sev
    ("\x7b\n    \"version\": \"CVSS:3.1\",\n    \"vectorString\": \"".toList ++
      (v.toList ++ ("\",\n    \"baseScore\": ".toList ++
        (score.toList ++ ",\n    \"baseSeverity\": \"".toList))))
    "_baseSeverity__".toList "\"\n\x7d\n\n".toList
    ?_ (by decide) ?_ hsev (by decide)]
  · apply String.ext
    simp [minimalJson, CVSSVersionIdentifier, String.data_append]
  · show _ ++ _ = _
    simp only [List.append_assoc]
    exact congrArg (_ ++ ·) (congrArg (_ ++ ·) (congrArg (_ ++ ·) (congrArg (_ ++ ·)
      (by decide))))
  · simp only [List.mem_append, not_or]
    exact ⟨by decide, hv1, by decide, hs1, by decide⟩
  · show _ ++ _ = _
    simp only [List.append_assoc]
    exact congrArg (_ ++ ·) (congrArg (_ ++ ·) (by decide))
  · simp only [List.mem_append, not_or]
    exact ⟨by decide, hv1, by decide⟩

/-! ## The texts written into the template -/

theorem roundHalfEven_natCast (k : ℕ) : roundHalfEven (k : ℚ) = (k : ℤ) := by
  unfold roundHalfEven
  have h : ⌊(k : ℚ)⌋ = (k : ℤ) := Int.floor_natCast k
  rw [h, if_pos]
  push_cast
  norm_num

theorem fixed1_tenth (k : ℕ) : fixed1 ((k : ℚ) / 10) = oneDecimal k := by
  unfold fixed1 oneDecimal
  have h0 : ¬ ((k : ℚ) / 10 < 0) := not_lt.2 (by positivity)
  have habs : |(k : ℚ) / 10| * 10 = (k : ℚ) := by
    rw [abs_of_nonneg (by positivity)]
    ring
  rw [if_neg h0, habs, roundHalfEven_natCast, Int.toNat_natCast]
  rfl

theorem oneDecimal_chars (k : ℕ) (hk : k ≤ 100) :
    '_' ∉ (oneDecimal k).toList ∧ '$' ∉ (oneDecimal k).toList := by
  interval_cases k <;> decide

theorem toupper_chars (sev : String)
    (h : sev ∈ ["None", "Low", "Medium", "High", "Critical"]) :
    '$' ∉ (toupper sev).toList := by
  simp only [List.mem_cons, List.mem_singleton, List.not_mem_nil, or_false] at h
  rcases h with rfl | rfl | rfl | rfl | rfl <;> decide

theorem mem_slashJoin (ts : List (List Char)) (c : Char) (h : c ∈ slashJoin ts) :
    c = '/' ∨ ∃ t ∈ ts, c ∈ t := by
  induction ts with
  | nil => simp [slashJoin] at h
  | cons t rest ih =>
    cases rest with
    | nil => exact Or.inr ⟨t, List.mem_singleton_self t, by simpa [slashJoin] using h⟩
    | cons t' rest' =>
      have e : slashJoin (t :: t' :: rest') = t ++ '/' :: slashJoin (t' :: rest') := rfl
      rw [e, List.mem_append, List.mem_cons] at h
      rcases h with h | h | h
      · exact Or.inr ⟨t, List.mem_cons_self _ _, h⟩
      · exact Or.inl h
      · rcases ih h with h' | ⟨u, hu, hc⟩
        · exact Or.inl h'
        · exact Or.inr ⟨u, List.mem_cons_of_mem _ hu, hc⟩

set_option maxRecDepth 100000 in
theorem tokenText_chars :
    ∀ t ∈ grammarTokens, ∀ c ∈ ['_', '$', ',', 'n'], c ∉ tokenText t := by
  decide

/-- A string that matches the vector grammar has no underscore, dollar sign
or comma and no letter `n`. -/
theorem grammar_chars (s : String) (h : regex_match s vectorStringRegex = true)
    (c : Char) (hc : c ∈ ['_', '$', ',', 'n']) : c ∉ s.toList := by
  obtain ⟨toks, -, htoks, rfl⟩ := (regex_match_iff s).1 h
  intro hm
  have hm' : c ∈ "CVSS:3.1/".toList ++ slashJoin (toks.map tokenText) := hm
  rw [List.mem_append] at hm'
  rcases hm' with hm' | hm'
  · have hp : ∀ c ∈ ['_', '$', ',', 'n'], c ∉ "CVSS:3.1/".toList := by decide
    exact hp c hc hm'
  · rcases mem_slashJoin _ c hm' with rfl | ⟨t, ht, hct⟩
    · revert hc
      decide
    · obtain ⟨tok, htok, rfl⟩ := List.mem_map.1 ht
      exact tokenText_chars tok (htoks tok htok) c hc hct

/-- A vector string that `calculateCVSSFromVector` scores matches the vector
grammar; the Base score of the result is a multiple of 0.1 between 0 and 10,
and its Base severity is the rating of that score. -/
theorem calculateCVSSFromVector_success (W : WeightTable) (hW : Reachable W) (v : String)
    (hs : (calculateCVSSFromVector W v).1.success = true) :
    regex_match v vectorStringRegex = true ∧
    IsScore (calculateCVSSFromVector W v).1.baseMetricScore ∧
    (calculateCVSSFromVector W v).1.baseSeverity =
      severityRating (calculateCVSSFromVector W v).1.baseMetricScore := by
  by_cases hm : regex_match v vectorStringRegex = true
  · refine ⟨hm, ?_⟩
    unfold calculateCVSSFromVector at hs ⊢
    simp only [hm, not_true_eq_false, if_false] at hs ⊢
    split_ifs at hs ⊢ with h1
    · simp [ResultT.failure] at hs
    · have h := (calculateCVSSFromMetrics_success hW.weightOK _ _ _ _ _ _ _ _ _ _ _ _ _ _ _ _ _
        _ _ _ _ _ hs).2.2
      rw [h]
      exact ⟨(isScore_scores _ _ _ _ _ _ _ _ _ _ _ _ _ _ _ _ _ _ _ _ _ _).1, rfl⟩
  · rw [calculateCVSSFromVector_malformed W v hm] at hs
    simp [ResultT.failure] at hs

theorem isScore_nat (s : ℚ) (hs : IsScore s) : ∃ k : ℕ, k ≤ 100 ∧ s = (k : ℚ) / 10 := by
  obtain ⟨k, hk0, hk100, rfl⟩ := tenth_bounds s hs.1 hs.2.1 hs.2.2
  refine ⟨k.toNat, by omega, ?_⟩
  have : (k : ℚ) = ((k.toNat : ℕ) : ℚ) := by
    exact_mod_cast (Int.toNat_of_nonneg hk0).symm
  rw [this]

theorem vector_PHLNULLH (W : WeightTable) :
    calculateCVSSFromVector W "CVSS:3.1/AV:P/AC:H/PR:L/UI:N/S:U/C:L/I:L/A:H" =
      calculateCVSSFromMetrics W "P" "H" "L" "N" "U" "L" "L" "H"
        "X" "X" "X" "X" "X" "X" "X" "X" "X" "X" "X" "X" "X" "X" :=
  calculateCVSSFromVector_of_values W _ "P" "H" "L" "N" "U" "L" "L" "H"
    "X" "X" "X" "X" "X" "X" "X" "X" "X" "X" "X" "X" "X" "X" (by decide) (by decide) (by decide)

/-- The minimal object for the vector string of the test: the score is
written `5.1` and the severity `MEDIUM`. -/
theorem minimal_json_test (W : WeightTable) (hW : Reachable W) (N : NamesTable) :
    (generateJSONFromVector W N "CVSS:3.1/AV:P/AC:H/PR:L/UI:N/S:U/C:L/I:L/A:H" false).1 =
      minimalJson "CVSS:3.1" "CVSS:3.1/AV:P/AC:H/PR:L/UI:N/S:U/C:L/I:L/A:H" "5.1" "MEDIUM" := by
  have hacc := accepted_PHLNULLH_reachable W hW
  have hscore := (baseMetricScore_tests W hW).1
  have hsev := baseSeverity_of_success W _ _ _ _ _ _ _ _ _ _ _ _ _ _ _ _ _ _ _ _ _ _ hacc
  rw [hscore] at hsev
  have h51 : (5.1 : ℚ) = ((51 : ℕ) : ℚ) / 10 := by norm_num
  have hrate : severityRating (5.1 : ℚ) = "Medium" := by
    norm_num [severityRating, severityScan, severityRatings]
  rw [generateJSONFromVector_fst, renderJSON_minimal, vector_PHLNULLH, hscore, hsev, hrate,
    h51, fixed1_tenth]
  exact fillJson_eq _ _ _ (by decide) (by decide) (by decide) (by decide) (by decide)

/-- C22: for a vector string `v` that `calculateCVSSFromVector` scores, in any
table state that calls can produce, `generateJSONFromVector(v, false)`
returns the text of the object with the four fields: `"version"` is
`"CVSS:3.1"`, `"vectorString"` is `v` as passed in, `"baseScore"` is the Base
score `k / 10` written with one decimal place, and `"baseSeverity"` is the
Base severity in upper case. For the vector string of the test the score is
written `5.1` and the severity `MEDIUM`. -/
theorem minimal_json_of_success (W : WeightTable) (hW : Reachable W) (N : NamesTable)
    (v : String) (hs : (calculateCVSSFromVector W v).1.success = true) :
    (∃ k : ℕ, k ≤ 100 ∧ (calculateCVSSFromVector W v).1.baseMetricScore = (k : ℚ) / 10 ∧
      (generateJSONFromVector W N v false).1 =
        minimalJson "CVSS:3.1" v (oneDecimal k)
          (toupper (calculateCVSSFromVector W v).1.baseSeverity)) ∧
    (generateJSONFromVector W N "CVSS:3.1/AV:P/AC:H/PR:L/UI:N/S:U/C:L/I:L/A:H" false).1 =
      minimalJson "CVSS:3.1" "CVSS:3.1/AV:P/AC:H/PR:L/UI:N/S:U/C:L/I:L/A:H" "5.1" "MEDIUM" := by
  refine ⟨?_, minimal_json_test W hW N⟩
  obtain ⟨hm, hscore, hsev⟩ := calculateCVSSFromVector_success W hW v hs
  obtain ⟨k, hk, hk'⟩ := isScore_nat _ hscore
  refine ⟨k, hk, hk', ?_⟩
  have hmem := severityRating_mem _ hscore
  rw [← hsev] at hmem
  rw [generateJSONFromVector_fst, renderJSON_minimal, hk', fixed1_tenth]
  exact fillJson_eq v _ _ (grammar_chars v hm '_' (by decide))
    (grammar_chars v hm '$' (by decide))
    (oneDecimal_chars k hk).1 (oneDecimal_chars k hk).2 (toupper_chars _ hmem)

theorem vector_PHLNULLH_success :
    (calculateCVSSFromVector Weight
      "CVSS:3.1/AV:P/AC:H/PR:L/UI:N/S:U/C:L/I:L/A:H").1.success = true := by
  rw [vector_PHLNULLH]
  exact accepted_PHLNULLH

theorem minimal_json_of_success_witness :
    (calculateCVSSFromVector Weight
      "CVSS:3.1/AV:P/AC:H/PR:L/UI:N/S:U/C:L/I:L/A:H").1.success = true ∧
    (generateJSONFromVector Weight baseMetricsValueNames
      "CVSS:3.1/AV:P/AC:H/PR:L/UI:N/S:U/C:L/I:L/A:H" false).1 =
      minimalJson "CVSS:3.1" "CVSS:3.1/AV:P/AC:H/PR:L/UI:N/S:U/C:L/I:L/A:H" "5.1" "MEDIUM" :=
  ⟨vector_PHLNULLH_success,
   (minimal_json_of_success Weight Reachable.init baseMetricsValueNames
    "CVSS:3.1/AV:P/AC:H/PR:L/UI:N/S:U/C:L/I:L/A:H" vector_PHLNULLH_success).2⟩

/-! ## Occurrences of a text in another -/

theorem startsWith_mem (pat t : List Char) (h : startsWith pat t = true) :
    ∀ c ∈ pat, c ∈ t := by
  induction pat generalizing t with
  | nil => simp
  | cons p ps ih =>
    cases t with
    | nil => simp [startsWith] at h
    | cons x xs =>
      simp only [startsWith, Bool.and_eq_true, decide_eq_true_eq] at h
      intro c hc
      rcases List.mem_cons.1 hc with rfl | hc
      · rw [h.1]
        exact List.mem_cons_self _ _
      · exact List.mem_cons_of_mem _ (ih xs h.2 c hc)

theorem occursIn_mem (pat t : List Char) (h : occursIn pat t = true) :
    ∀ c ∈ pat, c ∈ t := by
  induction t with
  | nil => exact startsWith_mem pat [] h
  | cons x xs ih =>
    simp only [occursIn, Bool.or_eq_true] at h
    rcases h with h | h
    · exact startsWith_mem pat _ h
    · exact fun c hc => List.mem_cons_of_mem _ (ih h c hc)

theorem startsWith_split (pat a b : List Char) (c : Char) (hc : c ∉ pat)
    (h : startsWith pat (a ++ c :: b) = true) : startsWith pat a = true := by
  induction pat generalizing a with
  | nil => cases a <;> rfl
  | cons p ps ih =>
    have hp : p ≠ c := fun e => hc (e ▸ List.mem_cons_self _ _)
    have hps : c ∉ ps := fun e => hc (List.mem_cons_of_mem _ e)
    cases a with
    | nil => simp [startsWith, hp] at h
    | cons x xs =>
      simp only [List.cons_append, startsWith, Bool.and_eq_true, decide_eq_true_eq] at h ⊢
      exact ⟨h.1, ih xs hps h.2⟩

/-- An occurrence of `pat` in a text does not reach across a character that
`pat` does not have: it lies before that character or after it. -/
theorem occursIn_split (pat a b : List Char) (c : Char) (hc : c ∉ pat)
    (h : occursIn pat (a ++ c :: b) = true) :
    occursIn pat a = true ∨ occursIn pat b = true := by
  induction a with
  | nil =>
    simp only [List.nil_append, occursIn, Bool.or_eq_true] at h
    rcases h with h | h
    · have := startsWith_split pat [] b c hc h
      exact Or.inl this
    · exact Or.inr h
  | cons x xs ih =>
    simp only [List.cons_append, occursIn, Bool.or_eq_true] at h ⊢
    rcases h with h | h
    · exact Or.inl (Or.inl (startsWith_split pat (x :: xs) b c hc h))
    · rcases ih h with h' | h'
      · exact Or.inl (Or.inr h')
      · exact Or.inr h'

theorem occursIn_of_startsWith (pat t : List Char) (h : startsWith pat t = true) :
    occursIn pat t = true := by
  cases t with
  | nil => exact h
  | cons x xs => simp [occursIn, h]

theorem occursIn_cons (pat : List Char) (x : Char) (t : List Char)
    (h : occursIn pat t = true) : occursIn pat (x :: t) = true := by
  simp [occursIn, h]

theorem occursIn_of_startsWith_append (m s t : List Char)
    (h : startsWith (m ++ s) t = true) : occursIn s t = true := by
  induction m generalizing t with
  | nil => exact occursIn_of_startsWith s t h
  | cons p ps ih =>
    cases t with
    | nil => simp [startsWith] at h
    | cons x xs =>
      simp only [List.cons_append, startsWith, Bool.and_eq_true] at h
      exact occursIn_cons s x xs (ih xs h.2)

/-- Where a text occurs, its end occurs. -/
theorem occursIn_of_append (m s t : List Char) (h : occursIn (m ++ s) t = true) :
    occursIn s t = true := by
  induction t with
  | nil => exact occursIn_of_startsWith_append m s [] h
  | cons x xs ih =>
    simp only [occursIn, Bool.or_eq_true] at h
    rcases h with h | h
    · exact occursIn_of_startsWith_append m s _ h
    · exact occursIn_cons s x xs (ih h)

theorem joinMetrics_ends (xs : List String) (h : xs ≠ []) :
    ∃ m : List Char, (joinMetrics xs).toList = m ++ [',', ' '] := by
  rcases List.eq_nil_or_concat xs with e | ⟨ys, y, rfl⟩
  · exact absurd e h
  · refine ⟨(ys.foldl (fun acc s => acc ++ s ++ ", ") "").toList ++ y.toList, ?_⟩
    unfold joinMetrics
    rw [List.concat_eq_append, List.foldl_append]
    simp [String.data_append]

/-! ## The JSON text for a rejected vector string -/

/-- The result of `calculateCVSSFromVector` for a vector string it rejects:
the kind `MalformedVectorString` with an empty message when the string does
not match the grammar, and otherwise one of the three other kinds with a
message that lists at least one metric. -/
theorem calculateCVSSFromVector_failure (W : WeightTable) (v : String)
    (hs : (calculateCVSSFromVector W v).1.success = false) :
    ((calculateCVSSFromVector W v).1 = ResultT.failure "MalformedVectorString" "" ∧
      ¬ regex_match v vectorStringRegex = true) ∨
    (regex_match v vectorStringRegex = true ∧
      ∃ kind ∈ ["MultipleDefinitionsOfMetric", "MissingBaseMetric", "UnknownMetricValue"],
        ∃ xs : List String, xs ≠ [] ∧
          (calculateCVSSFromVector W v).1 = ResultT.failure kind (joinMetrics xs)) := by
  by_cases hm : regex_match v vectorStringRegex = true
  · refine Or.inr ⟨hm, ?_⟩
    unfold calculateCVSSFromVector at hs ⊢
    simp only [hm, not_true_eq_false, if_false] at hs ⊢
    split_ifs at hs ⊢ with h1
    · exact ⟨_, by simp, _, List.ne_nil_of_length_pos h1, rfl⟩
    · rw [calculateCVSSFromMetrics_fst] at hs ⊢
      split_ifs at hs ⊢ with h2 h3
      · exact ⟨_, by simp, _, List.ne_nil_of_length_pos h2, rfl⟩
      · exact ⟨_, by simp, _, List.ne_nil_of_length_pos h3, rfl⟩
      · simp [successResult] at hs
  · exact Or.inl ⟨by rw [calculateCVSSFromVector_malformed W v hm], hm⟩

theorem fixed1_zero : fixed1 0 = "0.0" := by
  have h := fixed1_tenth 0
  rw [Nat.cast_zero, zero_div] at h
  rw [h]
  decide

theorem renderJSON_failure (N : NamesTable) (kind message v : String) :
    (renderJSON N (ResultT.failure kind message) v false).1 = fillJson v "0.0" "" := by
  rw [renderJSON_minimal]
  show fillJson v (fixed1 0) (toupper "") = _
  rw [fixed1_zero]
  rfl

theorem fillJson_failure (v : String) (hv1 : '_' ∉ v.toList) (hv2 : '$' ∉ v.toList) :
    fillJson v "0.0" "" = minimalJson "CVSS:3.1" v "0.0" "" :=
  fillJson_eq v "0.0" "" hv1 hv2 (by decide) (by decide) (by decide)

theorem metricValue_nil (k : String) : metricValue [] k = "" := rfl

theorem nameAt_fst (N : NamesTable) (k v : String) : (nameAt N k v).1 = nameOf N k v := by
  unfold nameAt nameOf StdMap.index
  cases hk : N.find k with
  | none => simp [StdMap.find]
  | some inner =>
    cases hv : inner.find v <;> simp [hv]

theorem nameOf_nameAt (N : NamesTable) (k v k' v' : String) :
    nameOf (nameAt N k v).2 k' v' = nameOf N k' v' := by
  unfold nameAt nameOf StdMap.index
  cases hk : N.find k with
  | none =>
    by_cases e : k' = k
    · subst e
      by_cases e' : v' = v <;> simp [StdMap.find_assign, StdMap.find, StdMap.assign, hk, e']
    · simp [StdMap.find_assign, e]
  | some inner =>
    by_cases e : k' = k
    · subst e
      cases hv : inner.find v with
      | none =>
        by_cases e' : v' = v
        · subst e'
          simp [StdMap.find_assign, hk, hv]
        · simp [StdMap.find_assign, hk, hv, e']
      | some w => simp [StdMap.find_assign, hk, hv]
    · cases hv : inner.find v <;> simp [StdMap.find_assign, hk, hv, e]

set_option maxRecDepth 100000 in
/-- The twelve replacements in the template of the extended object, for the
result of a failure and a names table that reads the empty name for an empty
value: the object whose eight names and severity are empty and whose score
is `0.0`. -/
theorem fillJsonExt_failure (N : NamesTable) (hN : ∀ k, nameOf N k "" = "") (v : String)
    (hv1 : '_' ∉ v.toList) (hv2 : '$' ∉ v.toList) :
    (fillJsonExt N [] v "0.0" "").1 =
      extendedJson "CVSS:3.1" v "" "" "" "" "" "" "" "" "0.0" "" := by
  unfold fillJsonExt
  simp only [metricValue_nil, nameAt_fst, nameOf_nameAt, hN]
  rw [regex_replace_step jsonExtTemplate "__version__" CVSSVersionIdentifier
    ("\x7b\n" ++
      "   \"version\": \"").toList
    "_version__".toList
    ("\",\n" ++
      "   \"vectorString\": \"__vectorString__\",\n" ++
      "   \"attackVector\": \"__AV__\",\n" ++
      "   \"attackComplexity\": \"__AC__\",\n" ++
      "   \"privilegesRequired\": \"__PR__\",\n" ++
      "   \"userInteraction\": \"__UI__\",\n" ++
      "   \"scope\": \"__S__\",\n" ++
      "   \"confidentialityImpact\": \"__C__\",\n" ++
      "   \"integrityImpact\": \"__I__\",\n" ++
      "   \"availabilityImpact\": \"__A__\",\n" ++
      "   \"baseScore\": __baseMetricScore__,\n" ++
      "   \"baseSeverity\": \"__baseSeverity__\",\n" ++
      "\x7d\n" ++
      "\n").toList
    (by decide) (by decide) (by decide) (by decide) (by decide)]
  rw [regex_replace_step _ "__vectorString__" v
    ("\x7b\n" ++
      "   \"version\": \"CVSS:3.1\",\n" ++
      "   \"vectorString\": \"").toList
    "_vectorString__".toList
    ("\",\n" ++
      "   \"attackVector\": \"__AV__\",\n" ++
      "   \"attackComplexity\": \"__AC__\",\n" ++
      "   \"privilegesRequired\": \"__PR__\",\n" ++
      "   \"userInteraction\": \"__UI__\",\n" ++
      "   \"scope\": \"__S__\",\n" ++
      "   \"confidentialityImpact\": \"__C__\",\n" ++
      "   \"integrityImpact\": \"__I__\",\n" ++
      "   \"availabilityImpact\": \"__A__\",\n" ++
      "   \"baseScore\": __baseMetricScore__,\n" ++
      "   \"baseSeverity\": \"__baseSeverity__\",\n" ++
      "\x7d\n" ++
      "\n").toList
    (by decide) (by decide) (by decide) hv2 (by decide)]
  rw [regex_replace_step _ "__AV__" ""
    (("\x7b\n" ++
      "   \"version\": \"CVSS:3.1\",\n" ++
      "   \"vectorString\": \"").toList ++ (v.toList ++
      ("\",\n" ++
      "   \"attackVector\": \"").toList))
    "_AV__".toList
    ("\",\n" ++
      "   \"attackComplexity\": \"__AC__\",\n" ++
      "   \"privilegesRequired\": \"__PR__\",\n" ++
      "   \"userInteraction\": \"__UI__\",\n" ++
      "   \"scope\": \"__S__\",\n" ++
      "   \"confidentialityImpact\": \"__C__\",\n" ++
      "   \"integrityImpact\": \"__I__\",\n" ++
      "   \"availabilityImpact\": \"__A__\",\n" ++
      "   \"baseScore\": __baseMetricScore__,\n" ++
      "   \"baseSeverity\": \"__baseSeverity__\",\n" ++
      "\x7d\n" ++
      "\n").toList
    (by
      show _ ++ _ = _
      simp only [List.append_assoc]
      exact congrArg (_ ++ ·) (congrArg (_ ++ ·) (by decide)))
    (by decide)
    (by
      simp only [List.mem_append, not_or]
      exact ⟨by decide, hv1, by decide⟩)
    (by decide) (by decide)]
  rw [regex_replace_step _ "__AC__" ""
    (("\x7b\n" ++
      "   \"version\": \"CVSS:3.1\",\n" ++
      "   \"vectorString\": \"").toList ++ (v.toList ++
      ("\",\n" ++
      "   \"attackVector\": \"\",\n" ++
      "   \"attackComplexity\": \"").toList))
    "_AC__".toList
    ("\",\n" ++
      "   \"privilegesRequired\": \"__PR__\",\n" ++
      "   \"userInteraction\": \"__UI__\",\n" ++
      "   \"scope\": \"__S__\",\n" ++
      "   \"confidentialityImpact\": \"__C__\",\n" ++
      "   \"integrityImpact\": \"__I__\",\n" ++
      "   \"availabilityImpact\": \"__A__\",\n" ++
      "   \"baseScore\": __baseMetricScore__,\n" ++
      "   \"baseSeverity\": \"__baseSeverity__\",\n" ++
      "\x7d\n" ++
      "\n").toList
    (by
      show _ ++ _ = _
      simp only [List.append_assoc]
      exact congrArg (_ ++ ·) (congrArg (_ ++ ·) (by decide)))
    (by decide)
    (by
      simp only [List.mem_append, not_or]
      exact ⟨by decide, hv1, by decide⟩)
    (by decide) (by decide)]
  rw [regex_replace_step _ "__PR__" ""
    (("\x7b\n" ++
      "   \"version\": \"CVSS:3.1\",\n" ++
      "   \"vectorString\": \"").toList ++ (v.toList ++
      ("\",\n" ++
      "   \"attackVector\": \"\",\n" ++
      "   \"attackComplexity\": \"\",\n" ++
      "   \"privilegesRequired\": \"").toList))
    "_PR__".toList
    ("\",\n" ++
      "   \"userInteraction\": \"__UI__\",\n" ++
      "   \"scope\": \"__S__\",\n" ++
      "   \"confidentialityImpact\": \"__C__\",\n" ++
      "   \"integrityImpact\": \"__I__\",\n" ++
      "   \"availabilityImpact\": \"__A__\",\n" ++
      "   \"baseScore\": __baseMetricScore__,\n" ++
      "   \"baseSeverity\": \"__baseSeverity__\",\n" ++
      "\x7d\n" ++
      "\n").toList
    (by
      show _ ++ _ = _
      simp only [List.append_assoc]
      exact congrArg (_ ++ ·) (congrArg (_ ++ ·) (by decide)))
    (by decide)
    (by
      simp only [List.mem_append, not_or]
      exact ⟨by decide, hv1, by decide⟩)
    (by decide) (by decide)]
  rw [regex_replace_step _ "__UI__" ""
    (("\x7b\n" ++
      "   \"version\": \"CVSS:3.1\",\n" ++
      "   \"vectorString\": \"").toList ++ (v.toList ++
      ("\",\n" ++
      "   \"attackVector\": \"\",\n" ++
      "   \"attackComplexity\": \"\",\n" ++
      "   \"privilegesRequired\": \"\",\n" ++
      "   \"userInteraction\": \"").toList))
    "_UI__".toList
    ("\",\n" ++
      "   \"scope\": \"__S__\",\n" ++
      "   \"confidentialityImpact\": \"__C__\",\n" ++
      "   \"integrityImpact\": \"__I__\",\n" ++
      "   \"availabilityImpact\": \"__A__\",\n" ++
      "   \"baseScore\": __baseMetricScore__,\n" ++
      "   \"baseSeverity\": \"__baseSeverity__\",\n" ++
      "\x7d\n" ++
      "\n").toList
    (by
      show _ ++ _ = _
      simp only [List.append_assoc]
      exact congrArg (_ ++ ·) (congrArg (_ ++ ·) (by decide)))
    (by decide)
    (by
      simp only [List.mem_append, not_or]
      exact ⟨by decide, hv1, by decide⟩)
    (by decide) (by decide)]
  rw [regex_replace_step _ "__S__" ""
    (("\x7b\n" ++
      "   \"version\": \"CVSS:3.1\",\n" ++
      "   \"vectorString\": \"").toList ++ (v.toList ++
      ("\",\n" ++
      "   \"attackVector\": \"\",\n" ++
      "   \"attackComplexity\": \"\",\n" ++
      "   \"privilegesRequired\": \"\",\n" ++
      "   \"userInteraction\": \"\",\n" ++
      "   \"scope\": \"").toList))
    "_S__".toList
    ("\",\n" ++
      "   \"confidentialityImpact\": \"__C__\",\n" ++
      "   \"integrityImpact\": \"__I__\",\n" ++
      "   \"availabilityImpact\": \"__A__\",\n" ++
      "   \"baseScore\": __baseMetricScore__,\n" ++
      "   \"baseSeverity\": \"__baseSeverity__\",\n" ++
      "\x7d\n" ++
      "\n").toList
    (by
      show _ ++ _ = _
      simp only [List.append_assoc]
      exact congrArg (_ ++ ·) (congrArg (_ ++ ·) (by decide)))
    (by decide)
    (by
      simp only [List.mem_append, not_or]
      exact ⟨by decide, hv1, by decide⟩)
    (by decide) (by decide)]
  rw [regex_replace_step _ "__C__" ""
    (("\x7b\n" ++
      "   \"version\": \"CVSS:3.1\",\n" ++
      "   \"vectorString\": \"").toList ++ (v.toList ++
      ("\",\n" ++
      "   \"attackVector\": \"\",\n" ++
      "   \"attackComplexity\": \"\",\n" ++
      "   \"privilegesRequired\": \"\",\n" ++
      "   \"userInteraction\": \"\",\n" ++
      "   \"scope\": \"\",\n" ++
      "   \"confidentialityImpact\": \"").toList))
    "_C__".toList
    ("\",\n" ++
      "   \"integrityImpact\": \"__I__\",\n" ++
      "   \"availabilityImpact\": \"__A__\",\n" ++
      "   \"baseScore\": __baseMetricScore__,\n" ++
      "   \"baseSeverity\": \"__baseSeverity__\",\n" ++
      "\x7d\n" ++
      "\n").toList
    (by
      show _ ++ _ = _
      simp only [List.append_assoc]
      exact congrArg (_ ++ ·) (congrArg (_ ++ ·) (by decide)))
    (by decide)
    (by
      simp only [List.mem_append, not_or]
      exact ⟨by decide, hv1, by decide⟩)
    (by decide) (by decide)]
  rw [regex_replace_step _ "__I__" ""
    (("\x7b\n" ++
      "   \"version\": \"CVSS:3.1\",\n" ++
      "   \"vectorString\": \"").toList ++ (v.toList ++
      ("\",\n" ++
      "   \"attackVector\": \"\",\n" ++
      "   \"attackComplexity\": \"\",\n" ++
      "   \"privilegesRequired\": \"\",\n" ++
      "   \"userInteraction\": \"\",\n" ++
      "   \"scope\": \"\",\n" ++
      "   \"confidentialityImpact\": \"\",\n" ++
      "   \"integrityImpact\": \"").toList))
    "_I__".toList
    ("\",\n" ++
      "   \"availabilityImpact\": \"__A__\",\n" ++
      "   \"baseScore\": __baseMetricScore__,\n" ++
      "   \"baseSeverity\": \"__baseSeverity__\",\n" ++
      "\x7d\n" ++
      "\n").toList
    (by
      show _ ++ _ = _
      simp only [List.append_assoc]
      exact congrArg (_ ++ ·) (congrArg (_ ++ ·) (by decide)))
    (by decide)
    (by
      simp only [List.mem_append, not_or]
      exact ⟨by decide, hv1, by decide⟩)
    (by decide) (by decide)]
  rw [regex_replace_step _ "__A__" ""
    (("\x7b\n" ++
      "   \"version\": \"CVSS:3.1\",\n" ++
      "   \"vectorString\": \"").toList ++ (v.toList ++
      ("\",\n" ++
      "   \"attackVector\": \"\",\n" ++
      "   \"attackComplexity\": \"\",\n" ++
      "   \"privilegesRequired\": \"\",\n" ++
      "   \"userInteraction\": \"\",\n" ++
      "   \"scope\": \"\",\n" ++
      "   \"confidentialityImpact\": \"\",\n" ++
      "   \"integrityImpact\": \"\",\n" ++
      "   \"availabilityImpact\": \"").toList))
    "_A__".toList
    ("\",\n" ++
      "   \"baseScore\": __baseMetricScore__,\n" ++
      "   \"baseSeverity\": \"__baseSeverity__\",\n" ++
      "\x7d\n" ++
      "\n").toList
    (by
      show _ ++ _ = _
      simp only [List.append_assoc]
      exact congrArg (_ ++ ·) (congrArg (_ ++ ·) (by decide)))
    (by decide)
    (by
      simp only [List.mem_append, not_or]
      exact ⟨by decide, hv1, by decide⟩)
    (by decide) (by decide)]
  rw [regex_replace_step _ "__baseMetricScore__" "0.0"
    (("\x7b\n" ++
      "   \"version\": \"CVSS:3.1\",\n" ++
      "   \"vectorString\": \"").toList ++ (v.toList ++
      ("\",\n" ++
      "   \"attackVector\": \"\",\n" ++
      "   \"attackComplexity\": \"\",\n" ++
      "   \"privilegesRequired\": \"\",\n" ++
      "   \"userInteraction\": \"\",\n" ++
      "   \"scope\": \"\",\n" ++
      "   \"confidentialityImpact\": \"\",\n" ++
      "   \"integrityImpact\": \"\",\n" ++
      "   \"availabilityImpact\": \"\",\n" ++
      "   \"baseScore\": ").toList))
    "_baseMetricScore__".toList
    (",\n" ++
      "   \"baseSeverity\": \"__baseSeverity__\",\n" ++
      "\x7d\n" ++
      "\n").toList
    (by
      show _ ++ _ = _
      simp only [List.append_assoc]
      exact congrArg (_ ++ ·) (congrArg (_ ++ ·) (by decide)))
    (by decide)
    (by
      simp only [List.mem_append, not_or]
      exact ⟨by decide, hv1, by decide⟩)
    (by decide) (by decide)]
  rw [regex_replace_step _ "__baseSeverity__" ""
    (("\x7b\n" ++
      "   \"version\": \"CVSS:3.1\",\n" ++
      "   \"vectorString\": \"").toList ++ (v.toList ++
      ("\",\n" ++
      "   \"attackVector\": \"\",\n" ++
      "   \"attackComplexity\": \"\",\n" ++
      "   \"privilegesRequired\": \"\",\n" ++
      "   \"userInteraction\": \"\",\n" ++
      "   \"scope\": \"\",\n" ++
      "   \"confidentialityImpact\": \"\",\n" ++
      "   \"integrityImpact\": \"\",\n" ++
      "   \"availabilityImpact\": \"\",\n" ++
      "   \"baseScore\": 0.0,\n" ++
      "   \"baseSeverity\": \"").toList))
    "_baseSeverity__".toList
    ("\",\n" ++
      "\x7d\n" ++
      "\n").toList
    (by
      show _ ++ _ = _
      simp only [List.append_assoc]
      exact congrArg (_ ++ ·) (congrArg (_ ++ ·) (by decide)))
    (by decide)
    (by
      simp only [List.mem_append, not_or]
      exact ⟨by decide, hv1, by decide⟩)
    (by decide) (by decide)]
  apply String.ext
  simp [extendedJson, String.data_append]

theorem nameOf_fillJsonExt (N : NamesTable) (values : StdMap String)
    (v score sev : String) (k v' : String) :
    nameOf (fillJsonExt N values v score sev).2 k v' = nameOf N k v' := by
  simp only [fillJsonExt, nameOf_nameAt]

theorem nameOf_baseMetricsValueNames (k : String) : nameOf baseMetricsValueNames k "" = "" := by
  simp only [nameOf, baseMetricsValueNames, StdMap.find]
  split_ifs <;> rfl

/-- The text that `generateJSONFromVector` builds from the result of a
failure, for a vector string without underscore and dollar sign. -/
theorem renderJSON_failure_text (N : NamesTable) (hN : ∀ k, nameOf N k "" = "")
    (kind message v : String) (hv1 : '_' ∉ v.toList) (hv2 : '$' ∉ v.toList) (o : Bool) :
    (renderJSON N (ResultT.failure kind message) v o).1 = failureJson v o := by
  cases o
  · rw [renderJSON_failure]
    exact fillJson_failure v hv1 hv2
  · rw [renderJSON_extended]
    show (fillJsonExt N [] v (fixed1 0) (toupper "")).1 = _
    rw [fixed1_zero]
    exact fillJsonExt_failure N hN v hv1 hv2

set_option maxRecDepth 100000 in
theorem failureJson_parts (v : String) (o : Bool) :
    ∃ pre ∈ failureJsonParts, ∃ post ∈ failureJsonParts,
      (failureJson v o).toList =
        pre.toList ++ Char.ofNat 34 :: (v.toList ++ Char.ofNat 34 :: post.toList) := by
  cases o
  · refine ⟨_, List.mem_cons_self _ _, _, List.mem_cons_of_mem _ (List.mem_cons_self _ _), ?_⟩
    simp [failureJson, minimalJson, String.data_append]
  · refine ⟨_, List.mem_cons_of_mem _ (List.mem_cons_of_mem _ (List.mem_cons_self _ _)), _,
      List.mem_cons_of_mem _ (List.mem_cons_of_mem _ (List.mem_cons_of_mem _
        (List.mem_cons_self _ _))), ?_⟩
    simp [failureJson, extendedJson, String.data_append]

/-- A text without a double quote that occurs in the object for a failure,
and not in its fixed parts, occurs in the vector string. -/
theorem failureJson_occurs (pat : List Char) (v : String) (o : Bool)
    (hq : Char.ofNat 34 ∉ pat)
    (hfix : ∀ part ∈ failureJsonParts, occursIn pat part.toList = false)
    (h : occursIn pat (failureJson v o).toList = true) :
    occursIn pat v.toList = true := by
  obtain ⟨pre, hpre, post, hpost, e⟩ := failureJson_parts v o
  rw [e] at h
  rcases occursIn_split _ _ _ _ hq h with h | h
  · rw [hfix pre hpre] at h
    exact absurd h (by decide)
  · rcases occursIn_split _ _ _ _ hq h with h | h
    · exact h
    · rw [hfix post hpost] at h
      exact absurd h (by decide)

set_option maxRecDepth 100000 in
theorem errorKinds_fixed :
    ∀ pat ∈ ", " :: errorKinds, Char.ofNat 34 ∉ pat.toList ∧
      ∀ part ∈ failureJsonParts, occursIn pat.toList part.toList = false := by
  decide

theorem kind_has_n :
    ∀ kind ∈ ["MultipleDefinitionsOfMetric", "MissingBaseMetric", "UnknownMetricValue"],
      kind ∈ errorKinds ∧ 'n' ∈ kind.toList := by
  decide

/-- The object for a failure, built for a vector string that matches the
grammar, has no error kind with the letter `n` and no message that ends with
a comma and a blank. -/
theorem failureJson_clean (v : String) (o : Bool)
    (hm : regex_match v vectorStringRegex = true) (kind : String)
    (hk : kind ∈ ["MultipleDefinitionsOfMetric", "MissingBaseMetric", "UnknownMetricValue"])
    (xs : List String) (hxs : xs ≠ []) :
    occursIn kind.toList (failureJson v o).toList = false ∧
    occursIn (joinMetrics xs).toList (failureJson v o).toList = false := by
  constructor
  · rw [Bool.eq_false_iff]
    intro h
    have hfix := errorKinds_fixed kind (List.mem_cons_of_mem _ (kind_has_n kind hk).1)
    have hv := failureJson_occurs _ v o hfix.1 hfix.2 h
    exact grammar_chars v hm 'n' (by decide) (occursIn_mem _ _ hv 'n' (kind_has_n kind hk).2)
  · rw [Bool.eq_false_iff]
    intro h
    obtain ⟨m, e⟩ := joinMetrics_ends xs hxs
    rw [e] at h
    have h' : occursIn ", ".toList (failureJson v o).toList = true :=
      occursIn_of_append m _ _ h
    have hfix := errorKinds_fixed ", " (List.mem_cons_self _ _)
    have hv := failureJson_occurs _ v o hfix.1 hfix.2 h'
    exact grammar_chars v hm ',' (by decide) (occursIn_mem _ _ hv ',' (by decide))

theorem nameOf_renderJSON (N : NamesTable) (res : ResultT) (v : String) (o : Bool)
    (k v' : String) : nameOf (renderJSON N res v o).2 k v' = nameOf N k v' := by
  simp only [renderJSON, nameOf_fillJsonExt]

theorem vector_PR_U_rejected :
    (calculateCVSSFromVector Weight
      "CVSS:3.1/AV:N/AC:L/PR:U/UI:N/S:U/C:H/I:H/A:H").1.success = false := by
  rw [calculateCVSSFromVector_of_values Weight _ "N" "L" "U" "N" "U" "H" "H" "H"
    "X" "X" "X" "X" "X" "X" "X" "X" "X" "X" "X" "X" "X" "X" (by decide) (by decide) (by decide),
    calculateCVSSFromMetrics_fst]
  simp [missingBaseMetrics, checkDefined, unknownMetrics, flag, weightOf, Weight, StdMap.find]
  norm_num
  rfl

/-- C27, as stated, fails: `"MalformedVectorString"` is rejected with the
error kind `MalformedVectorString`, and the text that
`generateJSONFromVector` returns for it contains that error kind, in the
field `"vectorString"` that repeats the input. -/
theorem error_kind_in_json :
    (calculateCVSSFromVector Weight "MalformedVectorString").1.success = false ∧
    (calculateCVSSFromVector Weight "MalformedVectorString").1.errorType =
      "MalformedVectorString" ∧
    (generateJSONFromVector Weight baseMetricsValueNames "MalformedVectorString" false).1 =
      minimalJson "CVSS:3.1" "MalformedVectorString" "0.0" "" ∧
    occursIn "MalformedVectorString".toList
      (generateJSONFromVector Weight baseMetricsValueNames
        "MalformedVectorString" false).1.toList = true := by
  have hres := calculateCVSSFromVector_malformed Weight "MalformedVectorString" (by decide)
  have ht : (generateJSONFromVector Weight baseMetricsValueNames
      "MalformedVectorString" false).1 =
      minimalJson "CVSS:3.1" "MalformedVectorString" "0.0" "" := by
    rw [generateJSONFromVector_fst, hres, renderJSON_failure]
    exact fillJson_failure _ (by decide) (by decide)
  refine ⟨congrArg (fun r => r.1.success) hres, congrArg (fun r => r.1.errorType) hres, ht, ?_⟩
  rw [ht]
  decide

/-- C27, amended: for a vector string `v` that `calculateCVSSFromVector`
rejects, and a names table that reads the empty name for an empty value,
`generateJSONFromVector` returns the text it builds for a failure without
kind and message, and the names table reads after the call as before. When
`v` has no underscore and no dollar sign the text is the template filled with
`v`, the score `0.0` and an empty severity, and the error kind occurs in it
only if it occurs in `v`. For the three kinds other than
`MalformedVectorString` neither the error kind nor the error message occurs
in the text; for `MalformedVectorString` the error message is empty. -/
theorem json_of_rejected (W : WeightTable) (N : NamesTable)
    (hN : ∀ k, nameOf N k "" = "") (v : String) (o : Bool)
    (hs : (calculateCVSSFromVector W v).1.success = false) :
    (calculateCVSSFromVector W v).1.errorType ∈ errorKinds ∧
    (generateJSONFromVector W N v o).1 = (renderJSON N (ResultT.failure "" "") v o).1 ∧
    (∀ k v', nameOf (generateJSONFromVector W N v o).2.2 k v' = nameOf N k v') ∧
    ('_' ∉ v.toList → '$' ∉ v.toList →
      (generateJSONFromVector W N v o).1 = failureJson v o ∧
      (occursIn (calculateCVSSFromVector W v).1.errorType.toList
          (generateJSONFromVector W N v o).1.toList = true →
        occursIn (calculateCVSSFromVector W v).1.errorType.toList v.toList = true)) ∧
    ((calculateCVSSFromVector W v).1.errorType ≠ "MalformedVectorString" →
      (generateJSONFromVector W N v o).1 = failureJson v o ∧
      occursIn (calculateCVSSFromVector W v).1.errorType.toList
        (generateJSONFromVector W N v o).1.toList = false ∧
      occursIn (calculateCVSSFromVector W v).1.errorMessage.toList
        (generateJSONFromVector W N v o).1.toList = false) ∧
    ((calculateCVSSFromVector W v).1.errorType = "MalformedVectorString" →
      (calculateCVSSFromVector W v).1.errorMessage = "") := by
  have hnames : ∀ k v', nameOf (generateJSONFromVector W N v o).2.2 k v' = nameOf N k v' := by
    intro k v'
    rw [generateJSONFromVector_names, nameOf_renderJSON]
  rcases calculateCVSSFromVector_failure W v hs with ⟨hres, -⟩ | ⟨hm, kind, hk, xs, hxs, hres⟩
  · have ht : (generateJSONFromVector W N v o).1 =
        (renderJSON N (ResultT.failure "MalformedVectorString" "") v o).1 := by
      rw [generateJSONFromVector_fst, hres]
    rw [hres]
    refine ⟨by decide, ht, hnames, fun hv1 hv2 => ?_, fun hne => absurd rfl hne, fun _ => rfl⟩
    have ht' := ht.trans (renderJSON_failure_text N hN _ _ v hv1 hv2 o)
    refine ⟨ht', fun h => ?_⟩
    rw [ht'] at h
    have hfix := errorKinds_fixed "MalformedVectorString" (by decide)
    exact failureJson_occurs _ v o hfix.1 hfix.2 h
  · have hv1 := grammar_chars v hm '_' (by decide)
    have hv2 := grammar_chars v hm '$' (by decide)
    have ht : (generateJSONFromVector W N v o).1 =
        (renderJSON N (ResultT.failure kind (joinMetrics xs)) v o).1 := by
      rw [generateJSONFromVector_fst, hres]
    have ht' := ht.trans (renderJSON_failure_text N hN _ _ v hv1 hv2 o)
    have hclean := failureJson_clean v o hm kind hk xs hxs
    have hne : kind ≠ "MalformedVectorString" := by
      revert hk
      intro hk e
      rw [e] at hk
      exact absurd hk (by decide)
    rw [hres]
    refine ⟨(kind_has_n kind hk).1, ht, hnames, fun _ _ => ⟨ht', fun h => ?_⟩,
      fun _ => ⟨ht', ?_, ?_⟩, fun e => absurd e hne⟩
    · rw [ht'] at h
      have : occursIn (ResultT.failure kind (joinMetrics xs)).errorType.toList
          (failureJson v o).toList = false := hclean.1
      rw [this] at h
      exact absurd h (by decide)
    · rw [ht']
      exact hclean.1
    · rw [ht']
      exact hclean.2

theorem json_of_rejected_witness :
    (calculateCVSSFromVector Weight
      "CVSS:3.1/AV:N/AC:L/PR:U/UI:N/S:U/C:H/I:H/A:H").1.success = false ∧
    (generateJSONFromVector Weight baseMetricsValueNames
      "CVSS:3.1/AV:N/AC:L/PR:U/UI:N/S:U/C:H/I:H/A:H" false).1 =
      minimalJson "CVSS:3.1" "CVSS:3.1/AV:N/AC:L/PR:U/UI:N/S:U/C:H/I:H/A:H" "0.0" "" := by
  have hs : (calculateCVSSFromVector Weight
      "CVSS:3.1/AV:N/AC:L/PR:U/UI:N/S:U/C:H/I:H/A:H").1.success = false := by
    exact vector_PR_U_rejected
  exact ⟨hs, ((json_of_rejected Weight baseMetricsValueNames nameOf_baseMetricsValueNames
    "CVSS:3.1/AV:N/AC:L/PR:U/UI:N/S:U/C:H/I:H/A:H" false hs).2.2.2.1
    (by decide) (by decide)).1⟩

end CVSS
